import Mathlib

/-!
# sonic3d.js : gameplay simulation

A shallow embedding of the simulation core of `src/js/sonic3d.js`
(`updateSonic`, `updateRings`, `updateEnemies`, `handleDeath`,
`handleLevelComplete`) and the properties the specification states about it.

Modelling conventions

* JavaScript numbers that carry physical quantities (positions, velocities,
  times) are real numbers: rounding of IEEE doubles is not modelled.  The
  counters `score`, `rings`, `lives`, `speed` are integers.
* The global mutable variables (`gameState`, `sonic`, `rings`, `enemies`,
  the pending `setTimeout` callbacks, the music flags) are the fields of one
  record, `World`, which every function takes and returns.
* What the browser supplies during a frame (keyboard and touch state, the
  bounding boxes of the platforms, the goal marker, `Date.now()`) is an
  argument of the function that reads it.
* The three.js vector operations used by the code (`length`, `normalize`,
  `multiplyScalar`, `sub`, `distanceTo`) are defined as three.js defines them.
-/

namespace Sonic3D

noncomputable section

/-! ## three.js vectors -/

/-- The class `THREE.Vector2`. -/
structure Vec2 where
  x : ℝ
  y : ℝ

/-- The class `THREE.Vector3`. -/
structure Vec3 where
  x : ℝ
  y : ℝ
  z : ℝ

/-- Method `Vector2.length()`: `Math.sqrt(x*x + y*y)`. -/
def Vec2.length (v : Vec2) : ℝ := Real.sqrt (v.x * v.x + v.y * v.y)

/-- Method `Vector2.multiplyScalar(s)`. -/
def Vec2.multiplyScalar (v : Vec2) (s : ℝ) : Vec2 := ⟨v.x * s, v.y * s⟩

/-- Method `Vector2.divideScalar(s)`: `multiplyScalar(1 / s)`. -/
def Vec2.divideScalar (v : Vec2) (s : ℝ) : Vec2 := v.multiplyScalar (1 / s)

/-- Method `Vector2.normalize()`: `divideScalar(length() || 1)`. -/
def Vec2.normalize (v : Vec2) : Vec2 :=
  v.divideScalar (if v.length = 0 then 1 else v.length)

/-- Method `Vector3.sub(v)`. -/
def Vec3.sub (a b : Vec3) : Vec3 := ⟨a.x - b.x, a.y - b.y, a.z - b.z⟩

/-- Method `Vector3.length()`. -/
def Vec3.length (v : Vec3) : ℝ := Real.sqrt (v.x * v.x + v.y * v.y + v.z * v.z)

/-- Method `Vector3.multiplyScalar(s)`. -/
def Vec3.multiplyScalar (v : Vec3) (s : ℝ) : Vec3 := ⟨v.x * s, v.y * s, v.z * s⟩

/-- Method `Vector3.divideScalar(s)`. -/
def Vec3.divideScalar (v : Vec3) (s : ℝ) : Vec3 := v.multiplyScalar (1 / s)

/-- Method `Vector3.normalize()`: `divideScalar(length() || 1)`. -/
def Vec3.normalize (v : Vec3) : Vec3 :=
  v.divideScalar (if v.length = 0 then 1 else v.length)

/-- Method `Vector3.distanceToSquared(v)`. -/
def Vec3.distanceToSquared (a b : Vec3) : ℝ :=
  (a.x - b.x) * (a.x - b.x) + (a.y - b.y) * (a.y - b.y) + (a.z - b.z) * (a.z - b.z)

/-- Method `Vector3.distanceTo(v)`: `Math.sqrt(distanceToSquared(v))`. -/
def Vec3.distanceTo (a b : Vec3) : ℝ := Real.sqrt (a.distanceToSquared b)

/-! ## Constants (lines 28-34) -/

def GRAVITY : ℝ := -30
def JUMP_FORCE : ℝ := 20
def MAX_SPEED : ℝ := 150
def ACCELERATION : ℝ := 2.5
def FRICTION : ℝ := 0.95
def BOOST_SPEED : ℝ := 300

/-! ## Data model -/

/-- The global `gameState` object (lines 6-19). -/
structure GameState where
  score : ℤ
  rings : ℤ
  speed : ℤ
  boost : ℤ
  isJumping : Bool
  velocity : Vec3
  lives : ℤ
  isDead : Bool
  levelComplete : Bool
  checkpointPosition : Vec3
  invulnerable : Bool
  invulnerableTime : ℝ

/-- The player object `sonic`: the fields of the scene node the simulation
reads or writes. -/
structure Sonic where
  position : Vec3
  rotationX : ℝ
  rotationY : ℝ
  visible : Bool

/-- A ring of the `rings` array. -/
structure Ring where
  position : Vec3
  rotationX : ℝ
  rotationY : ℝ

/-- An enemy of the `enemies` array with its `userData` (lines 601-606).
`initialPos` is `none` when `userData.initialPos` is absent. -/
structure Enemy where
  position : Vec3
  rotationY : ℝ
  speed : ℝ
  direction : ℝ
  initialPos : Option Vec3
  patrolRadius : ℝ

/-- A member of the `platforms` array as `updateSonic` sees it in one frame:
whether it has a `geometry`, and the corners of
`new THREE.Box3().setFromObject(platform)`. -/
structure Platform where
  geometry : Bool
  boxMin : Vec3
  boxMax : Vec3

/-- The callbacks the code hands to `setTimeout`: the game-over alert
(1000 ms, line 1053), the respawn (2000 ms, line 1059) and the
level-complete alert (3000 ms, line 1081). -/
inductive Timer
  | gameOver
  | respawn
  | levelComplete
  deriving DecidableEq, Repr

/-- The music control state: the flag `isMusicPlaying`, whether `window.Tone`
(which carries `Tone.Transport`) is present, whether the Tone transport runs,
and `musicSequencer.isPlaying` when a sequencer exists (`none`:
`musicSequencer` is undefined). Further: whether `audioContext` has been
created, the number of parts in `window.midiParts` when it is set, the
`measureCount` of the sequencer and the number of pending next-pattern
timers. -/
structure Music where
  isMusicPlaying : Bool
  tone : Bool
  transportStarted : Bool
  sequencerPlaying : Option Bool
  audioContext : Bool := false
  midiParts : Option ℕ := none
  measureCount : ℕ := 0
  patternTimers : ℕ := 0

/-- The keyboard table `keys` and `touchState`, as `updateSonic` reads them. -/
structure Input where
  w : Bool
  arrowup : Bool
  s : Bool
  arrowdown : Bool
  a : Bool
  arrowleft : Bool
  d : Bool
  arrowright : Bool
  shift : Bool
  space : Bool
  joystickActive : Bool
  joystickDeltaX : ℝ
  joystickDeltaY : ℝ
  touchJump : Bool
  touchBoost : Bool

/-- All mutable state of the simulation. `timers` holds the `setTimeout`
callbacks that were scheduled and have not fired. -/
structure World where
  gameState : GameState
  sonic : Sonic
  rings : List Ring
  enemies : List Enemy
  timers : List Timer
  music : Music

/-! ## Run state handlers -/

/-- The function `stopMusic` (lines 1746-1765), without the DOM indicator. -/
def stopMusic (m : Music) : Music :=
  if m.isMusicPlaying = false then m
  else
    let m1 := { m with isMusicPlaying := false }
    if m1.tone = true then { m1 with transportStarted := false }
    else
      match m1.sequencerPlaying with
      | some _ => { m1 with sequencerPlaying := some false }
      | none => m1

/-- The function `handleDeath` (lines 1045-1068): guarded by `isDead`; sets `isDead`,
decrements `lives` and schedules the game-over alert or the respawn. -/
def handleDeath (w : World) : World :=
  if w.gameState.isDead = true then w
  else
    let g : GameState := { w.gameState with isDead := true, lives := w.gameState.lives - 1 }
    if g.lives ≤ 0 then
      { w with gameState := g, timers := w.timers ++ [Timer.gameOver] }
    else
      { w with gameState := g, timers := w.timers ++ [Timer.respawn] }

/-- The body of the respawn callback (lines 1060-1065). -/
def respawnCallback (w : World) : World :=
  { w with
    sonic := { w.sonic with position := w.gameState.checkpointPosition }
    gameState := { w.gameState with
      velocity := ⟨0, 0, 0⟩
      isDead := false
      rings := 0
      invulnerable := true
      invulnerableTime := 3 } }

/-- The function `handleLevelComplete` (lines 1070-1085): guarded by `levelComplete`; adds
the bonus, stops the music and schedules the completion alert. The victory
fanfare only emits audio and is not part of the state. -/
def handleLevelComplete (w : World) : World :=
  if w.gameState.levelComplete = true then w
  else
    let g : GameState := { w.gameState with levelComplete := true }
    let g : GameState := { g with score := g.score + (1000 + g.rings * 10) }
    { w with
      gameState := g
      music := stopMusic w.music
      timers := w.timers ++ [Timer.levelComplete] }

/-! ## `updateSonic` (lines 802-938) -/

/-- The function `Math.atan2(y, x)`, the angle of the point `(x, y)`. -/
def atan2 (y x : ℝ) : ℝ := Complex.arg ⟨x, y⟩

/-- Lines 806-819, `moveX`: keyboard first, the active joystick overrides. -/
def moveX (inp : Input) : ℝ :=
  let m : ℝ := 0
  let m := if (inp.a || inp.arrowleft) = true then -1 else m
  let m := if (inp.d || inp.arrowright) = true then 1 else m
  if inp.joystickActive = true then inp.joystickDeltaX else m

/-- Lines 806-819, `moveZ`. -/
def moveZ (inp : Input) : ℝ :=
  let m : ℝ := 0
  let m := if (inp.w || inp.arrowup) = true then -1 else m
  let m := if (inp.s || inp.arrowdown) = true then 1 else m
  if inp.joystickActive = true then inp.joystickDeltaY else m

/-- Line 822. -/
def isBoosting (inp : Input) : Bool := inp.shift || inp.touchBoost

/-- Line 823: the cap in force during the tick. -/
def speedCap (inp : Input) : ℝ := if isBoosting inp = true then BOOST_SPEED else MAX_SPEED

/-- Lines 824-825: acceleration of the horizontal velocity. -/
def accelerate (inp : Input) (v : Vec3) : Vec3 :=
  { v with x := v.x + moveX inp * ACCELERATION, z := v.z + moveZ inp * ACCELERATION }

/-- Lines 827-836, the speed-limit step: when the horizontal velocity is
longer than `speed` it is normalised and scaled to `speed`. -/
def limitSpeed (speed : ℝ) (v : Vec3) : Vec3 :=
  let horizontalVelocity : Vec2 := ⟨v.x, v.z⟩
  if horizontalVelocity.length > speed then
    let h := horizontalVelocity.normalize.multiplyScalar speed
    { v with x := h.x, z := h.y }
  else v

/-- Lines 838-840: friction. -/
def applyFriction (v : Vec3) : Vec3 :=
  { v with x := v.x * FRICTION, z := v.z * FRICTION }

/-- The horizontal speed `sqrt(vx^2 + vz^2)` of a velocity. -/
def horizontalSpeed (v : Vec3) : ℝ := (Vec2.mk v.x v.z).length

/-- The body of `platforms.forEach` (lines 860-885) as a function of the
pair `(onPlatform, platformTop)`. -/
def platformCheck (pos : Vec3) (vy : ℝ) (acc : Bool × ℝ) (p : Platform) : Bool × ℝ :=
  if p.geometry = false then acc
  else
    let xOverlap : Prop := pos.x ≥ p.boxMin.x ∧ pos.x ≤ p.boxMax.x
    let zOverlap : Prop := pos.z ≥ p.boxMin.z ∧ pos.z ≤ p.boxMax.z
    if xOverlap ∧ zOverlap then
      if pos.y ≤ p.boxMax.y + 2 ∧ pos.y ≥ p.boxMax.y - 5 ∧ vy ≤ 0 then
        (true, max acc.2 p.boxMax.y)
      else acc
    else acc

/-- Lines 856-885: `onPlatform` and `platformTop` after the loop. -/
def platformScan (pos : Vec3) (vy : ℝ) (platforms : List Platform) : Bool × ℝ :=
  platforms.foldl (platformCheck pos vy) (false, -100)

/-- Line 843: the jump condition. -/
def jumpPressed (inp : Input) (g : GameState) : Bool :=
  (inp.space || inp.touchJump) && !g.isJumping

/-- Lines 821-849: the velocity after acceleration, speed limit, friction,
jump impulse and gravity. -/
def integrateVelocity (inp : Input) (deltaTime : ℝ) (g : GameState) : Vec3 :=
  let v := applyFriction (limitSpeed (speedCap inp) (accelerate inp g.velocity))
  let v := if jumpPressed inp g = true then { v with y := JUMP_FORCE } else v
  { v with y := v.y + GRAVITY * deltaTime }

/-- Lines 851-854: the position after integration, before collision
resolution. -/
def integratePosition (inp : Input) (deltaTime : ℝ) (w : World) : Vec3 :=
  let v := integrateVelocity inp deltaTime w.gameState
  ⟨w.sonic.position.x + v.x * deltaTime,
   w.sonic.position.y + v.y * deltaTime,
   w.sonic.position.z + v.z * deltaTime⟩

/-- Lines 805-897: input, acceleration, speed limit, friction, jump, gravity,
integration of the position and collision resolution. -/
def physicsStep (inp : Input) (platforms : List Platform) (deltaTime : ℝ) (w : World) : World :=
  let g := w.gameState
  let v := integrateVelocity inp deltaTime g
  let isJumping := if jumpPressed inp g = true then true else g.isJumping
  let pos := integratePosition inp deltaTime w
  let scan := platformScan pos v.y platforms
  if scan.1 = true then
    { w with
      sonic := { w.sonic with position := { pos with y := scan.2 + 2 } }
      gameState := { g with velocity := { v with y := 0 }, isJumping := false } }
  else if pos.y ≤ 3 then
    { w with
      sonic := { w.sonic with position := { pos with y := 3 } }
      gameState := { g with velocity := { v with y := 0 }, isJumping := false } }
  else
    { w with
      sonic := { w.sonic with position := pos }
      gameState := { g with velocity := v, isJumping := isJumping } }

/-- Lines 899-902: the water check. -/
def deathCheck (w : World) : World :=
  if w.sonic.position.y < -15 then handleDeath w else w

/-- Lines 904-910: the goal check. -/
def goalCheck (endGoal : Option Vec3) (w : World) : World :=
  match endGoal with
  | none => w
  | some goal =>
    if w.sonic.position.distanceTo goal < 15 then handleLevelComplete w else w

/-- Lines 912-937: facing, spin, speed display and the invulnerability
countdown. `horizontalVelocity` is the vector of lines 828-836. The flash
test `Math.floor(t * 10) % 2 === 0` asks whether the floor is even, which the
remainder of either sign convention decides. -/
def finishStep (inp : Input) (deltaTime : ℝ) (horizontalVelocity : Vec2) (w : World) : World :=
  let s := w.sonic
  let s := if moveX inp ≠ 0 ∨ moveZ inp ≠ 0 then
      { s with rotationY := atan2 (moveX inp) (moveZ inp) } else s
  let s := if w.gameState.isJumping = true then
      { s with rotationX := s.rotationX + 0.3 } else { s with rotationX := 0 }
  let g : GameState := { w.gameState with speed := ⌊horizontalVelocity.length⌋ }
  if g.invulnerable = true then
    let g : GameState := { g with invulnerableTime := g.invulnerableTime - deltaTime }
    if g.invulnerableTime ≤ 0 then
      { w with gameState := { g with invulnerable := false }, sonic := { s with visible := true } }
    else
      { w with
        gameState := g
        sonic := { s with visible := decide (⌊g.invulnerableTime * 10⌋ % 2 = 0) } }
  else
    { w with gameState := g, sonic := s }

/-- The function `updateSonic(deltaTime)` (lines 802-938). -/
def updateSonic (inp : Input) (platforms : List Platform) (endGoal : Option Vec3)
    (deltaTime : ℝ) (w : World) : World :=
  if w.gameState.isDead = true ∨ w.gameState.levelComplete = true then w
  else
    let limited := limitSpeed (speedCap inp) (accelerate inp w.gameState.velocity)
    finishStep inp deltaTime ⟨limited.x, limited.z⟩
      (goalCheck endGoal (deathCheck (physicsStep inp platforms deltaTime w)))

/-! ## `updateRings` and `updateEnemies` (lines 970-1043) -/

/-- The loop `Array.prototype.forEach` over a global array that the callback may
shorten: the indices `k, k+1, ..., k+n-1` are visited in order, `n` being the
length read before the first call; the callback `f k` does nothing when index
`k` is no longer present. -/
def forEachIdx (f : ℕ → World → World) : ℕ → ℕ → World → World
  | 0, _, w => w
  | n + 1, k, w => forEachIdx f n (k + 1) (f k w)

/-- The callback of `rings.forEach` (lines 971-984) at `index`; `now` is the
value of `Date.now()` read there. The rings are distinct objects, so
`rings.indexOf(ring)` is `index`. -/
def ringCallback (deltaTime : ℝ) (now : ℕ → ℝ) (index : ℕ) (w : World) : World :=
  match w.rings[index]? with
  | none => w
  | some ring =>
    let ring : Ring := { ring with
      rotationY := ring.rotationY + deltaTime * 2
      rotationX := Real.sin (now index * 0.001 + (index : ℝ)) * 0.2 }
    let w : World := { w with rings := w.rings.set index ring }
    if w.sonic.position.distanceTo ring.position < 3 then
      { w with
        rings := w.rings.eraseIdx index
        gameState := { w.gameState with
          rings := w.gameState.rings + 1
          score := w.gameState.score + 10 } }
    else w

/-- The function `updateRings(deltaTime)` (lines 970-985). -/
def updateRings (deltaTime : ℝ) (now : ℕ → ℝ) (w : World) : World :=
  forEachIdx (ringCallback deltaTime now) w.rings.length 0 w

/-- Lines 989-1009: the patrol movement and rotation of one enemy. -/
def patrol (deltaTime : ℝ) (e : Enemy) : Enemy :=
  let e : Enemy :=
    match e.initialPos with
    | some p =>
      let e : Enemy := { e with direction := e.direction + deltaTime * 0.5 }
      { e with position :=
          { e.position with
            x := p.x + Real.cos e.direction * e.patrolRadius
            z := p.z + Real.sin e.direction * e.patrolRadius } }
    | none =>
      let e : Enemy := { e with position :=
          { e.position with
            x := e.position.x + Real.cos e.direction * e.speed
            z := e.position.z + Real.sin e.direction * e.speed } }
      let e : Enemy := if |e.position.x| > 90 then { e with direction := Real.pi - e.direction } else e
      if |e.position.z| > 90 then { e with direction := -e.direction } else e
  { e with rotationY := e.rotationY + 0.02 }

/-- Lines 1023-1038, "take damage": with rings, they are lost, the player is
knocked back away from the enemy and becomes invulnerable; without rings the
player dies. -/
def takeDamage (enemy : Enemy) (w : World) : World :=
  let g := w.gameState
  if g.rings > 0 then
    let knockback := (w.sonic.position.sub enemy.position).normalize
    { w with
      gameState := { g with
        rings := 0
        velocity := ⟨knockback.x * 20, 10, knockback.z * 20⟩
        invulnerable := true
        invulnerableTime := 2 } }
  else handleDeath w

/-- Lines 1011-1041: the collision of the enemy at `index` (already moved)
with the player. The enemies are distinct objects, so
`enemies.indexOf(enemy)` is `index`. -/
def enemyCollision (index : ℕ) (enemy : Enemy) (w : World) : World :=
  let g := w.gameState
  if g.invulnerable = false ∧ g.isDead = false then
    if w.sonic.position.distanceTo enemy.position < 4 then
      if g.isJumping = true ∧ g.velocity.y < 0 then
        { w with
          enemies := w.enemies.eraseIdx index
          gameState := { g with score := g.score + 100, velocity := { g.velocity with y := 10 } } }
      else takeDamage enemy w
    else w
  else w

/-- The callback of `enemies.forEach` (lines 988-1042) at `index`. -/
def enemyCallback (deltaTime : ℝ) (index : ℕ) (w : World) : World :=
  match w.enemies[index]? with
  | none => w
  | some enemy =>
    let enemy := patrol deltaTime enemy
    enemyCollision index enemy { w with enemies := w.enemies.set index enemy }

/-- The function `updateEnemies(deltaTime)` (lines 987-1043). -/
def updateEnemies (deltaTime : ℝ) (w : World) : World :=
  forEachIdx (enemyCallback deltaTime) w.enemies.length 0 w

/-! ## Runs -/

/-- The initial `gameState` (lines 6-19). -/
def initialGameState : GameState :=
  { score := 0, rings := 0, speed := 0, boost := 100, isJumping := false
    velocity := ⟨0, 0, 0⟩, lives := 3, isDead := false, levelComplete := false
    checkpointPosition := ⟨0, 3, 0⟩, invulnerable := false, invulnerableTime := 0 }

/-- A world at the start of a run: the initial `gameState`, no timer
pending, any player node, rings, enemies and music state. -/
def initialWorld (sonic : Sonic) (rings : List Ring) (enemies : List Enemy) (music : Music) :
    World :=
  { gameState := initialGameState, sonic := sonic, rings := rings, enemies := enemies
    timers := [], music := music }

/-- The respawn timer fires: enabled when a respawn callback is pending,
which is then consumed and run. -/
def fireRespawn (w : World) : World :=
  if Timer.respawn ∈ w.timers then
    respawnCallback { w with timers := w.timers.erase Timer.respawn }
  else w

/-- The events of a run short of a page reload: the three update functions
of a frame (`animate`, lines 1134-1137) with what they read from the
browser, a call of one of the handlers, and the firing of the respawn
timer. -/
inductive Event
  | sonic (inp : Input) (platforms : List Platform) (endGoal : Option Vec3) (deltaTime : ℝ)
  | rings (deltaTime : ℝ) (now : ℕ → ℝ)
  | enemies (deltaTime : ℝ)
  | death
  | levelComplete
  | respawn

/-- The effect of one event. -/
def step (w : World) : Event → World
  | .sonic inp platforms endGoal deltaTime => updateSonic inp platforms endGoal deltaTime w
  | .rings deltaTime now => updateRings deltaTime now w
  | .enemies deltaTime => updateEnemies deltaTime w
  | .death => handleDeath w
  | .levelComplete => handleLevelComplete w
  | .respawn => fireRespawn w

/-- The world after a sequence of events. -/
def run (w : World) (evs : List Event) : World := evs.foldl step w

/-! ## Scenarios -/

/-- No key down, no touch. -/
def idleInput : Input :=
  { w := false, arrowup := false, s := false, arrowdown := false, a := false, arrowleft := false
    d := false, arrowright := false, shift := false, space := false, joystickActive := false
    joystickDeltaX := 0, joystickDeltaY := 0, touchJump := false, touchBoost := false }

/-- Holding forward with boost: `w` and `shift` down, nothing else. -/
def forwardBoost : Input := { idleInput with w := true, shift := true }

/-- The world after `n` consecutive `updateSonic` ticks with forward and
boost held, the platforms, the goal and `deltaTime` being the same in each. -/
def boostTicks (platforms : List Platform) (endGoal : Option Vec3) (deltaTime : ℝ)
    (w : World) : ℕ → World
  | 0 => w
  | n + 1 => updateSonic forwardBoost platforms endGoal deltaTime
      (boostTicks platforms endGoal deltaTime w n)

/-- The player node at the checkpoint `(0, 3, 0)`. -/
def sonicAtStart : Sonic := { position := ⟨0, 3, 0⟩, rotationX := 0, rotationY := 0, visible := true }

/-- Music off, procedural sequencer present. -/
def musicOff : Music :=
  { isMusicPlaying := false, tone := false, transportStarted := false
    sequencerPlaying := some false }

/-- The start of a run on an empty level. -/
def emptyLevel : World := initialWorld sonicAtStart [] [] musicOff

/-- The starting platform (lines 390-398): a 40 x 2 x 40 box centred at the
origin. -/
def startPlatform : Platform :=
  { geometry := true, boxMin := ⟨-20, -1, -20⟩, boxMax := ⟨20, 1, 20⟩ }

/-- An enemy on a patrol circle of radius 10 around `(-9, 3, 0)` whose next
move, for `deltaTime = 1/60`, brings it to `(1, 3, 0)`. -/
def nearEnemy : Enemy :=
  { position := ⟨-9, 3, 0⟩, rotationY := 0, speed := 0.3, direction := -(1 / 120)
    initialPos := some ⟨-9, 3, 0⟩, patrolRadius := 10 }

/-- The start of a run with the player at the checkpoint and two enemies
about to come within the combat radius. -/
def duelWorld : World := initialWorld sonicAtStart [] [nearEnemy, nearEnemy] musicOff

/-- The world `duelWorld` with five rings held. -/
def duelWorldRings : World :=
  { duelWorld with gameState := { initialGameState with rings := 5 } }

/-- The world `duelWorld` with the player invulnerable. -/
def duelWorldInvulnerable : World :=
  { duelWorld with
    gameState := { initialGameState with invulnerable := true, invulnerableTime := 2 } }

/-- The triple on which the run state machine of deaths and respawns works:
`lives`, `isDead` and the number of pending respawn callbacks. -/
def lifeState (w : World) : ℤ × Bool × ℕ :=
  (w.gameState.lives, w.gameState.isDead, w.timers.count Timer.respawn)

/-- The number of rings picked up by one event: a ring leaves the `rings`
array only when `updateRings` collects it. -/
def pickedUp (w : World) (ev : Event) : ℕ := w.rings.length - (step w ev).rings.length

/-- The number of rings picked up during a sequence of events. -/
def collected (w : World) : List Event → ℕ
  | [] => 0
  | ev :: evs => pickedUp w ev + collected (step w ev) evs

/-- A dead player waiting for the respawn, two lives left. -/
def deadWorld : World :=
  { emptyLevel with
    gameState := { initialGameState with isDead := true, lives := 2 }
    timers := [Timer.respawn] }

/-- The invariant of the death and respawn state machine: `lives` is between
0 and 3, at most one respawn is pending, a pending respawn means a dead
player with a life left, and a living player has a life left. -/
def LifeInv (w : World) : Prop :=
  0 ≤ w.gameState.lives ∧ w.gameState.lives ≤ 3 ∧
  w.timers.count Timer.respawn ≤ 1 ∧
  (Timer.respawn ∈ w.timers → w.gameState.isDead = true ∧ 1 ≤ w.gameState.lives) ∧
  (w.gameState.isDead = false → 1 ≤ w.gameState.lives)

/-- The goal marker of the level (line 503). -/
def levelGoal : Vec3 := ⟨220, 50, -200⟩

/-- A run in which the player, holding 7 rings and 70 points, stands still at
the goal marker. -/
def goalWorld : World :=
  { emptyLevel with
    sonic := { sonicAtStart with position := ⟨220, 50, -200⟩ }
    gameState := { initialGameState with rings := 7, score := 70 } }

/-! ## Frames, landings and the music set-up -/

/-- What one call of `animate` (lines 1129-1141) does to the simulation
state: `updateSonic`, then `updateRings`, then `updateEnemies`.
`updateCamera`, `updateUI` and the renderer do not write this state. -/
def frame (inp : Input) (platforms : List Platform) (endGoal : Option Vec3) (deltaTime : ℝ)
    (now : ℕ → ℝ) (w : World) : World :=
  updateEnemies deltaTime (updateRings deltaTime now (updateSonic inp platforms endGoal deltaTime w))

/-- A platform qualifies as support (lines 861-880): it has a geometry, the
position lies within its x and z extents, the height lies in its landing
band and the vertical velocity is not positive. -/
def qualifies (pos : Vec3) (vy : ℝ) (p : Platform) : Prop :=
  p.geometry = true ∧
  (p.boxMin.x ≤ pos.x ∧ pos.x ≤ p.boxMax.x) ∧
  (p.boxMin.z ≤ pos.z ∧ pos.z ≤ p.boxMax.z) ∧
  (p.boxMax.y - 5 ≤ pos.y ∧ pos.y ≤ p.boxMax.y + 2) ∧
  vy ≤ 0

/-- The tick applies the jump impulse (line 843-846): `updateSonic` is not
skipped and the jump condition holds. -/
def jumpImpulse (inp : Input) (w : World) : Prop :=
  w.gameState.isDead = false ∧ w.gameState.levelComplete = false ∧
  jumpPressed inp w.gameState = true

/-- The tick lands (lines 888-897): `updateSonic` is not skipped and takes
the platform branch or the ground branch of the collision resolution. -/
def lands (inp : Input) (platforms : List Platform) (deltaTime : ℝ) (w : World) : Prop :=
  w.gameState.isDead = false ∧ w.gameState.levelComplete = false ∧
  ((platformScan (integratePosition inp deltaTime w)
      (integrateVelocity inp deltaTime w.gameState).y platforms).1 = true ∨
    (integratePosition inp deltaTime w).y ≤ 3)

/-- No `updateSonic` tick of the sequence lands. -/
def noLanding (w : World) : List Event → Prop
  | [] => True
  | Event.sonic inp platforms endGoal deltaTime :: evs =>
    ¬ lands inp platforms deltaTime w ∧
      noLanding (updateSonic inp platforms endGoal deltaTime w) evs
  | ev :: evs => noLanding (step w ev) evs

/-- The outcome of fetching and decoding `Atavachron.mid` in `initToneMusic`:
the promise chain reaches its end with some number of parts, or it is
rejected and the `catch` handler runs. -/
inductive MidiLoad
  | loaded (parts : ℕ)
  | failed

/-- The music state at page load (lines 24-26): nothing playing,
`audioContext`, `musicSequencer` and `window.midiParts` undefined. -/
def pageLoadMusic (tone : Bool) : Music :=
  { isMusicPlaying := false, tone := tone, transportStarted := false, sequencerPlaying := none }

/-- The function `initWebAudioMusic` (lines 1477-1717): creates the audio
context when there is none and, only when `window.Tone` is absent, the
sequencer (whose constructor sets `isPlaying = false`, `measureCount = 0`). -/
def initWebAudioMusic (m : Music) : Music :=
  let m : Music := if m.audioContext = false then { m with audioContext := true } else m
  if m.tone = false then { m with sequencerPlaying := some false, measureCount := 0 } else m

/-- The function `initToneMusic` (lines 1155-1475) once the promise chain has
settled: on success `window.midiParts` is set, on failure the `catch`
handler (lines 1471-1474) calls `initWebAudioMusic`. -/
def initToneMusic (load : MidiLoad) (m : Music) : Music :=
  match load with
  | MidiLoad.loaded parts => { m with midiParts := some parts }
  | MidiLoad.failed => initWebAudioMusic m

/-- The function `initMusic` (lines 1144-1153). -/
def initMusic (load : MidiLoad) (m : Music) : Music :=
  if m.tone = true then initToneMusic load m else initWebAudioMusic m

/-- The state effect of `MusicSequencer.generatePattern` (lines 1576-1699):
`measureCount` is incremented and, when `isPlaying`, the next-pattern timer
is set. The notes it schedules are audio output. -/
def generatePattern (m : Music) : Music :=
  let m : Music := { m with measureCount := m.measureCount + 1 }
  if m.sequencerPlaying = some true then { m with patternTimers := m.patternTimers + 1 } else m

/-- The method `MusicSequencer.start` (lines 1701-1706), on an existing
sequencer. -/
def sequencerStart (m : Music) : Music :=
  if m.sequencerPlaying = some true then m
  else generatePattern { m with sequencerPlaying := some true }

/-- The function `startMusic` (lines 1720-1744), without the DOM indicator:
with `window.Tone` the transport is started (the promise of `Tone.start()`
taken as resolved), otherwise the sequencer, if there is one, is started. -/
def startMusic (m : Music) : Music :=
  if m.isMusicPlaying = true then m
  else
    let m : Music := { m with isMusicPlaying := true }
    if m.tone = true then { m with transportStarted := true }
    else
      match m.sequencerPlaying with
      | some _ => sequencerStart m
      | none => m

/-- The jump key held, nothing else. -/
def spaceInput : Input := { idleInput with space := true }

/-- A platform whose top is at height -200, below the initial value -100 of
`platformTop`. -/
def deepPlatform : Platform :=
  { geometry := true, boxMin := ⟨-20, -202, -20⟩, boxMax := ⟨20, -200, 20⟩ }

/-- The start of a run with two rings next to each other in the array, one
and two units above the player. -/
def twoRingWorld : World :=
  initialWorld sonicAtStart
    [{ position := ⟨0, 4, 0⟩, rotationX := 0, rotationY := 0 },
     { position := ⟨0, 5, 0⟩, rotationX := 0, rotationY := 0 }] [] musicOff

/-- An enemy whose next patrol move, for `deltaTime = 1/60`, brings it to
`(1, 10, 0)`. -/
def highEnemy : Enemy :=
  { position := ⟨-9, 10, 0⟩, rotationY := 0, speed := 0.3, direction := -(1 / 120)
    initialPos := some ⟨-9, 10, 0⟩, patrolRadius := 10 }

/-- The player has just walked off a ledge at height 10 without jumping:
at rest in mid-air, `isJumping` false, an enemy close by. -/
def ledgeWorld : World :=
  initialWorld { sonicAtStart with position := ⟨0, 10, 0⟩ } [] [highEnemy] musicOff

/-- The player in mid-air after a jump, descending, an enemy close by. -/
def stompWorld : World :=
  { ledgeWorld with
    gameState := { initialGameState with isJumping := true, velocity := ⟨0, -5, 0⟩ } }

/-- A goal marker 7 units above the checkpoint. -/
def nearGoal : Vec3 := ⟨0, 10, 0⟩

/-! ## Camera, music toggle and the procedural sequencer -/

/-- Method `Vector3.add(v)`. -/
def Vec3.add (a b : Vec3) : Vec3 := ⟨a.x + b.x, a.y + b.y, a.z + b.z⟩

/-- Method `Vector3.lerp(v, alpha)`: each component moves towards that of
`v` by `alpha` times the difference. -/
def Vec3.lerp (a v : Vec3) (alpha : ℝ) : Vec3 :=
  ⟨a.x + (v.x - a.x) * alpha, a.y + (v.y - a.y) * alpha, a.z + (v.z - a.z) * alpha⟩

/-- The camera node: its position, the point last passed to `lookAt`, and
`rotation.z`. -/
structure Camera where
  position : Vec3
  target : Vec3
  rotationZ : ℝ

/-- Lines 945-955: the local `cameraOffset`, `currentX` and `currentY` being
`touchState.camera.currentX` and `touchState.camera.currentY`. -/
def cameraOffset (currentX currentY : ℝ) : Vec3 :=
  let offset : Vec3 := ⟨0, 8, 10⟩
  if currentX ≠ 0 ∨ currentY ≠ 0 then
    { offset with x := offset.x + currentX * 10, y := offset.y + currentY * 5 }
  else offset

/-- The function `updateCamera` (lines 940-968). -/
def updateCamera (currentX currentY : ℝ) (sonic : Sonic) (camera : Camera) : Camera :=
  let desiredCameraPosition := sonic.position.add (cameraOffset currentX currentY)
  { position := camera.position.lerp desiredCameraPosition 0.2
    target := sonic.position
    rotationZ := 0 }

/-- The camera after `n` calls of `updateCamera` with the player and the
drag deltas the same in each. -/
def cameraFrames (currentX currentY : ℝ) (sonic : Sonic) (camera : Camera) : ℕ → Camera
  | 0 => camera
  | n + 1 => updateCamera currentX currentY sonic (cameraFrames currentX currentY sonic camera n)

/-- The function `toggleMusic` (lines 1767-1773). -/
def toggleMusic (m : Music) : Music :=
  if m.isMusicPlaying = true then stopMusic m else startMusic m

/-- The method `MusicSequencer.stop` (lines 1708-1710), on an existing
sequencer. -/
def sequencerStop (m : Music) : Music := { m with sequencerPlaying := some false }

/-- A pending next-pattern timer fires (line 1697): the timer is used up and
its callback runs `generatePattern`, whatever `isPlaying` is by then. Without
a pending timer nothing happens. -/
def patternTimerFires (m : Music) : Music :=
  if m.patternTimers = 0 then m
  else generatePattern { m with patternTimers := m.patternTimers - 1 }

/-- What can happen to the sequencer: a call of `start`, a call of `stop`,
the firing of a pending next-pattern timer. -/
inductive SequencerCall
  | start
  | stop
  | timer

/-- The effect of one sequencer call on the music state. -/
def sequencerStep (m : Music) : SequencerCall → Music
  | SequencerCall.start => sequencerStart m
  | SequencerCall.stop => sequencerStop m
  | SequencerCall.timer => patternTimerFires m

/-- The music state after a sequence of sequencer calls. -/
def sequencerRun (m : Music) (calls : List SequencerCall) : Music := calls.foldl sequencerStep m

/-- Line 1486. -/
def tempo : ℝ := 132

/-- Line 1487. -/
def beatLength : ℝ := 60 / tempo

/-- Line 1578. -/
def patternLength : ℕ := 8

/-- Lines 1494-1503. -/
def chordProgressions : List (List String) :=
  [["C3", "E3", "G3", "B3", "D4"],
   ["A2", "C3", "E3", "G3", "B3"],
   ["F3", "A3", "C4", "E4", "G4"],
   ["D3", "F#3", "A3", "C4", "E4"],
   ["G3", "B3", "D4", "F#4", "A4"],
   ["E3", "G#3", "B3", "D4", "F#4"],
   ["Bb2", "D3", "F3", "A3", "C4"],
   ["Ab3", "C4", "Eb4", "G4", "Bb4"]]

/-- Lines 1506-1507. -/
def melodyNotes : List String :=
  ["C4", "D4", "E4", "F4", "F#4", "G4", "A4", "Bb4", "B4",
   "C5", "D5", "E5", "F5", "F#5", "G5", "A5", "Bb5", "B5", "C6"]

/-- Line 1510. -/
def bassNotes : List String := ["C2", "D2", "E2", "F2", "G2", "A2", "Bb2", "B2"]

/-- Lines 1512-1519: the object `noteFrequencies` as its list of entries. -/
def noteFrequencies : List (String × ℝ) :=
  [("C1", 32.70), ("C#1", 34.65), ("D1", 36.71), ("Eb1", 38.89), ("E1", 41.20), ("F1", 43.65),
   ("F#1", 46.25), ("G1", 49.00), ("Ab1", 51.91), ("A1", 55.00), ("Bb1", 58.27), ("B1", 61.74),
   ("C2", 65.41), ("C#2", 69.30), ("D2", 73.42), ("Eb2", 77.78), ("E2", 82.41), ("F2", 87.31),
   ("F#2", 92.50), ("G2", 98.00), ("G#2", 103.83), ("A2", 110.00), ("Bb2", 116.54),
   ("B2", 123.47),
   ("C3", 130.81), ("C#3", 138.59), ("D3", 146.83), ("Db3", 138.59), ("Eb3", 155.56),
   ("E3", 164.81), ("F3", 174.61), ("F#3", 185.00), ("G3", 196.00), ("Gb3", 185.00),
   ("G#3", 207.65), ("Ab3", 207.65), ("A3", 220.00), ("A#3", 233.08), ("Bb3", 233.08),
   ("B3", 246.94),
   ("C4", 261.63), ("C#4", 277.18), ("D4", 293.66), ("Db4", 277.18), ("D#4", 311.13),
   ("Eb4", 311.13), ("E4", 329.63), ("F4", 349.23), ("F#4", 369.99), ("G4", 392.00),
   ("Gb4", 369.99), ("G#4", 415.30), ("Ab4", 415.30), ("A4", 440.00), ("A#4", 466.16),
   ("Bb4", 466.16), ("B4", 493.88),
   ("C5", 523.25), ("C#5", 554.37), ("D5", 587.33), ("D#5", 622.25), ("Eb5", 622.25),
   ("E5", 659.25), ("F5", 698.46), ("F#5", 739.99), ("G5", 783.99), ("G#5", 830.61),
   ("A5", 880.00), ("A#5", 932.33), ("Bb5", 932.33), ("B5", 987.77),
   ("C6", 1046.50), ("C#6", 1108.73), ("D6", 1174.66), ("E6", 1318.51)]

/-- An array read `xs[i]` with a number as index: `undefined` (here `none`)
when the index is negative or past the end. -/
def elementAt (xs : List String) (i : ℤ) : Option String :=
  if 0 ≤ i then xs[i.toNat]? else none

/-- The property read `noteFrequencies[name]`: `undefined` (here `none`) when
the name is `undefined` or no key of the object. -/
def frequencyOf (name : Option String) : Option ℝ :=
  name.bind fun n => noteFrequencies.lookup n

/-- The three drum sounds of `playDrum`. -/
inductive DrumKind
  | kick
  | snare
  | hihat

/-- What an oscillator plays: a drum, or a note with the frequency handed to
`playNote` (`none` for `undefined` or `NaN`), its wave form and its volume. -/
inductive Sound
  | drum (kind : DrumKind)
  | note (frequency : Option ℝ) (wave : String) (volume : ℝ)

/-- An event on the audio clock: one oscillator started at `startTime` and
stopped `duration` later. -/
structure AudioEvent where
  sound : Sound
  startTime : ℝ
  duration : ℝ

/-- The method `playNote` (lines 1522-1540). -/
def playNote (frequency : Option ℝ) (startTime duration : ℝ) (wave : String) (volume : ℝ) :
    AudioEvent :=
  { sound := Sound.note frequency wave volume, startTime := startTime, duration := duration }

/-- The method `playDrum` (lines 1542-1574): the oscillator stops 0.5 s after
its start. -/
def playDrum (kind : DrumKind) (startTime : ℝ) : AudioEvent :=
  { sound := Sound.drum kind, startTime := startTime, duration := 0.5 }
/-- The outcomes of the calls of `Math.random()` in one run of
`generatePattern`, one per place of call and loop position: the ghost snare
(line 1598) and the ride cymbal (line 1603) of a bar and beat, the chord
duration (line 1639) of a bar and voice, the run length, direction and first
index of a rapid bar (lines 1653-1655), the leap test and the leap size (lines
1661 and 1663) of a bar and note, and the sustained note of a bar (line 1682). -/
structure Draws where
  ghost : ℕ → ℕ → ℝ
  hat : ℕ → ℕ → ℝ
  chordLength : ℕ → ℕ → ℝ
  runLength : ℕ → ℝ
  direction : ℕ → ℝ
  startIndex : ℕ → ℝ
  leap : ℕ → ℕ → ℝ
  leapSize : ℕ → ℕ → ℝ
  sustained : ℕ → ℝ

/-- Every draw lies in `[0, 1)`, as `Math.random()` promises. -/
def Draws.valid (d : Draws) : Prop :=
  (∀ bar beat, 0 ≤ d.ghost bar beat ∧ d.ghost bar beat < 1) ∧
  (∀ bar beat, 0 ≤ d.hat bar beat ∧ d.hat bar beat < 1) ∧
  (∀ bar index, 0 ≤ d.chordLength bar index ∧ d.chordLength bar index < 1) ∧
  (∀ bar, 0 ≤ d.runLength bar ∧ d.runLength bar < 1) ∧
  (∀ bar, 0 ≤ d.direction bar ∧ d.direction bar < 1) ∧
  (∀ bar, 0 ≤ d.startIndex bar ∧ d.startIndex bar < 1) ∧
  (∀ bar note, 0 ≤ d.leap bar note ∧ d.leap bar note < 1) ∧
  (∀ bar note, 0 ≤ d.leapSize bar note ∧ d.leapSize bar note < 1) ∧
  (∀ bar, 0 ≤ d.sustained bar ∧ d.sustained bar < 1)

/-- Lines 1588-1606: the drum events of one beat of a bar. -/
def drumBeat (currentTime : ℝ) (d : Draws) (bar beat : ℕ) : List AudioEvent :=
  let useOddTime : Prop := bar % 2 = 0
  let beatTime : ℝ := currentTime + (bar * 4 * beatLength) + (beat * beatLength / 2)
  (if beat = 0 ∨ (beat = 3 ∧ ¬ useOddTime) ∨ beat = 5 then [playDrum DrumKind.kick beatTime]
    else []) ++
  (if beat = 2 ∨ beat = 6 then [playDrum DrumKind.snare beatTime]
    else if d.ghost bar beat > 0.7 then
      [playDrum DrumKind.snare (beatTime + beatLength * 0.125)]
    else []) ++
  (if beat % 2 = 0 ∨ d.hat bar beat > 0.5 then [playDrum DrumKind.hihat beatTime] else [])

/-- Lines 1582-1608, one bar: seven beats in the even bars, eight in the odd. -/
def drumBar (currentTime : ℝ) (d : Draws) (bar : ℕ) : List AudioEvent :=
  let beatsInBar : ℕ := if bar % 2 = 0 then 7 else 8
  (List.range beatsInBar).flatMap (drumBeat currentTime d bar)

/-- Line 1613. -/
def bassPattern : List ℝ := [0, 0.75, 1.5, 2.25, 3, 3.375, 3.75]

/-- Lines 1615-1627: the callback of `pattern.forEach`. -/
def bassNote (currentTime : ℝ) (bar index : ℕ) (offset : ℝ) : List AudioEvent :=
  let beatTime : ℝ := currentTime + (bar * 4 * beatLength) + (offset * beatLength)
  let bassIndex : ℕ := (bar * 3 + index * 5) % bassNotes.length
  let bassFreq : Option ℝ := frequencyOf bassNotes[bassIndex]?
  [playNote bassFreq beatTime (beatLength * 0.3) "sawtooth" 0.6,
   playNote (bassFreq.map fun f => f * 0.5) beatTime (beatLength * 0.2) "sine" 0.3]

/-- Lines 1611-1628, one bar. -/
def bassBar (currentTime : ℝ) (bar : ℕ) : List AudioEvent :=
  bassPattern.enum.flatMap fun p => bassNote currentTime bar p.1 p.2

/-- Lines 1636-1643: the callback of `chord.forEach`. -/
def chordNote (currentTime : ℝ) (d : Draws) (bar index : ℕ) (note : String) :
    List AudioEvent :=
  let chordTime : ℝ := currentTime + bar * 4 * beatLength
  let freq : Option ℝ := frequencyOf (some note)
  let staggerTime : ℝ := chordTime + (index * 0.02)
  let duration : ℝ := beatLength * (2 + d.chordLength bar index * 2)
  [playNote freq staggerTime duration "sine" 0.15,
   playNote (freq.map fun f => f * 1.01) staggerTime duration "triangle" 0.08]

/-- Lines 1631-1644, one bar. A chord that is `undefined` would make
`chord.forEach` throw; no event is scheduled then. -/
def chordBar (currentTime : ℝ) (d : Draws) (bar : ℕ) : List AudioEvent :=
  match chordProgressions[bar % chordProgressions.length]? with
  | none => []
  | some chord => chord.enum.flatMap fun p => chordNote currentTime d bar p.1 p.2

/-- Lines 1661-1670: the new `currentIndex` and `direction` of a rapid run.
The operator `%` of the source keeps the sign of its left operand, as
`Int.tmod` does. -/
def leadStep (d : Draws) (bar note : ℕ) (currentIndex direction : ℤ) : ℤ × ℤ :=
  let s : ℤ × ℤ :=
    if d.leap bar note > 0.8 then
      ((currentIndex + direction * (7 + ⌊d.leapSize bar note * 5⌋)).tmod melodyNotes.length,
        direction * -1)
    else ((currentIndex + direction).tmod melodyNotes.length, direction)
  if s.1 < 0 then ((melodyNotes.length : ℤ) - 1, s.2) else s

/-- Lines 1657-1679: the notes `note, note + 1, ...` of a rapid run, `n` of
them. -/
def leadRun (currentTime : ℝ) (d : Draws) (bar : ℕ) : ℕ → ℕ → ℤ → ℤ → List AudioEvent
  | 0, _, _, _ => []
  | n + 1, note, currentIndex, direction =>
    let beatTime : ℝ := currentTime + (bar * 4 * beatLength) + (note * beatLength / 8)
    let s := leadStep d bar note currentIndex direction
    let freq : Option ℝ := frequencyOf (elementAt melodyNotes s.1)
    playNote freq beatTime (beatLength * 0.1) "sawtooth" 0.2 ::
      playNote (freq.map fun f => f * 2.01) beatTime (beatLength * 0.05) "sine" 0.05 ::
      leadRun currentTime d bar n (note + 1) s.1 s.2

/-- Lines 1647-1693, one bar: a rapid run, or in every third bar a sustained
note. -/
def leadBar (currentTime : ℝ) (d : Draws) (bar : ℕ) : List AudioEvent :=
  if bar % 3 ≠ 2 then
    let runLength : ℤ := 16 + ⌊d.runLength bar * 16⌋
    let direction : ℤ := if d.direction bar > 0.5 then 1 else -1
    let currentIndex : ℤ := ⌊d.startIndex bar * melodyNotes.length⌋
    leadRun currentTime d bar runLength.toNat 0 currentIndex direction
  else
    let sustainedNote := elementAt melodyNotes ⌊d.sustained bar * melodyNotes.length⌋
    let baseFreq : Option ℝ := frequencyOf sustainedNote
    let sustainTime : ℝ := currentTime + (bar * 4 * beatLength)
    (List.range 8).map fun (i : ℕ) =>
      let time : ℝ := sustainTime + (i : ℝ) * beatLength * 0.5
      let pitchBend : ℝ := 1 + Real.sin ((i : ℝ) * 0.5) * 0.03
      playNote (baseFreq.map fun f => f * pitchBend) time (beatLength * 0.6) "sawtooth" 0.3

/-- The events that `generatePattern` schedules in the iterations of its four
loops for one value of `bar`. -/
def barEvents (currentTime : ℝ) (d : Draws) (bar : ℕ) : List AudioEvent :=
  drumBar currentTime d bar ++ bassBar currentTime bar ++ chordBar currentTime d bar ++
    leadBar currentTime d bar

/-- The events one call of `generatePattern` schedules (lines 1577-1693), in
the order of the code: drums, bass, chords, lead, each over the eight bars.
`currentTime` is `audioContext.currentTime` at the call. No test of
`isPlaying` stands before line 1696. -/
def patternEvents (currentTime : ℝ) (d : Draws) : List AudioEvent :=
  (List.range patternLength).flatMap (drumBar currentTime d) ++
  (List.range patternLength).flatMap (bassBar currentTime) ++
  (List.range patternLength).flatMap (chordBar currentTime d) ++
  (List.range patternLength).flatMap (leadBar currentTime d)

/-- The events scheduled when a next-pattern timer fires in state `m`: those
of one `generatePattern` call if a timer was pending, none otherwise. -/
def firedEvents (currentTime : ℝ) (d : Draws) (m : Music) : List AudioEvent :=
  if m.patternTimers = 0 then [] else patternEvents currentTime d

/-- Line 1697: the delay of the next-pattern timer, in seconds. -/
def patternDelay : ℝ := patternLength * 4 * beatLength

/-- The frequency of an event is defined: it is a drum, or a note whose
frequency is a number. -/
def AudioEvent.defined (e : AudioEvent) : Prop :=
  match e.sound with
  | Sound.drum _ => True
  | Sound.note frequency _ _ => frequency.isSome = true
/-- The outcome in which every call of `Math.random()` returns 0. -/
def noDraws : Draws :=
  { ghost := fun _ _ => 0, hat := fun _ _ => 0, chordLength := fun _ _ => 0
    runLength := fun _ => 0, direction := fun _ => 0, startIndex := fun _ => 0
    leap := fun _ _ => 0, leapSize := fun _ _ => 0, sustained := fun _ => 0 }

/-- The world `stompWorld` with a second enemy behind the one about to be
stomped. -/
def stompPairWorld : World := { stompWorld with enemies := [highEnemy, nearEnemy] }

/-- Holding forward, nothing else. -/
def forwardInput : Input := { idleInput with w := true }

/-- Holding forward and right, nothing else. -/
def diagonalInput : Input := { idleInput with w := true, d := true }

/-- The world after `n` consecutive `updateSonic` ticks with the same input,
platforms, goal and `deltaTime`. -/
def holdTicks (inp : Input) (platforms : List Platform) (endGoal : Option Vec3)
    (deltaTime : ℝ) (w : World) : ℕ → World
  | 0 => w
  | n + 1 => updateSonic inp platforms endGoal deltaTime
      (holdTicks inp platforms endGoal deltaTime w n)

/-- Both components of the movement input lie in `[-1, 1]`, as those of the
keyboard and of the joystick do. -/
def boundedInput (inp : Input) : Prop := |moveX inp| ≤ 1 ∧ |moveZ inp| ≤ 1

/-- Every `updateSonic` tick of the sequence has a bounded input. -/
def boundedInputs : List Event → Prop
  | [] => True
  | Event.sonic inp _ _ _ :: evs => boundedInput inp ∧ boundedInputs evs
  | _ :: evs => boundedInputs evs

/-- Both horizontal components of a velocity are at most 47.5 in absolute
value. -/
def axisBound (v : Vec3) : Prop := |v.x| ≤ 47.5 ∧ |v.z| ≤ 47.5

/-- The time `t` lies in the window of bar `bar` of a pattern generated at
`currentTime`: from the start of that bar up to, not including, the start of
the next. -/
def inBar (currentTime : ℝ) (bar : ℕ) (t : ℝ) : Prop :=
  currentTime + 4 * bar * beatLength ≤ t ∧ t < currentTime + 4 * (bar + 1) * beatLength
/-! ## Frame lemmas: what each function leaves unchanged -/

@[simp]
theorem handleDeath_gameState_score (w : World) :
    (handleDeath w).gameState.score = w.gameState.score := by
  unfold handleDeath
  dsimp only
  split_ifs <;> rfl

@[simp]
theorem handleDeath_gameState_rings (w : World) :
    (handleDeath w).gameState.rings = w.gameState.rings := by
  unfold handleDeath
  dsimp only
  split_ifs <;> rfl

@[simp]
theorem handleDeath_gameState_speed (w : World) :
    (handleDeath w).gameState.speed = w.gameState.speed := by
  unfold handleDeath
  dsimp only
  split_ifs <;> rfl

@[simp]
theorem handleDeath_gameState_boost (w : World) :
    (handleDeath w).gameState.boost = w.gameState.boost := by
  unfold handleDeath
  dsimp only
  split_ifs <;> rfl

@[simp]
theorem handleDeath_gameState_isJumping (w : World) :
    (handleDeath w).gameState.isJumping = w.gameState.isJumping := by
  unfold handleDeath
  dsimp only
  split_ifs <;> rfl

@[simp]
theorem handleDeath_gameState_velocity (w : World) :
    (handleDeath w).gameState.velocity = w.gameState.velocity := by
  unfold handleDeath
  dsimp only
  split_ifs <;> rfl

@[simp]
theorem handleDeath_gameState_levelComplete (w : World) :
    (handleDeath w).gameState.levelComplete = w.gameState.levelComplete := by
  unfold handleDeath
  dsimp only
  split_ifs <;> rfl

@[simp]
theorem handleDeath_gameState_checkpointPosition (w : World) :
    (handleDeath w).gameState.checkpointPosition = w.gameState.checkpointPosition := by
  unfold handleDeath
  dsimp only
  split_ifs <;> rfl

@[simp]
theorem handleDeath_gameState_invulnerable (w : World) :
    (handleDeath w).gameState.invulnerable = w.gameState.invulnerable := by
  unfold handleDeath
  dsimp only
  split_ifs <;> rfl

@[simp]
theorem handleDeath_gameState_invulnerableTime (w : World) :
    (handleDeath w).gameState.invulnerableTime = w.gameState.invulnerableTime := by
  unfold handleDeath
  dsimp only
  split_ifs <;> rfl

@[simp]
theorem handleDeath_sonic (w : World) :
    (handleDeath w).sonic = w.sonic := by
  unfold handleDeath
  dsimp only
  split_ifs <;> rfl

@[simp]
theorem handleDeath_rings (w : World) :
    (handleDeath w).rings = w.rings := by
  unfold handleDeath
  dsimp only
  split_ifs <;> rfl

@[simp]
theorem handleDeath_enemies (w : World) :
    (handleDeath w).enemies = w.enemies := by
  unfold handleDeath
  dsimp only
  split_ifs <;> rfl

@[simp]
theorem handleDeath_music (w : World) :
    (handleDeath w).music = w.music := by
  unfold handleDeath
  dsimp only
  split_ifs <;> rfl

@[simp]
theorem handleLevelComplete_gameState_rings (w : World) :
    (handleLevelComplete w).gameState.rings = w.gameState.rings := by
  unfold handleLevelComplete
  dsimp only
  split_ifs <;> rfl

@[simp]
theorem handleLevelComplete_gameState_speed (w : World) :
    (handleLevelComplete w).gameState.speed = w.gameState.speed := by
  unfold handleLevelComplete
  dsimp only
  split_ifs <;> rfl

@[simp]
theorem handleLevelComplete_gameState_boost (w : World) :
    (handleLevelComplete w).gameState.boost = w.gameState.boost := by
  unfold handleLevelComplete
  dsimp only
  split_ifs <;> rfl

@[simp]
theorem handleLevelComplete_gameState_isJumping (w : World) :
    (handleLevelComplete w).gameState.isJumping = w.gameState.isJumping := by
  unfold handleLevelComplete
  dsimp only
  split_ifs <;> rfl

@[simp]
theorem handleLevelComplete_gameState_velocity (w : World) :
    (handleLevelComplete w).gameState.velocity = w.gameState.velocity := by
  unfold handleLevelComplete
  dsimp only
  split_ifs <;> rfl

@[simp]
theorem handleLevelComplete_gameState_lives (w : World) :
    (handleLevelComplete w).gameState.lives = w.gameState.lives := by
  unfold handleLevelComplete
  dsimp only
  split_ifs <;> rfl

@[simp]
theorem handleLevelComplete_gameState_isDead (w : World) :
    (handleLevelComplete w).gameState.isDead = w.gameState.isDead := by
  unfold handleLevelComplete
  dsimp only
  split_ifs <;> rfl

@[simp]
theorem handleLevelComplete_gameState_checkpointPosition (w : World) :
    (handleLevelComplete w).gameState.checkpointPosition = w.gameState.checkpointPosition := by
  unfold handleLevelComplete
  dsimp only
  split_ifs <;> rfl

@[simp]
theorem handleLevelComplete_gameState_invulnerable (w : World) :
    (handleLevelComplete w).gameState.invulnerable = w.gameState.invulnerable := by
  unfold handleLevelComplete
  dsimp only
  split_ifs <;> rfl

@[simp]
theorem handleLevelComplete_gameState_invulnerableTime (w : World) :
    (handleLevelComplete w).gameState.invulnerableTime = w.gameState.invulnerableTime := by
  unfold handleLevelComplete
  dsimp only
  split_ifs <;> rfl

@[simp]
theorem handleLevelComplete_sonic (w : World) :
    (handleLevelComplete w).sonic = w.sonic := by
  unfold handleLevelComplete
  dsimp only
  split_ifs <;> rfl

@[simp]
theorem handleLevelComplete_rings (w : World) :
    (handleLevelComplete w).rings = w.rings := by
  unfold handleLevelComplete
  dsimp only
  split_ifs <;> rfl

@[simp]
theorem handleLevelComplete_enemies (w : World) :
    (handleLevelComplete w).enemies = w.enemies := by
  unfold handleLevelComplete
  dsimp only
  split_ifs <;> rfl

@[simp]
theorem respawnCallback_gameState_score (w : World) :
    (respawnCallback w).gameState.score = w.gameState.score := by
  rfl

@[simp]
theorem respawnCallback_gameState_speed (w : World) :
    (respawnCallback w).gameState.speed = w.gameState.speed := by
  rfl

@[simp]
theorem respawnCallback_gameState_boost (w : World) :
    (respawnCallback w).gameState.boost = w.gameState.boost := by
  rfl

@[simp]
theorem respawnCallback_gameState_isJumping (w : World) :
    (respawnCallback w).gameState.isJumping = w.gameState.isJumping := by
  rfl

@[simp]
theorem respawnCallback_gameState_lives (w : World) :
    (respawnCallback w).gameState.lives = w.gameState.lives := by
  rfl

@[simp]
theorem respawnCallback_gameState_levelComplete (w : World) :
    (respawnCallback w).gameState.levelComplete = w.gameState.levelComplete := by
  rfl

@[simp]
theorem respawnCallback_gameState_checkpointPosition (w : World) :
    (respawnCallback w).gameState.checkpointPosition = w.gameState.checkpointPosition := by
  rfl

@[simp]
theorem respawnCallback_rings (w : World) :
    (respawnCallback w).rings = w.rings := by
  rfl

@[simp]
theorem respawnCallback_enemies (w : World) :
    (respawnCallback w).enemies = w.enemies := by
  rfl

@[simp]
theorem respawnCallback_timers (w : World) :
    (respawnCallback w).timers = w.timers := by
  rfl

@[simp]
theorem respawnCallback_music (w : World) :
    (respawnCallback w).music = w.music := by
  rfl

@[simp]
theorem deathCheck_gameState_score (w : World) :
    (deathCheck w).gameState.score = w.gameState.score := by
  unfold deathCheck
  split_ifs <;> simp

@[simp]
theorem deathCheck_gameState_rings (w : World) :
    (deathCheck w).gameState.rings = w.gameState.rings := by
  unfold deathCheck
  split_ifs <;> simp

@[simp]
theorem deathCheck_gameState_speed (w : World) :
    (deathCheck w).gameState.speed = w.gameState.speed := by
  unfold deathCheck
  split_ifs <;> simp

@[simp]
theorem deathCheck_gameState_boost (w : World) :
    (deathCheck w).gameState.boost = w.gameState.boost := by
  unfold deathCheck
  split_ifs <;> simp

@[simp]
theorem deathCheck_gameState_isJumping (w : World) :
    (deathCheck w).gameState.isJumping = w.gameState.isJumping := by
  unfold deathCheck
  split_ifs <;> simp

@[simp]
theorem deathCheck_gameState_velocity (w : World) :
    (deathCheck w).gameState.velocity = w.gameState.velocity := by
  unfold deathCheck
  split_ifs <;> simp

@[simp]
theorem deathCheck_gameState_levelComplete (w : World) :
    (deathCheck w).gameState.levelComplete = w.gameState.levelComplete := by
  unfold deathCheck
  split_ifs <;> simp

@[simp]
theorem deathCheck_gameState_checkpointPosition (w : World) :
    (deathCheck w).gameState.checkpointPosition = w.gameState.checkpointPosition := by
  unfold deathCheck
  split_ifs <;> simp

@[simp]
theorem deathCheck_gameState_invulnerable (w : World) :
    (deathCheck w).gameState.invulnerable = w.gameState.invulnerable := by
  unfold deathCheck
  split_ifs <;> simp

@[simp]
theorem deathCheck_gameState_invulnerableTime (w : World) :
    (deathCheck w).gameState.invulnerableTime = w.gameState.invulnerableTime := by
  unfold deathCheck
  split_ifs <;> simp

@[simp]
theorem deathCheck_sonic (w : World) :
    (deathCheck w).sonic = w.sonic := by
  unfold deathCheck
  split_ifs <;> simp

@[simp]
theorem deathCheck_rings (w : World) :
    (deathCheck w).rings = w.rings := by
  unfold deathCheck
  split_ifs <;> simp

@[simp]
theorem deathCheck_enemies (w : World) :
    (deathCheck w).enemies = w.enemies := by
  unfold deathCheck
  split_ifs <;> simp

@[simp]
theorem deathCheck_music (w : World) :
    (deathCheck w).music = w.music := by
  unfold deathCheck
  split_ifs <;> simp

@[simp]
theorem goalCheck_gameState_rings (endGoal : Option Vec3) (w : World) :
    (goalCheck endGoal w).gameState.rings = w.gameState.rings := by
  unfold goalCheck
  cases endGoal with
  | none => rfl
  | some goal =>
    dsimp only
    split_ifs <;> simp

@[simp]
theorem goalCheck_gameState_speed (endGoal : Option Vec3) (w : World) :
    (goalCheck endGoal w).gameState.speed = w.gameState.speed := by
  unfold goalCheck
  cases endGoal with
  | none => rfl
  | some goal =>
    dsimp only
    split_ifs <;> simp

@[simp]
theorem goalCheck_gameState_boost (endGoal : Option Vec3) (w : World) :
    (goalCheck endGoal w).gameState.boost = w.gameState.boost := by
  unfold goalCheck
  cases endGoal with
  | none => rfl
  | some goal =>
    dsimp only
    split_ifs <;> simp

@[simp]
theorem goalCheck_gameState_isJumping (endGoal : Option Vec3) (w : World) :
    (goalCheck endGoal w).gameState.isJumping = w.gameState.isJumping := by
  unfold goalCheck
  cases endGoal with
  | none => rfl
  | some goal =>
    dsimp only
    split_ifs <;> simp

@[simp]
theorem goalCheck_gameState_velocity (endGoal : Option Vec3) (w : World) :
    (goalCheck endGoal w).gameState.velocity = w.gameState.velocity := by
  unfold goalCheck
  cases endGoal with
  | none => rfl
  | some goal =>
    dsimp only
    split_ifs <;> simp

@[simp]
theorem goalCheck_gameState_lives (endGoal : Option Vec3) (w : World) :
    (goalCheck endGoal w).gameState.lives = w.gameState.lives := by
  unfold goalCheck
  cases endGoal with
  | none => rfl
  | some goal =>
    dsimp only
    split_ifs <;> simp

@[simp]
theorem goalCheck_gameState_isDead (endGoal : Option Vec3) (w : World) :
    (goalCheck endGoal w).gameState.isDead = w.gameState.isDead := by
  unfold goalCheck
  cases endGoal with
  | none => rfl
  | some goal =>
    dsimp only
    split_ifs <;> simp

@[simp]
theorem goalCheck_gameState_checkpointPosition (endGoal : Option Vec3) (w : World) :
    (goalCheck endGoal w).gameState.checkpointPosition = w.gameState.checkpointPosition := by
  unfold goalCheck
  cases endGoal with
  | none => rfl
  | some goal =>
    dsimp only
    split_ifs <;> simp

@[simp]
theorem goalCheck_gameState_invulnerable (endGoal : Option Vec3) (w : World) :
    (goalCheck endGoal w).gameState.invulnerable = w.gameState.invulnerable := by
  unfold goalCheck
  cases endGoal with
  | none => rfl
  | some goal =>
    dsimp only
    split_ifs <;> simp

@[simp]
theorem goalCheck_gameState_invulnerableTime (endGoal : Option Vec3) (w : World) :
    (goalCheck endGoal w).gameState.invulnerableTime = w.gameState.invulnerableTime := by
  unfold goalCheck
  cases endGoal with
  | none => rfl
  | some goal =>
    dsimp only
    split_ifs <;> simp

@[simp]
theorem goalCheck_sonic (endGoal : Option Vec3) (w : World) :
    (goalCheck endGoal w).sonic = w.sonic := by
  unfold goalCheck
  cases endGoal with
  | none => rfl
  | some goal =>
    dsimp only
    split_ifs <;> simp

@[simp]
theorem goalCheck_rings (endGoal : Option Vec3) (w : World) :
    (goalCheck endGoal w).rings = w.rings := by
  unfold goalCheck
  cases endGoal with
  | none => rfl
  | some goal =>
    dsimp only
    split_ifs <;> simp

@[simp]
theorem goalCheck_enemies (endGoal : Option Vec3) (w : World) :
    (goalCheck endGoal w).enemies = w.enemies := by
  unfold goalCheck
  cases endGoal with
  | none => rfl
  | some goal =>
    dsimp only
    split_ifs <;> simp

@[simp]
theorem finishStep_gameState_score (inp : Input) (deltaTime : ℝ) (hv : Vec2) (w : World) :
    (finishStep inp deltaTime hv w).gameState.score = w.gameState.score := by
  unfold finishStep
  dsimp only
  split_ifs <;> rfl

@[simp]
theorem finishStep_gameState_rings (inp : Input) (deltaTime : ℝ) (hv : Vec2) (w : World) :
    (finishStep inp deltaTime hv w).gameState.rings = w.gameState.rings := by
  unfold finishStep
  dsimp only
  split_ifs <;> rfl

@[simp]
theorem finishStep_gameState_boost (inp : Input) (deltaTime : ℝ) (hv : Vec2) (w : World) :
    (finishStep inp deltaTime hv w).gameState.boost = w.gameState.boost := by
  unfold finishStep
  dsimp only
  split_ifs <;> rfl

@[simp]
theorem finishStep_gameState_isJumping (inp : Input) (deltaTime : ℝ) (hv : Vec2) (w : World) :
    (finishStep inp deltaTime hv w).gameState.isJumping = w.gameState.isJumping := by
  unfold finishStep
  dsimp only
  split_ifs <;> rfl

@[simp]
theorem finishStep_gameState_velocity (inp : Input) (deltaTime : ℝ) (hv : Vec2) (w : World) :
    (finishStep inp deltaTime hv w).gameState.velocity = w.gameState.velocity := by
  unfold finishStep
  dsimp only
  split_ifs <;> rfl

@[simp]
theorem finishStep_gameState_lives (inp : Input) (deltaTime : ℝ) (hv : Vec2) (w : World) :
    (finishStep inp deltaTime hv w).gameState.lives = w.gameState.lives := by
  unfold finishStep
  dsimp only
  split_ifs <;> rfl

@[simp]
theorem finishStep_gameState_isDead (inp : Input) (deltaTime : ℝ) (hv : Vec2) (w : World) :
    (finishStep inp deltaTime hv w).gameState.isDead = w.gameState.isDead := by
  unfold finishStep
  dsimp only
  split_ifs <;> rfl

@[simp]
theorem finishStep_gameState_levelComplete (inp : Input) (deltaTime : ℝ) (hv : Vec2) (w : World) :
    (finishStep inp deltaTime hv w).gameState.levelComplete = w.gameState.levelComplete := by
  unfold finishStep
  dsimp only
  split_ifs <;> rfl

@[simp]
theorem finishStep_gameState_checkpointPosition (inp : Input) (deltaTime : ℝ) (hv : Vec2) (w : World) :
    (finishStep inp deltaTime hv w).gameState.checkpointPosition = w.gameState.checkpointPosition := by
  unfold finishStep
  dsimp only
  split_ifs <;> rfl

@[simp]
theorem finishStep_rings (inp : Input) (deltaTime : ℝ) (hv : Vec2) (w : World) :
    (finishStep inp deltaTime hv w).rings = w.rings := by
  unfold finishStep
  dsimp only
  split_ifs <;> rfl

@[simp]
theorem finishStep_enemies (inp : Input) (deltaTime : ℝ) (hv : Vec2) (w : World) :
    (finishStep inp deltaTime hv w).enemies = w.enemies := by
  unfold finishStep
  dsimp only
  split_ifs <;> rfl

@[simp]
theorem finishStep_timers (inp : Input) (deltaTime : ℝ) (hv : Vec2) (w : World) :
    (finishStep inp deltaTime hv w).timers = w.timers := by
  unfold finishStep
  dsimp only
  split_ifs <;> rfl

@[simp]
theorem finishStep_music (inp : Input) (deltaTime : ℝ) (hv : Vec2) (w : World) :
    (finishStep inp deltaTime hv w).music = w.music := by
  unfold finishStep
  dsimp only
  split_ifs <;> rfl

@[simp]
theorem physicsStep_gameState_score (inp : Input) (platforms : List Platform) (deltaTime : ℝ) (w : World) :
    (physicsStep inp platforms deltaTime w).gameState.score = w.gameState.score := by
  unfold physicsStep
  dsimp only
  split_ifs <;> rfl

@[simp]
theorem physicsStep_gameState_rings (inp : Input) (platforms : List Platform) (deltaTime : ℝ) (w : World) :
    (physicsStep inp platforms deltaTime w).gameState.rings = w.gameState.rings := by
  unfold physicsStep
  dsimp only
  split_ifs <;> rfl

@[simp]
theorem physicsStep_gameState_speed (inp : Input) (platforms : List Platform) (deltaTime : ℝ) (w : World) :
    (physicsStep inp platforms deltaTime w).gameState.speed = w.gameState.speed := by
  unfold physicsStep
  dsimp only
  split_ifs <;> rfl

@[simp]
theorem physicsStep_gameState_boost (inp : Input) (platforms : List Platform) (deltaTime : ℝ) (w : World) :
    (physicsStep inp platforms deltaTime w).gameState.boost = w.gameState.boost := by
  unfold physicsStep
  dsimp only
  split_ifs <;> rfl

@[simp]
theorem physicsStep_gameState_lives (inp : Input) (platforms : List Platform) (deltaTime : ℝ) (w : World) :
    (physicsStep inp platforms deltaTime w).gameState.lives = w.gameState.lives := by
  unfold physicsStep
  dsimp only
  split_ifs <;> rfl

@[simp]
theorem physicsStep_gameState_isDead (inp : Input) (platforms : List Platform) (deltaTime : ℝ) (w : World) :
    (physicsStep inp platforms deltaTime w).gameState.isDead = w.gameState.isDead := by
  unfold physicsStep
  dsimp only
  split_ifs <;> rfl

@[simp]
theorem physicsStep_gameState_levelComplete (inp : Input) (platforms : List Platform) (deltaTime : ℝ) (w : World) :
    (physicsStep inp platforms deltaTime w).gameState.levelComplete = w.gameState.levelComplete := by
  unfold physicsStep
  dsimp only
  split_ifs <;> rfl

@[simp]
theorem physicsStep_gameState_checkpointPosition (inp : Input) (platforms : List Platform) (deltaTime : ℝ) (w : World) :
    (physicsStep inp platforms deltaTime w).gameState.checkpointPosition = w.gameState.checkpointPosition := by
  unfold physicsStep
  dsimp only
  split_ifs <;> rfl

@[simp]
theorem physicsStep_gameState_invulnerable (inp : Input) (platforms : List Platform) (deltaTime : ℝ) (w : World) :
    (physicsStep inp platforms deltaTime w).gameState.invulnerable = w.gameState.invulnerable := by
  unfold physicsStep
  dsimp only
  split_ifs <;> rfl

@[simp]
theorem physicsStep_gameState_invulnerableTime (inp : Input) (platforms : List Platform) (deltaTime : ℝ) (w : World) :
    (physicsStep inp platforms deltaTime w).gameState.invulnerableTime = w.gameState.invulnerableTime := by
  unfold physicsStep
  dsimp only
  split_ifs <;> rfl

@[simp]
theorem physicsStep_rings (inp : Input) (platforms : List Platform) (deltaTime : ℝ) (w : World) :
    (physicsStep inp platforms deltaTime w).rings = w.rings := by
  unfold physicsStep
  dsimp only
  split_ifs <;> rfl

@[simp]
theorem physicsStep_enemies (inp : Input) (platforms : List Platform) (deltaTime : ℝ) (w : World) :
    (physicsStep inp platforms deltaTime w).enemies = w.enemies := by
  unfold physicsStep
  dsimp only
  split_ifs <;> rfl

@[simp]
theorem physicsStep_timers (inp : Input) (platforms : List Platform) (deltaTime : ℝ) (w : World) :
    (physicsStep inp platforms deltaTime w).timers = w.timers := by
  unfold physicsStep
  dsimp only
  split_ifs <;> rfl

@[simp]
theorem physicsStep_music (inp : Input) (platforms : List Platform) (deltaTime : ℝ) (w : World) :
    (physicsStep inp platforms deltaTime w).music = w.music := by
  unfold physicsStep
  dsimp only
  split_ifs <;> rfl

/-! ## The speed limit and the terminal speed -/

theorem updateSonic_skipped (inp : Input) (platforms : List Platform)
    (endGoal : Option Vec3) (deltaTime : ℝ) (w : World)
    (h : w.gameState.isDead = true ∨ w.gameState.levelComplete = true) :
    updateSonic inp platforms endGoal deltaTime w = w := by
  unfold updateSonic
  rw [if_pos h]

theorem updateSonic_live (inp : Input) (platforms : List Platform)
    (endGoal : Option Vec3) (deltaTime : ℝ) (w : World)
    (halive : w.gameState.isDead = false) (hnc : w.gameState.levelComplete = false) :
    updateSonic inp platforms endGoal deltaTime w =
      finishStep inp deltaTime
        ⟨(limitSpeed (speedCap inp) (accelerate inp w.gameState.velocity)).x,
         (limitSpeed (speedCap inp) (accelerate inp w.gameState.velocity)).z⟩
        (goalCheck endGoal (deathCheck (physicsStep inp platforms deltaTime w))) := by
  unfold updateSonic
  simp only [halive, hnc, Bool.false_eq_true, or_self, if_false]

theorem physicsStep_velocity_x (inp : Input) (platforms : List Platform) (deltaTime : ℝ)
    (w : World) :
    (physicsStep inp platforms deltaTime w).gameState.velocity.x =
      (applyFriction (limitSpeed (speedCap inp) (accelerate inp w.gameState.velocity))).x := by
  unfold physicsStep integrateVelocity
  simp only
  split_ifs <;> rfl

theorem physicsStep_velocity_z (inp : Input) (platforms : List Platform) (deltaTime : ℝ)
    (w : World) :
    (physicsStep inp platforms deltaTime w).gameState.velocity.z =
      (applyFriction (limitSpeed (speedCap inp) (accelerate inp w.gameState.velocity))).z := by
  unfold physicsStep integrateVelocity
  simp only
  split_ifs <;> rfl

theorem updateSonic_velocity_x (inp : Input) (platforms : List Platform)
    (endGoal : Option Vec3) (deltaTime : ℝ) (w : World)
    (halive : w.gameState.isDead = false) (hnc : w.gameState.levelComplete = false) :
    (updateSonic inp platforms endGoal deltaTime w).gameState.velocity.x =
      (applyFriction (limitSpeed (speedCap inp) (accelerate inp w.gameState.velocity))).x := by
  rw [updateSonic_live _ _ _ _ _ halive hnc]
  simp [physicsStep_velocity_x]

theorem updateSonic_velocity_z (inp : Input) (platforms : List Platform)
    (endGoal : Option Vec3) (deltaTime : ℝ) (w : World)
    (halive : w.gameState.isDead = false) (hnc : w.gameState.levelComplete = false) :
    (updateSonic inp platforms endGoal deltaTime w).gameState.velocity.z =
      (applyFriction (limitSpeed (speedCap inp) (accelerate inp w.gameState.velocity))).z := by
  rw [updateSonic_live _ _ _ _ _ halive hnc]
  simp [physicsStep_velocity_z]

theorem speedCap_nonneg (inp : Input) : 0 ≤ speedCap inp := by
  unfold speedCap BOOST_SPEED MAX_SPEED
  split_ifs <;> norm_num

theorem horizontalSpeed_limitSpeed (speed : ℝ) (hs : 0 ≤ speed) (v : Vec3) :
    horizontalSpeed (limitSpeed speed v) ≤ speed := by
  unfold limitSpeed
  simp only
  split_ifs with h
  · have hpos : 0 < (Vec2.mk v.x v.z).length := lt_of_le_of_lt hs h
    have hne : (Vec2.mk v.x v.z).length ≠ 0 := ne_of_gt hpos
    have hsq : (Vec2.mk v.x v.z).length * (Vec2.mk v.x v.z).length = v.x * v.x + v.z * v.z := by
      unfold Vec2.length
      exact Real.mul_self_sqrt (add_nonneg (mul_self_nonneg _) (mul_self_nonneg _))
    unfold horizontalSpeed
    simp only [Vec2.normalize, Vec2.divideScalar, Vec2.multiplyScalar, if_neg hne]
    generalize (Vec2.mk v.x v.z).length = l at hpos hne hsq
    have : Vec2.length ⟨v.x * (1 / l) * speed, v.z * (1 / l) * speed⟩ = speed := by
      unfold Vec2.length
      have e : v.x * (1 / l) * speed * (v.x * (1 / l) * speed)
          + v.z * (1 / l) * speed * (v.z * (1 / l) * speed) = speed * speed := by
        field_simp
        nlinarith [hsq]
      simp only [e]
      exact Real.sqrt_mul_self hs
    exact le_of_eq this
  · exact le_of_not_lt h

theorem horizontalSpeed_nonneg (v : Vec3) : 0 ≤ horizontalSpeed v := Real.sqrt_nonneg _

theorem horizontalSpeed_applyFriction (v : Vec3) :
    horizontalSpeed (applyFriction v) = FRICTION * horizontalSpeed v := by
  unfold horizontalSpeed applyFriction Vec2.length FRICTION
  simp only
  have : v.x * 0.95 * (v.x * 0.95) + v.z * 0.95 * (v.z * 0.95)
      = (0.95 * 0.95) * (v.x * v.x + v.z * v.z) := by ring
  rw [this, Real.sqrt_mul (by norm_num), Real.sqrt_mul_self (by norm_num)]

theorem updateSonic_horizontalSpeed (inp : Input) (platforms : List Platform)
    (endGoal : Option Vec3) (deltaTime : ℝ) (w : World)
    (halive : w.gameState.isDead = false) (hnc : w.gameState.levelComplete = false) :
    horizontalSpeed (updateSonic inp platforms endGoal deltaTime w).gameState.velocity =
      FRICTION * horizontalSpeed (limitSpeed (speedCap inp) (accelerate inp w.gameState.velocity)) := by
  rw [← horizontalSpeed_applyFriction]
  unfold horizontalSpeed
  rw [updateSonic_velocity_x _ _ _ _ _ halive hnc, updateSonic_velocity_z _ _ _ _ _ halive hnc]

theorem limitSpeed_of_le (speed : ℝ) (v : Vec3) (h : horizontalSpeed v ≤ speed) :
    limitSpeed speed v = v := by
  unfold limitSpeed
  simp only
  rw [if_neg]
  exact not_lt.mpr h

theorem horizontalSpeed_of_x_zero (v : Vec3) (hx : v.x = 0) : horizontalSpeed v = |v.z| := by
  unfold horizontalSpeed Vec2.length
  simp only [hx, mul_zero, zero_add]
  exact Real.sqrt_mul_self_eq_abs v.z

theorem speedCap_forwardBoost : speedCap forwardBoost = 300 := by
  unfold speedCap isBoosting forwardBoost idleInput BOOST_SPEED
  simp

theorem accelerate_forwardBoost (v : Vec3) :
    accelerate forwardBoost v = { v with z := v.z - 2.5 } := by
  unfold accelerate moveX moveZ forwardBoost idleInput ACCELERATION
  simp
  ring


theorem forwardBoost_step (platforms : List Platform) (endGoal : Option Vec3) (deltaTime : ℝ)
    (w : World) (hx : w.gameState.velocity.x = 0)
    (hz1 : -47.5 ≤ w.gameState.velocity.z) (hz2 : w.gameState.velocity.z ≤ 0) :
    (updateSonic forwardBoost platforms endGoal deltaTime w).gameState.velocity.x = 0 ∧
    -47.5 ≤ (updateSonic forwardBoost platforms endGoal deltaTime w).gameState.velocity.z ∧
    (updateSonic forwardBoost platforms endGoal deltaTime w).gameState.velocity.z ≤ 0 ∧
    (w.gameState.isDead = false → w.gameState.levelComplete = false →
      (updateSonic forwardBoost platforms endGoal deltaTime w).gameState.velocity.z =
        0.95 * (w.gameState.velocity.z - 2.5)) := by
  have hlim : limitSpeed (speedCap forwardBoost) (accelerate forwardBoost w.gameState.velocity)
      = accelerate forwardBoost w.gameState.velocity := by
    apply limitSpeed_of_le
    rw [accelerate_forwardBoost, speedCap_forwardBoost]
    have e := horizontalSpeed_of_x_zero
      { w.gameState.velocity with z := w.gameState.velocity.z - 2.5 } hx
    rw [e]
    simp only
    rw [abs_le]
    constructor <;> linarith
  have hstep : w.gameState.isDead = false → w.gameState.levelComplete = false →
      (updateSonic forwardBoost platforms endGoal deltaTime w).gameState.velocity.x = 0 ∧
      (updateSonic forwardBoost platforms endGoal deltaTime w).gameState.velocity.z =
        0.95 * (w.gameState.velocity.z - 2.5) := by
    intro halive hnc
    rw [updateSonic_velocity_x _ _ _ _ _ halive hnc, updateSonic_velocity_z _ _ _ _ _ halive hnc,
      hlim, accelerate_forwardBoost]
    unfold applyFriction FRICTION
    simp only [hx]
    constructor <;> ring
  by_cases hg : w.gameState.isDead = true ∨ w.gameState.levelComplete = true
  · rw [updateSonic_skipped _ _ _ _ _ hg]
    refine ⟨hx, hz1, hz2, ?_⟩
    intro h1 h2
    rcases hg with h | h
    · rw [h1] at h; exact absurd h (by decide)
    · rw [h2] at h; exact absurd h (by decide)
  · have halive : w.gameState.isDead = false := by
      cases h : w.gameState.isDead <;> simp_all
    have hnc : w.gameState.levelComplete = false := by
      cases h : w.gameState.levelComplete <;> simp_all
    obtain ⟨e1, e2⟩ := hstep halive hnc
    refine ⟨e1, ?_, ?_, fun _ _ => e2⟩ <;> rw [e2] <;> linarith

theorem boostTicks_bounds (platforms : List Platform) (endGoal : Option Vec3) (deltaTime : ℝ)
    (w : World) (hx : w.gameState.velocity.x = 0) (hz : w.gameState.velocity.z = 0) (n : ℕ) :
    (boostTicks platforms endGoal deltaTime w n).gameState.velocity.x = 0 ∧
    -47.5 ≤ (boostTicks platforms endGoal deltaTime w n).gameState.velocity.z ∧
    (boostTicks platforms endGoal deltaTime w n).gameState.velocity.z ≤ 0 := by
  induction n with
  | zero =>
    simp only [boostTicks, hx, hz]
    norm_num
  | succ n ih =>
    have h := forwardBoost_step platforms endGoal deltaTime _ ih.1 ih.2.1 ih.2.2
    exact ⟨h.1, h.2.1, h.2.2.1⟩

theorem boostTicks_speed_le (platforms : List Platform) (endGoal : Option Vec3) (deltaTime : ℝ)
    (w : World) (hx : w.gameState.velocity.x = 0) (hz : w.gameState.velocity.z = 0) (n : ℕ) :
    horizontalSpeed (boostTicks platforms endGoal deltaTime w n).gameState.velocity ≤ 47.5 := by
  obtain ⟨h1, h2, h3⟩ := boostTicks_bounds platforms endGoal deltaTime w hx hz n
  rw [horizontalSpeed_of_x_zero _ h1, abs_le]
  constructor <;> linarith

/-- On a level without platforms the resolved height is at least 3. -/
theorem physicsStep_nil_height (inp : Input) (deltaTime : ℝ) (w : World) :
    3 ≤ (physicsStep inp [] deltaTime w).sonic.position.y := by
  unfold physicsStep platformScan
  simp only [List.foldl_nil, Bool.false_eq_true, if_false]
  split_ifs
  all_goals first
    | exact le_refl _
    | (apply le_of_lt; apply lt_of_not_le; assumption)

/-- Without platforms and without a goal a live player stays live. -/
theorem updateSonic_free_live (inp : Input) (deltaTime : ℝ) (w : World)
    (halive : w.gameState.isDead = false) (hnc : w.gameState.levelComplete = false) :
    (updateSonic inp [] none deltaTime w).gameState.isDead = false ∧
    (updateSonic inp [] none deltaTime w).gameState.levelComplete = false := by
  rw [updateSonic_live _ _ _ _ _ halive hnc]
  have hd : deathCheck (physicsStep inp [] deltaTime w) = physicsStep inp [] deltaTime w := by
    unfold deathCheck
    rw [if_neg]
    have := physicsStep_nil_height inp deltaTime w
    intro h
    linarith
  simp [goalCheck, hd, halive, hnc]

theorem boostTicks_free (deltaTime : ℝ) (w : World)
    (halive : w.gameState.isDead = false) (hnc : w.gameState.levelComplete = false)
    (hx : w.gameState.velocity.x = 0) (hz : w.gameState.velocity.z = 0) (n : ℕ) :
    (boostTicks [] none deltaTime w n).gameState.isDead = false ∧
    (boostTicks [] none deltaTime w n).gameState.levelComplete = false ∧
    (boostTicks [] none deltaTime w n).gameState.velocity.z = -47.5 * (1 - 0.95 ^ n) := by
  induction n with
  | zero =>
    simp only [boostTicks, halive, hnc, hz]
    norm_num
  | succ n ih =>
    obtain ⟨h1, h2, h3⟩ := ih
    have hb := boostTicks_bounds [] none deltaTime w hx hz n
    have hs := forwardBoost_step [] none deltaTime _ hb.1 hb.2.1 hb.2.2
    have hl := updateSonic_free_live forwardBoost deltaTime _ h1 h2
    refine ⟨hl.1, hl.2, ?_⟩
    show (updateSonic forwardBoost [] none deltaTime
      (boostTicks [] none deltaTime w n)).gameState.velocity.z = _
    rw [hs.2.2.2 h1 h2, h3, pow_succ]
    ring

theorem boostTicks_free_speed (deltaTime : ℝ) (w : World)
    (halive : w.gameState.isDead = false) (hnc : w.gameState.levelComplete = false)
    (hx : w.gameState.velocity.x = 0) (hz : w.gameState.velocity.z = 0) (n : ℕ) :
    horizontalSpeed (boostTicks [] none deltaTime w n).gameState.velocity
      = 47.5 * (1 - 0.95 ^ n) := by
  have hb := boostTicks_bounds [] none deltaTime w hx hz n
  have hf := boostTicks_free deltaTime w halive hnc hx hz n
  rw [horizontalSpeed_of_x_zero _ hb.1, abs_of_nonpos hb.2.2, hf.2.2]
  ring

/-! ## Collision resolution -/

theorem platformScan_true_of_acc (pos : Vec3) (vy : ℝ) (platforms : List Platform) :
    ∀ acc : Bool × ℝ, acc.1 = true →
      (platforms.foldl (platformCheck pos vy) acc).1 = true := by
  induction platforms with
  | nil => intro acc h; exact h
  | cons p ps ih =>
    intro acc h
    rw [List.foldl_cons]
    apply ih
    unfold platformCheck
    dsimp only
    split_ifs <;> first | exact h | rfl

theorem platformScan_true_of_mem (pos : Vec3) (vy : ℝ) (p : Platform)
    (hgeo : p.geometry = true)
    (hx : p.boxMin.x ≤ pos.x ∧ pos.x ≤ p.boxMax.x)
    (hz : p.boxMin.z ≤ pos.z ∧ pos.z ≤ p.boxMax.z)
    (hband : p.boxMax.y - 5 ≤ pos.y ∧ pos.y ≤ p.boxMax.y + 2) (hvy : vy ≤ 0)
    (platforms : List Platform) (hp : p ∈ platforms) :
    ∀ acc : Bool × ℝ, (platforms.foldl (platformCheck pos vy) acc).1 = true := by
  induction platforms with
  | nil => exact absurd hp (List.not_mem_nil p)
  | cons q qs ih =>
    intro acc
    rw [List.foldl_cons]
    rcases List.mem_cons.mp hp with h | h
    · subst h
      apply platformScan_true_of_acc
      unfold platformCheck
      dsimp only
      rw [if_neg (by simp [hgeo]), if_pos ⟨⟨hx.1, hx.2⟩, ⟨hz.1, hz.2⟩⟩,
        if_pos ⟨hband.2, hband.1, hvy⟩]
    · exact ih h _

theorem physicsStep_landed (inp : Input) (platforms : List Platform) (deltaTime : ℝ) (w : World)
    (h : (platformScan (integratePosition inp deltaTime w)
      (integrateVelocity inp deltaTime w.gameState).y platforms).1 = true) :
    (physicsStep inp platforms deltaTime w).gameState.velocity.y = 0 ∧
    (physicsStep inp platforms deltaTime w).gameState.isJumping = false ∧
    (physicsStep inp platforms deltaTime w).sonic.position.y =
      (platformScan (integratePosition inp deltaTime w)
        (integrateVelocity inp deltaTime w.gameState).y platforms).2 + 2 := by
  unfold physicsStep
  dsimp only
  rw [if_pos h]
  exact ⟨rfl, rfl, rfl⟩

/-! ## The enemy loop -/

theorem forEachIdx_invariant (f : ℕ → World → World) (P : ℕ → World → Prop)
    (hstep : ∀ k w, P k w → P (k + 1) (f k w)) :
    ∀ n k w, P k w → P (k + n) (forEachIdx f n k w) := by
  intro n
  induction n with
  | zero => intro k w h; exact h
  | succ n ih =>
    intro k w h
    have h' := ih (k + 1) (f k w) (hstep k w h)
    have e : k + 1 + n = k + (n + 1) := by omega
    rw [e] at h'
    exact h'

/-- A property kept by every callback is kept by the loop. -/
theorem forEachIdx_preserves (f : ℕ → World → World) (P : World → Prop)
    (hstep : ∀ k w, P w → P (f k w)) (n k : ℕ) (w : World) (h : P w) :
    P (forEachIdx f n k w) :=
  forEachIdx_invariant f (fun _ w => P w) hstep n k w h

theorem takeDamage_enemies (enemy : Enemy) (w : World) :
    (takeDamage enemy w).enemies = w.enemies := by
  unfold takeDamage
  dsimp only
  split_ifs
  · rfl
  · simp

/-- While the player is invulnerable or dead the callback only moves the
enemy at `index`. -/
theorem enemyCallback_passive (deltaTime : ℝ) (index : ℕ) (w : World)
    (h : w.gameState.invulnerable = true ∨ w.gameState.isDead = true) :
    enemyCallback deltaTime index w =
      { w with enemies :=
          match w.enemies[index]? with
          | none => w.enemies
          | some enemy => w.enemies.set index (patrol deltaTime enemy) } := by
  unfold enemyCallback
  cases hk : w.enemies[index]? with
  | none => rfl
  | some enemy =>
    dsimp only
    unfold enemyCollision
    dsimp only
    rw [if_neg]
    rintro ⟨h1, h2⟩
    rcases h with h | h
    · rw [h1] at h; exact absurd h (by decide)
    · rw [h2] at h; exact absurd h (by decide)

/-- The callback at an enemy that is out of the combat radius only moves
that enemy. -/
theorem enemyCallback_far (deltaTime : ℝ) (index : ℕ) (w : World) (enemy : Enemy)
    (hk : w.enemies[index]? = some enemy)
    (hfar : ¬ w.sonic.position.distanceTo (patrol deltaTime enemy).position < 4) :
    enemyCallback deltaTime index w =
      { w with enemies := w.enemies.set index (patrol deltaTime enemy) } := by
  unfold enemyCallback
  rw [hk]
  dsimp only
  unfold enemyCollision
  dsimp only
  rw [if_neg hfar]
  split_ifs <;> rfl

/-- The callback at an enemy within the combat radius, the player being
vulnerable, alive and not stomping: the player takes damage. -/
theorem enemyCallback_hit (deltaTime : ℝ) (index : ℕ) (w : World) (enemy : Enemy)
    (hk : w.enemies[index]? = some enemy)
    (hinv : w.gameState.invulnerable = false) (halive : w.gameState.isDead = false)
    (hstomp : ¬ (w.gameState.isJumping = true ∧ w.gameState.velocity.y < 0))
    (hnear : w.sonic.position.distanceTo (patrol deltaTime enemy).position < 4) :
    enemyCallback deltaTime index w =
      takeDamage (patrol deltaTime enemy)
        { w with enemies := w.enemies.set index (patrol deltaTime enemy) } := by
  unfold enemyCallback
  rw [hk]
  dsimp only
  unfold enemyCollision
  dsimp only
  rw [if_pos ⟨hinv, halive⟩, if_pos hnear, if_neg hstomp]

theorem World.ext_fields (a b : World) (h1 : a.gameState = b.gameState)
    (h2 : a.sonic = b.sonic) (h3 : a.rings = b.rings) (h4 : a.enemies = b.enemies)
    (h5 : a.timers = b.timers) (h6 : a.music = b.music) : a = b := by
  cases a
  cases b
  simp only at h1 h2 h3 h4 h5 h6
  subst h1 h2 h3 h4 h5 h6
  rfl

/-- One more enemy of the array has made its patrol move. -/
theorem patrolled_step (p : Enemy → Enemy) (orig l : List Enemy) (k : ℕ)
    (h : ∀ i, l[i]? = if i < k then (orig[i]?).map p else orig[i]?) :
    ∀ i, (match l[k]? with
          | none => l
          | some e => l.set k (p e))[i]?
        = if i < k + 1 then (orig[i]?).map p else orig[i]? := by
  intro i
  have hk := h k
  rw [if_neg (lt_irrefl k)] at hk
  cases hl : l[k]? with
  | none =>
    dsimp only
    by_cases hik : i = k
    · subst hik
      rw [hl, if_pos (Nat.lt_succ_self i), ← hk, hl]
      rfl
    · rw [h i]
      have : (i < k + 1) ↔ (i < k) := by omega
      simp only [this]
  | some e =>
    dsimp only
    by_cases hik : i = k
    · subst hik
      have hlt : i < l.length := by
        rcases List.getElem?_eq_some.mp hl with ⟨hlt, _⟩
        exact hlt
      rw [List.getElem?_set_self hlt, if_pos (Nat.lt_succ_self i), ← hk, hl]
      rfl
    · rw [List.getElem?_set_ne (Ne.symm hik), h i]
      have : (i < k + 1) ↔ (i < k) := by omega
      simp only [this]

theorem patrolled_all (p : Enemy → Enemy) (orig l : List Enemy)
    (h : ∀ i, l[i]? = if i < orig.length then (orig[i]?).map p else orig[i]?) :
    l = orig.map p := by
  apply List.ext_getElem?
  intro i
  rw [h i, List.getElem?_map]
  split_ifs with hi
  · rfl
  · rw [List.getElem?_eq_none (not_lt.mp hi)]
    rfl

/-- C6 in closed form: entered while the player is invulnerable or dead,
`updateEnemies` moves every enemy and changes nothing else. -/
theorem updateEnemies_passive (deltaTime : ℝ) (w : World)
    (h : w.gameState.invulnerable = true ∨ w.gameState.isDead = true) :
    updateEnemies deltaTime w = { w with enemies := w.enemies.map (patrol deltaTime) } := by
  have key := forEachIdx_invariant (enemyCallback deltaTime)
    (fun k w' => w'.gameState = w.gameState ∧ w'.sonic = w.sonic ∧ w'.rings = w.rings ∧
      w'.timers = w.timers ∧ w'.music = w.music ∧
      ∀ i, w'.enemies[i]? =
        if i < k then (w.enemies[i]?).map (patrol deltaTime) else w.enemies[i]?)
    (by
      intro k w' ⟨hg, hs, hr, ht, hm, he⟩
      rw [enemyCallback_passive deltaTime k w' (by rw [hg]; exact h)]
      exact ⟨hg, hs, hr, ht, hm, patrolled_step _ _ _ k he⟩)
    w.enemies.length 0 w ⟨rfl, rfl, rfl, rfl, rfl, fun i => by simp⟩
  obtain ⟨hg, hs, hr, ht, hm, he⟩ := key
  rw [Nat.zero_add] at he
  exact World.ext_fields _ _ hg hs hr (patrolled_all _ _ _ he) ht hm

theorem takeDamage_congr (enemy : Enemy) (a b : World) (hg : a.gameState = b.gameState)
    (hs : a.sonic = b.sonic) (ht : a.timers = b.timers) :
    (takeDamage enemy a).gameState = (takeDamage enemy b).gameState ∧
    (takeDamage enemy a).timers = (takeDamage enemy b).timers := by
  cases a
  cases b
  simp only at hg hs ht
  subst hg hs ht
  unfold takeDamage handleDeath
  dsimp only
  split_ifs <;> exact ⟨rfl, rfl⟩

theorem takeDamage_frame (enemy : Enemy) (w : World) :
    (takeDamage enemy w).sonic = w.sonic ∧ (takeDamage enemy w).rings = w.rings ∧
    (takeDamage enemy w).music = w.music := by
  unfold takeDamage
  dsimp only
  split_ifs
  · exact ⟨rfl, rfl, rfl⟩
  · simp

theorem takeDamage_shields (enemy : Enemy) (w : World) (halive : w.gameState.isDead = false) :
    (takeDamage enemy w).gameState.invulnerable = true ∨
      (takeDamage enemy w).gameState.isDead = true := by
  unfold takeDamage
  dsimp only
  split_ifs
  · exact Or.inl rfl
  · right
    unfold handleDeath
    rw [if_neg (by rw [halive]; decide)]
    dsimp only
    split_ifs <;> rfl

/-- Entered with the player vulnerable, alive and not stomping, and with
some enemy inside the combat radius after its patrol move, `updateEnemies`
makes the player take damage from exactly one such enemy; every enemy makes
its move and none is removed. -/
theorem updateEnemies_first_hit (deltaTime : ℝ) (w : World)
    (hinv : w.gameState.invulnerable = false) (halive : w.gameState.isDead = false)
    (hstomp : ¬ (w.gameState.isJumping = true ∧ w.gameState.velocity.y < 0))
    (hex : ∃ e ∈ w.enemies, w.sonic.position.distanceTo (patrol deltaTime e).position < 4) :
    ∃ e ∈ w.enemies, w.sonic.position.distanceTo (patrol deltaTime e).position < 4 ∧
      (updateEnemies deltaTime w).gameState = (takeDamage (patrol deltaTime e) w).gameState ∧
      (updateEnemies deltaTime w).timers = (takeDamage (patrol deltaTime e) w).timers ∧
      (updateEnemies deltaTime w).sonic = w.sonic ∧
      (updateEnemies deltaTime w).rings = w.rings ∧
      (updateEnemies deltaTime w).music = w.music ∧
      (updateEnemies deltaTime w).enemies = w.enemies.map (patrol deltaTime) := by
  have key := forEachIdx_invariant (enemyCallback deltaTime)
    (fun k w' =>
      (w'.sonic = w.sonic ∧ w'.rings = w.rings ∧ w'.music = w.music ∧
        ∀ i, w'.enemies[i]? =
          if i < k then (w.enemies[i]?).map (patrol deltaTime) else w.enemies[i]?) ∧
      ((w'.gameState = w.gameState ∧ w'.timers = w.timers ∧
          ∀ i, i < k → ∀ e, w.enemies[i]? = some e →
            ¬ w.sonic.position.distanceTo (patrol deltaTime e).position < 4) ∨
       (∃ e ∈ w.enemies, w.sonic.position.distanceTo (patrol deltaTime e).position < 4 ∧
          w'.gameState = (takeDamage (patrol deltaTime e) w).gameState ∧
          w'.timers = (takeDamage (patrol deltaTime e) w).timers)))
    (by
      intro k w' ⟨⟨hs, hr, hm, he⟩, hphase⟩
      have hek : w'.enemies[k]? = w.enemies[k]? := by
        rw [he k, if_neg (lt_irrefl k)]
      have hstep := patrolled_step (patrol deltaTime) w.enemies w'.enemies k he
      rcases hphase with ⟨hg, ht, hfar⟩ | ⟨e, hmem, hnear, hg, ht⟩
      · cases hk : w'.enemies[k]? with
        | none =>
          have hcb : enemyCallback deltaTime k w' = w' := by
            unfold enemyCallback
            rw [hk]
          rw [hcb]
          rw [hk] at hstep
          refine ⟨⟨hs, hr, hm, hstep⟩, Or.inl ⟨hg, ht, ?_⟩⟩
          intro i hi e hie
          rcases Nat.lt_succ_iff_lt_or_eq.mp hi with hlt | heq
          · exact hfar i hlt e hie
          · subst heq
            rw [← hek, hk] at hie
            cases hie
        | some enemy =>
          rw [hk] at hstep
          by_cases hnear : w.sonic.position.distanceTo (patrol deltaTime enemy).position < 4
          · have hcb := enemyCallback_hit deltaTime k w' enemy hk (by rw [hg]; exact hinv)
              (by rw [hg]; exact halive) (by rw [hg]; exact hstomp) (by rw [hs]; exact hnear)
            rw [hcb]
            have hfr := takeDamage_frame (patrol deltaTime enemy)
              { w' with enemies := w'.enemies.set k (patrol deltaTime enemy) }
            have hcg := takeDamage_congr (patrol deltaTime enemy)
              { w' with enemies := w'.enemies.set k (patrol deltaTime enemy) } w hg hs ht
            refine ⟨⟨hfr.1.trans hs, hfr.2.1.trans hr, hfr.2.2.trans hm, ?_⟩, Or.inr ?_⟩
            · rw [takeDamage_enemies]
              exact hstep
            · refine ⟨enemy, ?_, hnear, hcg.1, hcg.2⟩
              apply List.mem_iff_getElem?.mpr
              exact ⟨k, by rw [← hek, hk]⟩
          · have hcb := enemyCallback_far deltaTime k w' enemy hk (by rw [hs]; exact hnear)
            rw [hcb]
            refine ⟨⟨hs, hr, hm, hstep⟩, Or.inl ⟨hg, ht, ?_⟩⟩
            intro i hi e hie
            rcases Nat.lt_succ_iff_lt_or_eq.mp hi with hlt | heq
            · exact hfar i hlt e hie
            · subst heq
              rw [← hek, hk] at hie
              cases hie
              exact hnear
      · have hpass : w'.gameState.invulnerable = true ∨ w'.gameState.isDead = true := by
          rw [hg]
          exact takeDamage_shields _ w halive
        rw [enemyCallback_passive deltaTime k w' hpass]
        exact ⟨⟨hs, hr, hm, hstep⟩, Or.inr ⟨e, hmem, hnear, hg, ht⟩⟩)
    w.enemies.length 0 w
    ⟨⟨rfl, rfl, rfl, fun i => by simp⟩, Or.inl ⟨rfl, rfl, fun i hi => absurd hi (Nat.not_lt_zero i)⟩⟩
  rw [Nat.zero_add] at key
  obtain ⟨⟨hs, hr, hm, he⟩, hphase⟩ := key
  rcases hphase with ⟨_, _, hfar⟩ | ⟨e, hmem, hnear, hg, ht⟩
  · exfalso
    obtain ⟨e, hmem, hnear⟩ := hex
    obtain ⟨i, hi, hie⟩ := List.mem_iff_getElem.mp hmem
    exact hfar i hi e (by rw [List.getElem?_eq_getElem hi, hie]) hnear
  · exact ⟨e, hmem, hnear, hg, ht, hs, hr, hm, patrolled_all _ _ _ he⟩

/-! ## What the callbacks and events leave unchanged -/

theorem ringCallback_frame (deltaTime : ℝ) (now : ℕ → ℝ) (index : ℕ) (w : World) :
    (ringCallback deltaTime now index w).gameState.lives = w.gameState.lives ∧
    (ringCallback deltaTime now index w).gameState.isDead = w.gameState.isDead ∧
    (ringCallback deltaTime now index w).gameState.levelComplete = w.gameState.levelComplete ∧
    (ringCallback deltaTime now index w).timers = w.timers ∧
    (ringCallback deltaTime now index w).enemies = w.enemies ∧
    (ringCallback deltaTime now index w).sonic = w.sonic := by
  unfold ringCallback
  cases w.rings[index]? with
  | none => exact ⟨rfl, rfl, rfl, rfl, rfl, rfl⟩
  | some ring =>
    dsimp only
    split_ifs <;> exact ⟨rfl, rfl, rfl, rfl, rfl, rfl⟩

/-- A ring callback either collects the ring at `index` (one ring fewer in
the array, `rings` up by 1, `score` up by 10) or leaves the counters and the
length of the array as they are. -/
theorem ringCallback_count (deltaTime : ℝ) (now : ℕ → ℝ) (index : ℕ) (w : World) :
    ((ringCallback deltaTime now index w).gameState.rings = w.gameState.rings + 1 ∧
      (ringCallback deltaTime now index w).gameState.score = w.gameState.score + 10 ∧
      (ringCallback deltaTime now index w).rings.length + 1 = w.rings.length) ∨
    ((ringCallback deltaTime now index w).gameState.rings = w.gameState.rings ∧
      (ringCallback deltaTime now index w).gameState.score = w.gameState.score ∧
      (ringCallback deltaTime now index w).rings.length = w.rings.length) := by
  unfold ringCallback
  cases hk : w.rings[index]? with
  | none => exact Or.inr ⟨rfl, rfl, rfl⟩
  | some ring =>
    have hlt : index < w.rings.length := by
      rcases List.getElem?_eq_some.mp hk with ⟨hlt, _⟩
      exact hlt
    dsimp only
    split_ifs
    · left
      refine ⟨rfl, rfl, ?_⟩
      rw [List.length_eraseIdx_of_lt (by rw [List.length_set]; exact hlt), List.length_set]
      omega
    · right
      exact ⟨rfl, rfl, List.length_set _ _ _⟩

theorem lifeState_handleDeath_congr (a b : World) (h : lifeState a = lifeState b) :
    lifeState (handleDeath a) = lifeState (handleDeath b) := by
  unfold lifeState at h
  simp only [Prod.mk.injEq] at h
  obtain ⟨h1, h2, h3⟩ := h
  unfold handleDeath lifeState
  dsimp only
  rw [h1, h2]
  split_ifs <;> simp [h1, h2, h3, List.count_append]

theorem handleDeath_dead (w : World) (h : w.gameState.isDead = true) : handleDeath w = w := by
  unfold handleDeath
  rw [if_pos h]

theorem handleDeath_isDead (w : World) : (handleDeath w).gameState.isDead = true := by
  unfold handleDeath
  dsimp only
  split_ifs with h1 <;> first | exact h1 | rfl

theorem lifeState_handleDeath_idem (w : World) :
    lifeState (handleDeath (handleDeath w)) = lifeState (handleDeath w) :=
  congrArg lifeState (handleDeath_dead _ (handleDeath_isDead w))

theorem lifeState_handleLevelComplete (w : World) :
    lifeState (handleLevelComplete w) = lifeState w := by
  unfold handleLevelComplete lifeState
  dsimp only
  split_ifs
  · rfl
  · simp [List.count_append]

theorem enemyCallback_frame (deltaTime : ℝ) (index : ℕ) (w : World) :
    (enemyCallback deltaTime index w).gameState.levelComplete = w.gameState.levelComplete ∧
    (enemyCallback deltaTime index w).rings = w.rings ∧
    (enemyCallback deltaTime index w).sonic = w.sonic ∧
    ((enemyCallback deltaTime index w).gameState.rings = w.gameState.rings ∨
      (enemyCallback deltaTime index w).gameState.rings = 0) := by
  unfold enemyCallback
  cases w.enemies[index]? with
  | none => exact ⟨rfl, rfl, rfl, Or.inl rfl⟩
  | some enemy =>
    dsimp only
    unfold enemyCollision takeDamage
    dsimp only
    split_ifs <;> simp

theorem enemyCallback_lifeState (deltaTime : ℝ) (index : ℕ) (w : World) :
    lifeState (enemyCallback deltaTime index w) = lifeState w ∨
    lifeState (enemyCallback deltaTime index w) = lifeState (handleDeath w) := by
  unfold enemyCallback
  cases w.enemies[index]? with
  | none => exact Or.inl rfl
  | some enemy =>
    dsimp only
    unfold enemyCollision takeDamage
    dsimp only
    split_ifs
    · exact Or.inl rfl
    · exact Or.inl rfl
    · exact Or.inr (lifeState_handleDeath_congr _ _ rfl)
    · exact Or.inl rfl
    · exact Or.inl rfl

/-! ## Events -/

theorem run_cons (w : World) (ev : Event) (evs : List Event) :
    run w (ev :: evs) = run (step w ev) evs := rfl

theorem run_append (w : World) (evs evs' : List Event) :
    run w (evs ++ evs') = run (run w evs) evs' := by
  unfold run
  rw [List.foldl_append]

theorem updateRings_frame (deltaTime : ℝ) (now : ℕ → ℝ) (w : World) :
    (updateRings deltaTime now w).gameState.lives = w.gameState.lives ∧
    (updateRings deltaTime now w).gameState.isDead = w.gameState.isDead ∧
    (updateRings deltaTime now w).gameState.levelComplete = w.gameState.levelComplete ∧
    (updateRings deltaTime now w).timers = w.timers ∧
    (updateRings deltaTime now w).enemies = w.enemies ∧
    (updateRings deltaTime now w).sonic = w.sonic := by
  unfold updateRings
  apply forEachIdx_preserves (ringCallback deltaTime now)
    (fun w' => w'.gameState.lives = w.gameState.lives ∧
      w'.gameState.isDead = w.gameState.isDead ∧
      w'.gameState.levelComplete = w.gameState.levelComplete ∧
      w'.timers = w.timers ∧ w'.enemies = w.enemies ∧ w'.sonic = w.sonic)
  · intro k w' ⟨h1, h2, h3, h4, h5, h6⟩
    obtain ⟨f1, f2, f3, f4, f5, f6⟩ := ringCallback_frame deltaTime now k w'
    exact ⟨f1.trans h1, f2.trans h2, f3.trans h3, f4.trans h4, f5.trans h5, f6.trans h6⟩
  · exact ⟨rfl, rfl, rfl, rfl, rfl, rfl⟩

/-- The function `updateRings` adds to `rings` exactly the number of rings it removes from
the array, and ten times that to `score`. -/
theorem updateRings_count (deltaTime : ℝ) (now : ℕ → ℝ) (w : World) :
    (updateRings deltaTime now w).rings.length ≤ w.rings.length ∧
    (updateRings deltaTime now w).gameState.rings + (updateRings deltaTime now w).rings.length
      = w.gameState.rings + w.rings.length ∧
    (updateRings deltaTime now w).gameState.score
        + 10 * (updateRings deltaTime now w).rings.length
      = w.gameState.score + 10 * w.rings.length := by
  unfold updateRings
  apply forEachIdx_preserves (ringCallback deltaTime now)
    (fun w' => w'.rings.length ≤ w.rings.length ∧
      w'.gameState.rings + w'.rings.length = w.gameState.rings + w.rings.length ∧
      w'.gameState.score + 10 * w'.rings.length = w.gameState.score + 10 * w.rings.length)
  · intro k w' ⟨h1, h2, h3⟩
    rcases ringCallback_count deltaTime now k w' with ⟨c1, c2, c3⟩ | ⟨c1, c2, c3⟩
    · refine ⟨by omega, ?_, ?_⟩
      · rw [c1, ← h2, ← c3]
        push_cast
        ring
      · rw [c2, ← h3, ← c3]
        push_cast
        ring
    · rw [c1, c2, c3]
      exact ⟨h1, h2, h3⟩
  · exact ⟨le_refl _, rfl, rfl⟩

theorem updateEnemies_frame (deltaTime : ℝ) (w : World) :
    (updateEnemies deltaTime w).gameState.levelComplete = w.gameState.levelComplete ∧
    (updateEnemies deltaTime w).rings = w.rings ∧
    (updateEnemies deltaTime w).sonic = w.sonic ∧
    (0 ≤ w.gameState.rings →
      0 ≤ (updateEnemies deltaTime w).gameState.rings ∧
      (updateEnemies deltaTime w).gameState.rings ≤ w.gameState.rings) := by
  unfold updateEnemies
  apply forEachIdx_preserves (enemyCallback deltaTime)
    (fun w' => w'.gameState.levelComplete = w.gameState.levelComplete ∧
      w'.rings = w.rings ∧ w'.sonic = w.sonic ∧
      (0 ≤ w.gameState.rings → 0 ≤ w'.gameState.rings ∧ w'.gameState.rings ≤ w.gameState.rings))
  · intro k w' ⟨h1, h2, h3, h4⟩
    obtain ⟨f1, f2, f3, f4⟩ := enemyCallback_frame deltaTime k w'
    refine ⟨f1.trans h1, f2.trans h2, f3.trans h3, ?_⟩
    intro h0
    obtain ⟨a, b⟩ := h4 h0
    rcases f4 with e | e <;> rw [e]
    · exact ⟨a, b⟩
    · exact ⟨le_refl _, h0⟩
  · exact ⟨rfl, rfl, rfl, fun h => ⟨h, le_refl _⟩⟩

theorem updateEnemies_lifeState (deltaTime : ℝ) (w : World) :
    lifeState (updateEnemies deltaTime w) = lifeState w ∨
    lifeState (updateEnemies deltaTime w) = lifeState (handleDeath w) := by
  unfold updateEnemies
  apply forEachIdx_preserves (enemyCallback deltaTime)
    (fun w' => lifeState w' = lifeState w ∨ lifeState w' = lifeState (handleDeath w))
  · intro k w' h
    rcases enemyCallback_lifeState deltaTime k w' with e | e <;> rcases h with h | h
    · exact Or.inl (e.trans h)
    · exact Or.inr (e.trans h)
    · exact Or.inr (e.trans (lifeState_handleDeath_congr _ _ h))
    · right
      rw [e, lifeState_handleDeath_congr _ _ h]
      exact lifeState_handleDeath_idem w
  · exact Or.inl rfl

theorem updateRings_lifeState (deltaTime : ℝ) (now : ℕ → ℝ) (w : World) :
    lifeState (updateRings deltaTime now w) = lifeState w := by
  obtain ⟨h1, h2, _, h4, _⟩ := updateRings_frame deltaTime now w
  unfold lifeState
  rw [h1, h2, h4]

theorem updateSonic_lifeState (inp : Input) (platforms : List Platform)
    (endGoal : Option Vec3) (deltaTime : ℝ) (w : World) :
    lifeState (updateSonic inp platforms endGoal deltaTime w) = lifeState w ∨
    lifeState (updateSonic inp platforms endGoal deltaTime w) = lifeState (handleDeath w) := by
  by_cases hg : w.gameState.isDead = true ∨ w.gameState.levelComplete = true
  · rw [updateSonic_skipped _ _ _ _ _ hg]
    exact Or.inl rfl
  · have halive : w.gameState.isDead = false := by
      cases h : w.gameState.isDead <;> simp_all
    have hnc : w.gameState.levelComplete = false := by
      cases h : w.gameState.levelComplete <;> simp_all
    rw [updateSonic_live _ _ _ _ _ halive hnc]
    have hfin : ∀ hv w', lifeState (finishStep inp deltaTime hv w') = lifeState w' := by
      intro hv w'
      simp [lifeState]
    have hgoal : ∀ w', lifeState (goalCheck endGoal w') = lifeState w' := by
      intro w'
      unfold goalCheck
      cases endGoal with
      | none => rfl
      | some goal =>
        dsimp only
        split_ifs
        · exact lifeState_handleLevelComplete w'
        · rfl
    have hphys : lifeState (physicsStep inp platforms deltaTime w) = lifeState w := by
      simp [lifeState]
    rw [hfin, hgoal]
    unfold deathCheck
    split_ifs
    · exact Or.inr (lifeState_handleDeath_congr _ _ hphys)
    · exact Or.inl hphys

/-- Every event of a run other than the respawn either leaves `lives`,
`isDead` and the pending respawns as they are or acts on them as
`handleDeath` does. -/
theorem step_lifeState (w : World) (ev : Event) (hev : ev ≠ Event.respawn) :
    lifeState (step w ev) = lifeState w ∨ lifeState (step w ev) = lifeState (handleDeath w) := by
  cases ev with
  | sonic inp platforms endGoal deltaTime => exact updateSonic_lifeState _ _ _ _ _
  | rings deltaTime now => exact Or.inl (updateRings_lifeState _ _ _)
  | enemies deltaTime => exact updateEnemies_lifeState _ _
  | death => exact Or.inr rfl
  | levelComplete => exact Or.inl (lifeState_handleLevelComplete w)
  | respawn => exact absurd rfl hev

theorem LifeInv_congr (a b : World) (h : lifeState a = lifeState b) (hb : LifeInv b) :
    LifeInv a := by
  unfold lifeState at h
  simp only [Prod.mk.injEq] at h
  obtain ⟨h1, h2, h3⟩ := h
  unfold LifeInv at *
  rw [h1, h2, h3]
  obtain ⟨b1, b2, b3, b4, b5⟩ := hb
  refine ⟨b1, b2, b3, ?_, b5⟩
  intro hm
  apply b4
  rw [← List.count_pos_iff] at hm ⊢
  omega

theorem LifeInv_handleDeath (w : World) (h : LifeInv w) : LifeInv (handleDeath w) := by
  by_cases hd : w.gameState.isDead = true
  · rw [handleDeath_dead w hd]
    exact h
  · obtain ⟨b1, b2, b3, b4, b5⟩ := h
    have halive : w.gameState.isDead = false := by
      cases h : w.gameState.isDead <;> simp_all
    have hl := b5 halive
    have hno : Timer.respawn ∉ w.timers := by
      intro hm
      have := (b4 hm).1
      rw [halive] at this
      exact absurd this (by decide)
    have hc : w.timers.count Timer.respawn = 0 := List.count_eq_zero.mpr hno
    unfold handleDeath LifeInv
    rw [if_neg hd]
    dsimp only
    split_ifs with hle
    · dsimp only
      refine ⟨by omega, by omega, ?_, ?_, ?_⟩
      · simp [List.count_append, hc]
      · intro hm
        simp [hno] at hm
      · intro hf
        exact absurd hf (by decide)
    · dsimp only
      refine ⟨by omega, by omega, ?_, ?_, ?_⟩
      · simp [List.count_append, hc]
      · intro _
        exact ⟨rfl, by omega⟩
      · intro hf
        exact absurd hf (by decide)

theorem LifeInv_fireRespawn (w : World) (h : LifeInv w) : LifeInv (fireRespawn w) := by
  unfold fireRespawn
  split_ifs with hm
  · obtain ⟨b1, b2, b3, b4, b5⟩ := h
    obtain ⟨_, hl⟩ := b4 hm
    have hc : (w.timers.erase Timer.respawn).count Timer.respawn = 0 := by
      rw [List.count_erase_self]
      omega
    unfold LifeInv respawnCallback
    dsimp only
    refine ⟨b1, b2, by omega, ?_, fun _ => hl⟩
    intro hm'
    exact absurd hm' (List.count_eq_zero.mp hc)
  · exact h

/-- Every event keeps the invariant of the death and respawn machine. -/
theorem LifeInv_step (w : World) (ev : Event) (h : LifeInv w) : LifeInv (step w ev) := by
  by_cases hev : ev = Event.respawn
  · subst hev
    exact LifeInv_fireRespawn w h
  · rcases step_lifeState w ev hev with e | e
    · exact LifeInv_congr _ _ e h
    · exact LifeInv_congr _ _ e (LifeInv_handleDeath w h)

theorem LifeInv_run (w : World) (evs : List Event) (h : LifeInv w) : LifeInv (run w evs) := by
  induction evs generalizing w with
  | nil => exact h
  | cons ev evs ih => exact ih (step w ev) (LifeInv_step w ev h)

theorem LifeInv_initialWorld (sonic : Sonic) (rings : List Ring) (enemies : List Enemy)
    (music : Music) : LifeInv (initialWorld sonic rings enemies music) := by
  unfold LifeInv initialWorld initialGameState
  simp

theorem handleLevelComplete_complete (w : World) (h : w.gameState.levelComplete = true) :
    handleLevelComplete w = w := by
  unfold handleLevelComplete
  rw [if_pos h]

theorem step_levelComplete (w : World) (ev : Event) (h : w.gameState.levelComplete = true) :
    (step w ev).gameState.levelComplete = true := by
  cases ev with
  | sonic inp platforms endGoal deltaTime =>
    show (updateSonic inp platforms endGoal deltaTime w).gameState.levelComplete = true
    rw [updateSonic_skipped _ _ _ _ _ (Or.inr h)]
    exact h
  | rings deltaTime now => exact (updateRings_frame deltaTime now w).2.2.1.trans h
  | enemies deltaTime => exact (updateEnemies_frame deltaTime w).1.trans h
  | death =>
    show (handleDeath w).gameState.levelComplete = true
    rw [handleDeath_gameState_levelComplete]
    exact h
  | levelComplete =>
    show (handleLevelComplete w).gameState.levelComplete = true
    rw [handleLevelComplete_complete w h]
    exact h
  | respawn =>
    show (fireRespawn w).gameState.levelComplete = true
    unfold fireRespawn
    split_ifs
    · rw [respawnCallback_gameState_levelComplete]
      exact h
    · exact h

theorem run_levelComplete (w : World) (evs : List Event)
    (h : w.gameState.levelComplete = true) : (run w evs).gameState.levelComplete = true := by
  induction evs generalizing w with
  | nil => exact h
  | cons ev evs ih => exact ih (step w ev) (step_levelComplete w ev h)

theorem updateSonic_rings (inp : Input) (platforms : List Platform)
    (endGoal : Option Vec3) (deltaTime : ℝ) (w : World) :
    (updateSonic inp platforms endGoal deltaTime w).rings = w.rings ∧
    (updateSonic inp platforms endGoal deltaTime w).gameState.rings = w.gameState.rings := by
  by_cases hg : w.gameState.isDead = true ∨ w.gameState.levelComplete = true
  · rw [updateSonic_skipped _ _ _ _ _ hg]
    exact ⟨rfl, rfl⟩
  · have halive : w.gameState.isDead = false := by
      cases h : w.gameState.isDead <;> simp_all
    have hnc : w.gameState.levelComplete = false := by
      cases h : w.gameState.levelComplete <;> simp_all
    rw [updateSonic_live _ _ _ _ _ halive hnc]
    simp

/-- The effect of one event on the ring count, given that it is not
negative: it stays non-negative and grows by at most the number of rings the
event picks up. -/
theorem step_rings (w : World) (ev : Event) (h0 : 0 ≤ w.gameState.rings) :
    0 ≤ (step w ev).gameState.rings ∧
    (step w ev).gameState.rings ≤ w.gameState.rings + (pickedUp w ev : ℤ) := by
  unfold pickedUp
  cases ev with
  | sonic inp platforms endGoal deltaTime =>
    obtain ⟨h1, h2⟩ := updateSonic_rings inp platforms endGoal deltaTime w
    show 0 ≤ (updateSonic inp platforms endGoal deltaTime w).gameState.rings ∧
      (updateSonic inp platforms endGoal deltaTime w).gameState.rings ≤ w.gameState.rings +
        ((w.rings.length - (updateSonic inp platforms endGoal deltaTime w).rings.length : ℕ) : ℤ)
    rw [h1, h2]
    simp [h0]
  | rings deltaTime now =>
    obtain ⟨h1, h2, _⟩ := updateRings_count deltaTime now w
    show 0 ≤ (updateRings deltaTime now w).gameState.rings ∧
      (updateRings deltaTime now w).gameState.rings ≤ w.gameState.rings +
        ((w.rings.length - (updateRings deltaTime now w).rings.length : ℕ) : ℤ)
    rw [Nat.cast_sub h1]
    constructor <;> omega
  | enemies deltaTime =>
    obtain ⟨_, h1, _, h2⟩ := updateEnemies_frame deltaTime w
    show 0 ≤ (updateEnemies deltaTime w).gameState.rings ∧
      (updateEnemies deltaTime w).gameState.rings ≤ w.gameState.rings +
        ((w.rings.length - (updateEnemies deltaTime w).rings.length : ℕ) : ℤ)
    rw [h1]
    obtain ⟨a, b⟩ := h2 h0
    simp [a, b]
  | death =>
    show 0 ≤ (handleDeath w).gameState.rings ∧
      (handleDeath w).gameState.rings ≤ w.gameState.rings +
        ((w.rings.length - (handleDeath w).rings.length : ℕ) : ℤ)
    simp [h0]
  | levelComplete =>
    show 0 ≤ (handleLevelComplete w).gameState.rings ∧
      (handleLevelComplete w).gameState.rings ≤ w.gameState.rings +
        ((w.rings.length - (handleLevelComplete w).rings.length : ℕ) : ℤ)
    simp [h0]
  | respawn =>
    show 0 ≤ (fireRespawn w).gameState.rings ∧
      (fireRespawn w).gameState.rings ≤ w.gameState.rings +
        ((w.rings.length - (fireRespawn w).rings.length : ℕ) : ℤ)
    unfold fireRespawn
    split_ifs
    · simp [respawnCallback, h0]
    · simp [h0]

theorem run_rings (w : World) (evs : List Event) (h0 : 0 ≤ w.gameState.rings) :
    0 ≤ (run w evs).gameState.rings ∧
    (run w evs).gameState.rings ≤ w.gameState.rings + (collected w evs : ℤ) := by
  induction evs generalizing w with
  | nil => simp [run, collected, h0]
  | cons ev evs ih =>
    obtain ⟨s1, s2⟩ := step_rings w ev h0
    obtain ⟨i1, i2⟩ := ih (step w ev) s1
    rw [run_cons]
    refine ⟨i1, ?_⟩
    unfold collected
    push_cast
    omega

theorem step_rings_length (w : World) (ev : Event) :
    (step w ev).rings.length ≤ w.rings.length := by
  cases ev with
  | sonic inp platforms endGoal deltaTime =>
    exact le_of_eq (congrArg List.length (updateSonic_rings inp platforms endGoal deltaTime w).1)
  | rings deltaTime now => exact (updateRings_count deltaTime now w).1
  | enemies deltaTime => exact le_of_eq (congrArg List.length (updateEnemies_frame deltaTime w).2.1)
  | death =>
    show (handleDeath w).rings.length ≤ _
    simp
  | levelComplete =>
    show (handleLevelComplete w).rings.length ≤ _
    simp
  | respawn =>
    show (fireRespawn w).rings.length ≤ _
    unfold fireRespawn
    split_ifs <;> simp

/-- The rings picked up during a run are those missing from the array. -/
theorem collected_eq (w : World) (evs : List Event) :
    collected w evs + (run w evs).rings.length = w.rings.length := by
  induction evs generalizing w with
  | nil => simp [run, collected]
  | cons ev evs ih =>
    have h := ih (step w ev)
    have hl := step_rings_length w ev
    rw [run_cons]
    unfold collected pickedUp
    omega

/-- The effect of one event on `lives`. -/
theorem step_lives (w : World) (ev : Event) :
    (step w ev).gameState.lives = w.gameState.lives ∨
    ((step w ev).gameState.lives = w.gameState.lives - 1 ∧ w.gameState.isDead = false ∧
      (step w ev).gameState.isDead = true) := by
  have hD : ∀ w' : World, lifeState w' = lifeState (handleDeath w) →
      w'.gameState.lives = w.gameState.lives ∨
      (w'.gameState.lives = w.gameState.lives - 1 ∧ w.gameState.isDead = false ∧
        w'.gameState.isDead = true) := by
    intro w' e
    unfold lifeState at e
    simp only [Prod.mk.injEq] at e
    obtain ⟨e1, e2, _⟩ := e
    rw [e1, e2]
    by_cases hd : w.gameState.isDead = true
    · rw [handleDeath_dead w hd]
      exact Or.inl rfl
    · have halive : w.gameState.isDead = false := by
        cases h : w.gameState.isDead <;> simp_all
      right
      refine ⟨?_, halive, handleDeath_isDead w⟩
      unfold handleDeath
      rw [if_neg hd]
      dsimp only
      split_ifs <;> rfl
  by_cases hev : ev = Event.respawn
  · subst hev
    left
    show (fireRespawn w).gameState.lives = _
    unfold fireRespawn
    split_ifs <;> rfl
  · rcases step_lifeState w ev hev with e | e
    · left
      unfold lifeState at e
      simp only [Prod.mk.injEq] at e
      exact e.1
    · exact hD _ e

theorem run_lives_le (w : World) (evs : List Event) :
    (run w evs).gameState.lives ≤ w.gameState.lives := by
  induction evs generalizing w with
  | nil => exact le_refl _
  | cons ev evs ih =>
    rw [run_cons]
    have h := ih (step w ev)
    rcases step_lives w ev with e | ⟨e, _, _⟩ <;> omega

/-! ## Evaluation at the scenarios -/

theorem moveX_idleInput : moveX idleInput = 0 := by
  simp [moveX, idleInput]

theorem moveZ_idleInput : moveZ idleInput = 0 := by
  simp [moveZ, idleInput]

theorem speedCap_idleInput : speedCap idleInput = 150 := by
  simp [speedCap, isBoosting, idleInput, MAX_SPEED]

theorem horizontalSpeed_zero (y : ℝ) : horizontalSpeed ⟨0, y, 0⟩ = 0 := by
  simp [horizontalSpeed, Vec2.length]

/-- With no key down a player at rest only gains the fall speed of one tick. -/
theorem integrateVelocity_idle_rest (deltaTime : ℝ) (g : GameState)
    (hv : g.velocity = ⟨0, 0, 0⟩) :
    integrateVelocity idleInput deltaTime g = ⟨0, GRAVITY * deltaTime, 0⟩ := by
  have hacc : accelerate idleInput g.velocity = ⟨0, 0, 0⟩ := by
    simp [accelerate, moveX_idleInput, moveZ_idleInput, hv]
  have hlim : limitSpeed (speedCap idleInput) ⟨0, 0, 0⟩ = ⟨0, 0, 0⟩ := by
    apply limitSpeed_of_le
    rw [horizontalSpeed_zero, speedCap_idleInput]
    norm_num
  have hj : jumpPressed idleInput g = false := by
    simp [jumpPressed, idleInput]
  simp [integrateVelocity, hacc, hlim, hj, applyFriction]

theorem integrateVelocity_emptyLevel :
    integrateVelocity idleInput (1 / 60) emptyLevel.gameState = ⟨0, -(1 / 2), 0⟩ := by
  rw [integrateVelocity_idle_rest _ _ rfl]
  simp [GRAVITY]
  norm_num

theorem integratePosition_emptyLevel :
    integratePosition idleInput (1 / 60) emptyLevel = ⟨0, 3 - 1 / 120, 0⟩ := by
  unfold integratePosition
  rw [integrateVelocity_emptyLevel]
  simp [emptyLevel, initialWorld, sonicAtStart]
  norm_num

theorem integratePosition_goalWorld :
    integratePosition idleInput (1 / 60) goalWorld = ⟨220, 50 - 1 / 120, -200⟩ := by
  unfold integratePosition
  rw [integrateVelocity_idle_rest _ _ rfl]
  simp [goalWorld, GRAVITY]
  norm_num

theorem physicsStep_goalWorld :
    (physicsStep idleInput [] (1 / 60) goalWorld).sonic.position
      = ⟨220, 50 - 1 / 120, -200⟩ := by
  unfold physicsStep platformScan
  simp only [List.foldl_nil, Bool.false_eq_true, if_false, integratePosition_goalWorld]
  rw [if_neg (by norm_num)]

theorem goalWorld_near_goal :
    (physicsStep idleInput [] (1 / 60) goalWorld).sonic.position.distanceTo levelGoal < 15 := by
  rw [physicsStep_goalWorld]
  simp [Vec3.distanceTo, Vec3.distanceToSquared, levelGoal]
  norm_num

/-! ## Score, checkpoint and jumping flag through the events -/

theorem enemyCallback_more (deltaTime : ℝ) (index : ℕ) (w : World) :
    w.gameState.score ≤ (enemyCallback deltaTime index w).gameState.score ∧
    (enemyCallback deltaTime index w).gameState.checkpointPosition
      = w.gameState.checkpointPosition ∧
    (enemyCallback deltaTime index w).gameState.isJumping = w.gameState.isJumping := by
  unfold enemyCallback
  cases w.enemies[index]? with
  | none => exact ⟨le_refl _, rfl, rfl⟩
  | some enemy =>
    dsimp only
    unfold enemyCollision takeDamage
    dsimp only
    split_ifs <;> simp

theorem ringCallback_more (deltaTime : ℝ) (now : ℕ → ℝ) (index : ℕ) (w : World) :
    (ringCallback deltaTime now index w).gameState.checkpointPosition
      = w.gameState.checkpointPosition ∧
    (ringCallback deltaTime now index w).gameState.isJumping = w.gameState.isJumping := by
  unfold ringCallback
  cases w.rings[index]? with
  | none => exact ⟨rfl, rfl⟩
  | some ring =>
    dsimp only
    split_ifs <;> exact ⟨rfl, rfl⟩

theorem updateEnemies_more (deltaTime : ℝ) (w : World) :
    w.gameState.score ≤ (updateEnemies deltaTime w).gameState.score ∧
    (updateEnemies deltaTime w).gameState.checkpointPosition = w.gameState.checkpointPosition ∧
    (updateEnemies deltaTime w).gameState.isJumping = w.gameState.isJumping := by
  unfold updateEnemies
  apply forEachIdx_preserves (enemyCallback deltaTime)
    (fun w' => w.gameState.score ≤ w'.gameState.score ∧
      w'.gameState.checkpointPosition = w.gameState.checkpointPosition ∧
      w'.gameState.isJumping = w.gameState.isJumping)
  · intro k w' ⟨h1, h2, h3⟩
    obtain ⟨f1, f2, f3⟩ := enemyCallback_more deltaTime k w'
    exact ⟨le_trans h1 f1, f2.trans h2, f3.trans h3⟩
  · exact ⟨le_refl _, rfl, rfl⟩

theorem updateRings_more (deltaTime : ℝ) (now : ℕ → ℝ) (w : World) :
    w.gameState.score ≤ (updateRings deltaTime now w).gameState.score ∧
    (updateRings deltaTime now w).gameState.checkpointPosition = w.gameState.checkpointPosition ∧
    (updateRings deltaTime now w).gameState.isJumping = w.gameState.isJumping := by
  refine ⟨?_, ?_⟩
  · obtain ⟨h1, _, h3⟩ := updateRings_count deltaTime now w
    omega
  · unfold updateRings
    apply forEachIdx_preserves (ringCallback deltaTime now)
      (fun w' => w'.gameState.checkpointPosition = w.gameState.checkpointPosition ∧
        w'.gameState.isJumping = w.gameState.isJumping)
    · intro k w' ⟨h2, h3⟩
      obtain ⟨f2, f3⟩ := ringCallback_more deltaTime now k w'
      exact ⟨f2.trans h2, f3.trans h3⟩
    · exact ⟨rfl, rfl⟩

theorem handleLevelComplete_score (w : World) (h0 : 0 ≤ w.gameState.rings) :
    w.gameState.score ≤ (handleLevelComplete w).gameState.score := by
  unfold handleLevelComplete
  dsimp only
  split_ifs
  · exact le_refl _
  · dsimp only
    omega

theorem updateSonic_score (inp : Input) (platforms : List Platform)
    (endGoal : Option Vec3) (deltaTime : ℝ) (w : World) (h0 : 0 ≤ w.gameState.rings) :
    w.gameState.score ≤ (updateSonic inp platforms endGoal deltaTime w).gameState.score := by
  by_cases hg : w.gameState.isDead = true ∨ w.gameState.levelComplete = true
  · rw [updateSonic_skipped _ _ _ _ _ hg]
  · have halive : w.gameState.isDead = false := by
      cases h : w.gameState.isDead <;> simp_all
    have hnc : w.gameState.levelComplete = false := by
      cases h : w.gameState.levelComplete <;> simp_all
    rw [updateSonic_live _ _ _ _ _ halive hnc, finishStep_gameState_score]
    unfold goalCheck
    cases endGoal with
    | none => simp
    | some goal =>
      dsimp only
      split_ifs
      · have := handleLevelComplete_score (deathCheck (physicsStep inp platforms deltaTime w))
          (by simp [h0])
        simpa using this
      · simp

theorem updateSonic_checkpoint (inp : Input) (platforms : List Platform)
    (endGoal : Option Vec3) (deltaTime : ℝ) (w : World) :
    (updateSonic inp platforms endGoal deltaTime w).gameState.checkpointPosition
      = w.gameState.checkpointPosition := by
  by_cases hg : w.gameState.isDead = true ∨ w.gameState.levelComplete = true
  · rw [updateSonic_skipped _ _ _ _ _ hg]
  · have halive : w.gameState.isDead = false := by
      cases h : w.gameState.isDead <;> simp_all
    have hnc : w.gameState.levelComplete = false := by
      cases h : w.gameState.levelComplete <;> simp_all
    rw [updateSonic_live _ _ _ _ _ halive hnc]
    simp

/-- No event lowers the score, given a ring count that is not negative. -/
theorem step_score (w : World) (ev : Event) (h0 : 0 ≤ w.gameState.rings) :
    w.gameState.score ≤ (step w ev).gameState.score := by
  cases ev with
  | sonic inp platforms endGoal deltaTime => exact updateSonic_score _ _ _ _ w h0
  | rings deltaTime now => exact (updateRings_more deltaTime now w).1
  | enemies deltaTime => exact (updateEnemies_more deltaTime w).1
  | death =>
    show _ ≤ (handleDeath w).gameState.score
    simp
  | levelComplete => exact handleLevelComplete_score w h0
  | respawn =>
    show _ ≤ (fireRespawn w).gameState.score
    unfold fireRespawn
    split_ifs <;> simp

theorem step_checkpoint (w : World) (ev : Event) :
    (step w ev).gameState.checkpointPosition = w.gameState.checkpointPosition := by
  cases ev with
  | sonic inp platforms endGoal deltaTime => exact updateSonic_checkpoint _ _ _ _ w
  | rings deltaTime now => exact (updateRings_more deltaTime now w).2.1
  | enemies deltaTime => exact (updateEnemies_more deltaTime w).2.1
  | death =>
    show (handleDeath w).gameState.checkpointPosition = _
    simp
  | levelComplete =>
    show (handleLevelComplete w).gameState.checkpointPosition = _
    simp
  | respawn =>
    show (fireRespawn w).gameState.checkpointPosition = _
    unfold fireRespawn
    split_ifs <;> simp

theorem run_checkpoint (w : World) (evs : List Event) :
    (run w evs).gameState.checkpointPosition = w.gameState.checkpointPosition := by
  induction evs generalizing w with
  | nil => rfl
  | cons ev evs ih =>
    rw [run_cons, ih (step w ev), step_checkpoint]

theorem run_score (w : World) (evs : List Event) (h0 : 0 ≤ w.gameState.rings) :
    w.gameState.score ≤ (run w evs).gameState.score := by
  induction evs generalizing w with
  | nil => exact le_refl _
  | cons ev evs ih =>
    rw [run_cons]
    exact le_trans (step_score w ev h0) (ih (step w ev) (step_rings w ev h0).1)

/-- A pending respawn stays pending through every event but its firing. -/
theorem step_respawn_pending (w : World) (ev : Event) (hev : ev ≠ Event.respawn)
    (h : Timer.respawn ∈ w.timers) : Timer.respawn ∈ (step w ev).timers := by
  have hc : 0 < w.timers.count Timer.respawn := List.count_pos_iff.mpr h
  have hD : w.timers.count Timer.respawn ≤ (handleDeath w).timers.count Timer.respawn := by
    unfold handleDeath
    dsimp only
    split_ifs <;> simp [List.count_append]
  apply List.count_pos_iff.mp
  rcases step_lifeState w ev hev with e | e <;>
    · unfold lifeState at e
      simp only [Prod.mk.injEq] at e
      omega

theorem run_respawn_pending (w : World) (evs : List Event)
    (hev : ∀ ev ∈ evs, ev ≠ Event.respawn) (h : Timer.respawn ∈ w.timers) :
    Timer.respawn ∈ (run w evs).timers := by
  induction evs generalizing w with
  | nil => exact h
  | cons ev evs ih =>
    rw [run_cons]
    exact ih (step w ev) (fun e he => hev e (List.mem_cons_of_mem _ he))
      (step_respawn_pending w ev (hev ev (List.mem_cons_self _ _)) h)

theorem enemyCallback_score_cases (deltaTime : ℝ) (index : ℕ) (w : World) :
    (enemyCallback deltaTime index w).gameState.score = w.gameState.score ∨
    (enemyCallback deltaTime index w).gameState.score = w.gameState.score + 100 := by
  unfold enemyCallback
  cases w.enemies[index]? with
  | none => exact Or.inl rfl
  | some enemy =>
    dsimp only
    unfold enemyCollision takeDamage
    dsimp only
    split_ifs <;> simp

theorem handleLevelComplete_score_cases (w : World) :
    (handleLevelComplete w).gameState.score = w.gameState.score ∨
    (handleLevelComplete w).gameState.score
      = w.gameState.score + (1000 + 10 * w.gameState.rings) := by
  unfold handleLevelComplete
  dsimp only
  split_ifs
  · exact Or.inl rfl
  · right
    dsimp only
    ring

/-! ## The jump impulse and landings -/

theorem limitSpeed_y (speed : ℝ) (v : Vec3) : (limitSpeed speed v).y = v.y := by
  unfold limitSpeed
  dsimp only
  split_ifs <;> rfl

theorem integrateVelocity_y (inp : Input) (deltaTime : ℝ) (g : GameState) :
    (integrateVelocity inp deltaTime g).y =
      (if jumpPressed inp g = true then JUMP_FORCE else g.velocity.y) + GRAVITY * deltaTime := by
  unfold integrateVelocity
  dsimp only
  split_ifs
  · rfl
  · show (limitSpeed (speedCap inp) (accelerate inp g.velocity)).y + GRAVITY * deltaTime = _
    rw [limitSpeed_y]
    rfl

theorem jumpPressed_not_jumping (inp : Input) (g : GameState)
    (h : jumpPressed inp g = true) : g.isJumping = false := by
  unfold jumpPressed at h
  cases hj : g.isJumping with
  | false => rfl
  | true =>
    rw [hj] at h
    simp at h

theorem physicsStep_isJumping (inp : Input) (platforms : List Platform) (deltaTime : ℝ)
    (w : World) :
    (physicsStep inp platforms deltaTime w).gameState.isJumping =
      if (platformScan (integratePosition inp deltaTime w)
            (integrateVelocity inp deltaTime w.gameState).y platforms).1 = true ∨
          (integratePosition inp deltaTime w).y ≤ 3 then false
      else if jumpPressed inp w.gameState = true then true
      else w.gameState.isJumping := by
  unfold physicsStep
  dsimp only
  split_ifs <;> first | rfl | (exfalso; tauto)

theorem updateSonic_isJumping (inp : Input) (platforms : List Platform)
    (endGoal : Option Vec3) (deltaTime : ℝ) (w : World)
    (halive : w.gameState.isDead = false) (hnc : w.gameState.levelComplete = false) :
    (updateSonic inp platforms endGoal deltaTime w).gameState.isJumping =
      (physicsStep inp platforms deltaTime w).gameState.isJumping := by
  rw [updateSonic_live _ _ _ _ _ halive hnc]
  simp

/-- A tick keeps `isJumping` true unless it lands. -/
theorem updateSonic_keeps_jumping (inp : Input) (platforms : List Platform)
    (endGoal : Option Vec3) (deltaTime : ℝ) (w : World)
    (hj : w.gameState.isJumping = true) (hl : ¬ lands inp platforms deltaTime w) :
    (updateSonic inp platforms endGoal deltaTime w).gameState.isJumping = true := by
  by_cases hg : w.gameState.isDead = true ∨ w.gameState.levelComplete = true
  · rw [updateSonic_skipped _ _ _ _ _ hg]
    exact hj
  · have halive : w.gameState.isDead = false := by
      cases h : w.gameState.isDead <;> simp_all
    have hnc : w.gameState.levelComplete = false := by
      cases h : w.gameState.levelComplete <;> simp_all
    rw [updateSonic_isJumping _ _ _ _ _ halive hnc, physicsStep_isJumping]
    have hno : ¬ ((platformScan (integratePosition inp deltaTime w)
        (integrateVelocity inp deltaTime w.gameState).y platforms).1 = true ∨
        (integratePosition inp deltaTime w).y ≤ 3) := fun h => hl ⟨halive, hnc, h⟩
    rw [if_neg hno]
    split_ifs
    · rfl
    · exact hj

/-- No event other than a landing tick clears `isJumping`. -/
theorem step_keeps_jumping (w : World) (ev : Event) (hj : w.gameState.isJumping = true)
    (hc : (step w ev).gameState.isJumping = false) :
    ∃ (inp : Input) (platforms : List Platform) (endGoal : Option Vec3) (deltaTime : ℝ),
      ev = Event.sonic inp platforms endGoal deltaTime ∧ lands inp platforms deltaTime w := by
  have habs : ∀ b : Bool, b = w.gameState.isJumping → b = false → False := by
    intro b hb hf
    rw [hb, hj] at hf
    exact absurd hf (by decide)
  cases ev with
  | sonic inp platforms endGoal deltaTime =>
    refine ⟨inp, platforms, endGoal, deltaTime, rfl, ?_⟩
    by_contra hl
    have := updateSonic_keeps_jumping inp platforms endGoal deltaTime w hj hl
    rw [show step w (Event.sonic inp platforms endGoal deltaTime)
      = updateSonic inp platforms endGoal deltaTime w from rfl, this] at hc
    exact absurd hc (by decide)
  | rings deltaTime now => exact (habs _ (updateRings_more deltaTime now w).2.2 hc).elim
  | enemies deltaTime => exact (habs _ (updateEnemies_more deltaTime w).2.2 hc).elim
  | death => exact (habs _ (handleDeath_gameState_isJumping w) hc).elim
  | levelComplete => exact (habs _ (handleLevelComplete_gameState_isJumping w) hc).elim
  | respawn =>
    refine (habs _ ?_ hc).elim
    show (fireRespawn w).gameState.isJumping = _
    unfold fireRespawn
    split_ifs <;> simp

theorem run_keeps_jumping (w : World) (evs : List Event) (hj : w.gameState.isJumping = true)
    (hn : noLanding w evs) : (run w evs).gameState.isJumping = true := by
  induction evs generalizing w with
  | nil => exact hj
  | cons ev evs ih =>
    rw [run_cons]
    cases ev with
    | sonic inp platforms endGoal deltaTime =>
      obtain ⟨h1, h2⟩ := hn
      exact ih _ (updateSonic_keeps_jumping inp platforms endGoal deltaTime w hj h1) h2
    | rings deltaTime now => exact ih _ ((updateRings_more deltaTime now w).2.2.trans hj) hn
    | enemies deltaTime => exact ih _ ((updateEnemies_more deltaTime w).2.2.trans hj) hn
    | death => exact ih _ ((handleDeath_gameState_isJumping w).trans hj) hn
    | levelComplete => exact ih _ ((handleLevelComplete_gameState_isJumping w).trans hj) hn
    | respawn =>
      refine ih _ ?_ hn
      show (fireRespawn w).gameState.isJumping = true
      unfold fireRespawn
      split_ifs
      · simpa using hj
      · exact hj

/-- While the vertical velocity is positive no platform qualifies. -/
theorem platformScan_rising (pos : Vec3) (vy : ℝ) (hvy : 0 < vy) (platforms : List Platform) :
    platformScan pos vy platforms = (false, -100) := by
  unfold platformScan
  generalize ((false, -100) : Bool × ℝ) = acc
  induction platforms generalizing acc with
  | nil => rfl
  | cons p ps ih =>
    rw [List.foldl_cons]
    have : platformCheck pos vy acc p = acc := by
      unfold platformCheck
      dsimp only
      split_ifs with h1 h2 h3
      · rfl
      · exact absurd h3.2.2 (not_le.mpr hvy)
      · rfl
      · rfl
    rw [this]
    exact ih acc

/-! ## Claims about the horizontal speed -/

/-- C1. In `updateSonic`, for every prior velocity `v`, every input and either
value of the boost flag, the horizontal speed right after the speed-limit
step is at most the cap of the tick, which is `BOOST_SPEED = 300` when
boosting and `MAX_SPEED = 150` otherwise; hence after every sequence of
events a tick applied to a live, not completed player leaves a horizontal
speed of at most the cap that applied in that tick. -/
theorem C1_speed_clamp (inp : Input) (v : Vec3) (w0 : World) (evs : List Event)
    (platforms : List Platform) (endGoal : Option Vec3) (deltaTime : ℝ)
    (halive : (run w0 evs).gameState.isDead = false)
    (hnc : (run w0 evs).gameState.levelComplete = false) :
    speedCap inp = (if isBoosting inp = true then 300 else 150) ∧
    horizontalSpeed (limitSpeed (speedCap inp) (accelerate inp v)) ≤ speedCap inp ∧
    horizontalSpeed
        (updateSonic inp platforms endGoal deltaTime (run w0 evs)).gameState.velocity
      ≤ speedCap inp := by
  refine ⟨rfl, horizontalSpeed_limitSpeed _ (speedCap_nonneg inp) _, ?_⟩
  rw [updateSonic_horizontalSpeed _ _ _ _ _ halive hnc]
  have h1 := horizontalSpeed_limitSpeed _ (speedCap_nonneg inp)
    (accelerate inp (run w0 evs).gameState.velocity)
  have h2 := horizontalSpeed_nonneg
    (limitSpeed (speedCap inp) (accelerate inp (run w0 evs).gameState.velocity))
  unfold FRICTION
  linarith

/-- C1 at a concrete input: the start of a run on the empty level, forward and
boost held, and a prior velocity of length 500. -/
theorem C1_speed_clamp_witness :
    (run emptyLevel []).gameState.isDead = false ∧
    (run emptyLevel []).gameState.levelComplete = false ∧
    speedCap forwardBoost = (if isBoosting forwardBoost = true then 300 else 150) ∧
    horizontalSpeed (limitSpeed (speedCap forwardBoost) (accelerate forwardBoost ⟨400, 0, 300⟩))
      ≤ speedCap forwardBoost ∧
    horizontalSpeed
        (updateSonic forwardBoost [] none (1 / 60) (run emptyLevel [])).gameState.velocity
      ≤ speedCap forwardBoost :=
  ⟨rfl, rfl, C1_speed_clamp forwardBoost ⟨400, 0, 300⟩ emptyLevel [] [] none (1 / 60) rfl rfl⟩

/-- C2, as the code behaves. From rest at the start of a run, with forward and
boost held for `n` ticks at a fixed `deltaTime`, on any level: the
horizontal speed never exceeds 47.5, so it does not tend to
`BOOST_SPEED = 300`. On a level without platforms and goal it equals
`47.5 * (1 - 0.95 ^ n)` and tends to 47.5. -/
theorem C2_boost_speed_stalls (sonic : Sonic) (rings : List Ring) (enemies : List Enemy)
    (music : Music) (platforms : List Platform) (endGoal : Option Vec3) (deltaTime : ℝ) :
    (∀ n, horizontalSpeed (boostTicks platforms endGoal deltaTime
        (initialWorld sonic rings enemies music) n).gameState.velocity ≤ 47.5) ∧
    ¬ Filter.Tendsto (fun n => horizontalSpeed (boostTicks platforms endGoal deltaTime
        (initialWorld sonic rings enemies music) n).gameState.velocity)
      Filter.atTop (nhds BOOST_SPEED) ∧
    (∀ n, horizontalSpeed (boostTicks [] none deltaTime
        (initialWorld sonic rings enemies music) n).gameState.velocity
        = 47.5 * (1 - 0.95 ^ n)) ∧
    Filter.Tendsto (fun n => horizontalSpeed (boostTicks [] none deltaTime
        (initialWorld sonic rings enemies music) n).gameState.velocity)
      Filter.atTop (nhds 47.5) := by
  have hb := fun n => boostTicks_speed_le platforms endGoal deltaTime
    (initialWorld sonic rings enemies music) rfl rfl n
  have hf := fun n => boostTicks_free_speed deltaTime
    (initialWorld sonic rings enemies music) rfl rfl rfl rfl n
  refine ⟨hb, ?_, hf, ?_⟩
  · intro ht
    have := le_of_tendsto' ht hb
    unfold BOOST_SPEED at this
    norm_num at this
  · have hpow : Filter.Tendsto (fun n : ℕ => (0.95 : ℝ) ^ n) Filter.atTop (nhds 0) :=
      tendsto_pow_atTop_nhds_zero_of_lt_one (by norm_num) (by norm_num)
    have hlim : Filter.Tendsto (fun n : ℕ => (47.5 : ℝ) * (1 - 0.95 ^ n)) Filter.atTop
        (nhds (47.5 * (1 - 0))) := (tendsto_const_nhds.sub hpow).const_mul _
    simp only [sub_zero, mul_one] at hlim
    exact hlim.congr (fun n => (hf n).symm)

/-! ## Claims about landing -/

/-- C3. Landing: with the player alive and the level not complete, if after
integration the player's x and z lie within the bounding box of some
platform (one with a geometry, which is what has a bounding box), its height
lies in the landing band `[top - 5, top + 2]` of that platform and the
vertical velocity after gravity is `≤ 0`, then after collision resolution,
and still at the end of `updateSonic`, the vertical velocity is 0 and
`isJumping` is false. -/
theorem C3_landing (inp : Input) (platforms : List Platform) (endGoal : Option Vec3)
    (deltaTime : ℝ) (w : World) (p : Platform)
    (halive : w.gameState.isDead = false) (hnc : w.gameState.levelComplete = false)
    (hp : p ∈ platforms) (hgeo : p.geometry = true)
    (hx : p.boxMin.x ≤ (integratePosition inp deltaTime w).x ∧
      (integratePosition inp deltaTime w).x ≤ p.boxMax.x)
    (hz : p.boxMin.z ≤ (integratePosition inp deltaTime w).z ∧
      (integratePosition inp deltaTime w).z ≤ p.boxMax.z)
    (hband : p.boxMax.y - 5 ≤ (integratePosition inp deltaTime w).y ∧
      (integratePosition inp deltaTime w).y ≤ p.boxMax.y + 2)
    (hvy : (integrateVelocity inp deltaTime w.gameState).y ≤ 0) :
    ((physicsStep inp platforms deltaTime w).gameState.velocity.y = 0 ∧
      (physicsStep inp platforms deltaTime w).gameState.isJumping = false) ∧
    ((updateSonic inp platforms endGoal deltaTime w).gameState.velocity.y = 0 ∧
      (updateSonic inp platforms endGoal deltaTime w).gameState.isJumping = false) := by
  have hscan := platformScan_true_of_mem _ _ p hgeo hx hz hband hvy platforms hp (false, -100)
  have hl := physicsStep_landed inp platforms deltaTime w hscan
  refine ⟨⟨hl.1, hl.2.1⟩, ?_⟩
  rw [updateSonic_live _ _ _ _ _ halive hnc]
  simp [hl.1, hl.2.1]

/-- C3 at a concrete input: the player standing on the starting platform for
one tick of 1/60 s with no key down. -/
theorem C3_landing_witness :
    ((physicsStep idleInput [startPlatform] (1 / 60) emptyLevel).gameState.velocity.y = 0 ∧
      (physicsStep idleInput [startPlatform] (1 / 60) emptyLevel).gameState.isJumping = false) ∧
    ((updateSonic idleInput [startPlatform] none (1 / 60) emptyLevel).gameState.velocity.y = 0 ∧
      (updateSonic idleInput [startPlatform] none (1 / 60) emptyLevel).gameState.isJumping
        = false) :=
  C3_landing idleInput [startPlatform] none (1 / 60) emptyLevel startPlatform rfl rfl
    (List.mem_singleton_self _) rfl
    (by rw [integratePosition_emptyLevel]; simp [startPlatform])
    (by rw [integratePosition_emptyLevel]; simp [startPlatform])
    (by rw [integratePosition_emptyLevel]; simp [startPlatform]; norm_num)
    (by rw [integrateVelocity_emptyLevel]; norm_num)

/-! ## Claims about `updateEnemies` -/

theorem nearEnemy_in_range :
    sonicAtStart.position.distanceTo (patrol (1 / 60) nearEnemy).position < 4 := by
  have h : (patrol (1 / 60) nearEnemy).position = ⟨1, 3, 0⟩ := by
    simp [patrol, nearEnemy]
    norm_num
  rw [h]
  simp [Vec3.distanceTo, Vec3.distanceToSquared, sonicAtStart]

/-- C4. In `updateEnemies`, if on entry the player holds 0 rings, is not
invulnerable, is not dead and is not stomping (not both `isJumping` and
vertical velocity `< 0`), and at least one enemy is within distance 4 of the
player when its collision check runs (that is, after its patrol move of this
call), then the death handler takes effect exactly once: `isDead` becomes
true, `lives` decreases by exactly 1, nothing else of `gameState` changes and
exactly one timer is scheduled, however many enemies are in range. -/
theorem C4_death_exactly_once (deltaTime : ℝ) (w : World)
    (hrings : w.gameState.rings = 0) (hinv : w.gameState.invulnerable = false)
    (halive : w.gameState.isDead = false)
    (hstomp : ¬ (w.gameState.isJumping = true ∧ w.gameState.velocity.y < 0))
    (hex : ∃ e ∈ w.enemies, w.sonic.position.distanceTo (patrol deltaTime e).position < 4) :
    (updateEnemies deltaTime w).gameState.isDead = true ∧
    (updateEnemies deltaTime w).gameState.lives = w.gameState.lives - 1 ∧
    (updateEnemies deltaTime w).gameState =
      { w.gameState with isDead := true, lives := w.gameState.lives - 1 } ∧
    (updateEnemies deltaTime w).timers =
      w.timers ++ [if w.gameState.lives - 1 ≤ 0 then Timer.gameOver else Timer.respawn] := by
  obtain ⟨e, _, _, hg, ht, _⟩ := updateEnemies_first_hit deltaTime w hinv halive hstomp hex
  have hd : takeDamage (patrol deltaTime e) w = handleDeath w := by
    unfold takeDamage
    dsimp only
    rw [if_neg (by rw [hrings]; decide)]
  rw [hd] at hg ht
  have hG : (handleDeath w).gameState =
      { w.gameState with isDead := true, lives := w.gameState.lives - 1 } := by
    unfold handleDeath
    rw [if_neg (by rw [halive]; decide)]
    dsimp only
    split_ifs <;> rfl
  have hT : (handleDeath w).timers =
      w.timers ++ [if w.gameState.lives - 1 ≤ 0 then Timer.gameOver else Timer.respawn] := by
    unfold handleDeath
    rw [if_neg (by rw [halive]; decide)]
    dsimp only
    split_ifs <;> rfl
  rw [hg, ht, hG]
  exact ⟨rfl, rfl, rfl, hT⟩

/-- C4 at a concrete input: no rings, two enemies in range, one life lost. -/
theorem C4_death_exactly_once_witness :
    (updateEnemies (1 / 60) duelWorld).gameState.isDead = true ∧
    (updateEnemies (1 / 60) duelWorld).gameState.lives = 3 - 1 ∧
    (updateEnemies (1 / 60) duelWorld).gameState =
      { duelWorld.gameState with isDead := true, lives := duelWorld.gameState.lives - 1 } ∧
    (updateEnemies (1 / 60) duelWorld).timers =
      duelWorld.timers ++
        [if duelWorld.gameState.lives - 1 ≤ 0 then Timer.gameOver else Timer.respawn] :=
  C4_death_exactly_once (1 / 60) duelWorld rfl rfl rfl (fun h => Bool.noConfusion h.1)
    ⟨nearEnemy, List.mem_cons_self _ _, nearEnemy_in_range⟩

/-- C5. In `updateEnemies`, if on entry the player holds more than 0 rings, is
not invulnerable, is not dead and is not stomping, and at least one enemy is
within distance 4 when its collision check runs, then after the call
`rings = 0`, `invulnerable` is true with `invulnerableTime = 2`, `lives` and
`score` are unchanged, `isDead` is still false and no timer was scheduled,
however many enemies are in range. -/
theorem C5_ring_loss (deltaTime : ℝ) (w : World)
    (hrings : w.gameState.rings > 0) (hinv : w.gameState.invulnerable = false)
    (halive : w.gameState.isDead = false)
    (hstomp : ¬ (w.gameState.isJumping = true ∧ w.gameState.velocity.y < 0))
    (hex : ∃ e ∈ w.enemies, w.sonic.position.distanceTo (patrol deltaTime e).position < 4) :
    (updateEnemies deltaTime w).gameState.rings = 0 ∧
    (updateEnemies deltaTime w).gameState.invulnerable = true ∧
    (updateEnemies deltaTime w).gameState.invulnerableTime = 2 ∧
    (0 : ℝ) < 2 ∧
    (updateEnemies deltaTime w).gameState.lives = w.gameState.lives ∧
    (updateEnemies deltaTime w).gameState.isDead = false ∧
    (updateEnemies deltaTime w).gameState.score = w.gameState.score ∧
    (updateEnemies deltaTime w).timers = w.timers := by
  obtain ⟨e, _, _, hg, ht, _⟩ := updateEnemies_first_hit deltaTime w hinv halive hstomp hex
  have hd : takeDamage (patrol deltaTime e) w =
      { w with gameState := { w.gameState with
          rings := 0
          velocity :=
            ⟨((w.sonic.position.sub (patrol deltaTime e).position).normalize).x * 20, 10,
             ((w.sonic.position.sub (patrol deltaTime e).position).normalize).z * 20⟩
          invulnerable := true
          invulnerableTime := 2 } } := by
    unfold takeDamage
    dsimp only
    rw [if_pos hrings]
  rw [hd] at hg ht
  rw [hg, ht]
  exact ⟨rfl, rfl, rfl, by norm_num, rfl, halive, rfl, rfl⟩

/-- C5 at a concrete input: five rings, two enemies in range. -/
theorem C5_ring_loss_witness :
    (updateEnemies (1 / 60) duelWorldRings).gameState.rings = 0 ∧
    (updateEnemies (1 / 60) duelWorldRings).gameState.invulnerable = true ∧
    (updateEnemies (1 / 60) duelWorldRings).gameState.invulnerableTime = 2 ∧
    (0 : ℝ) < 2 ∧
    (updateEnemies (1 / 60) duelWorldRings).gameState.lives = 3 ∧
    (updateEnemies (1 / 60) duelWorldRings).gameState.isDead = false ∧
    (updateEnemies (1 / 60) duelWorldRings).gameState.score = 0 ∧
    (updateEnemies (1 / 60) duelWorldRings).timers = [] :=
  C5_ring_loss (1 / 60) duelWorldRings (by decide) rfl rfl (fun h => Bool.noConfusion h.1)
    ⟨nearEnemy, List.mem_cons_self _ _, nearEnemy_in_range⟩

/-- C6. For every enemy list and player position, a call of `updateEnemies`
entered with `invulnerable = true` leaves `lives`, `rings`, `isDead`,
`score` and the player velocity unchanged and removes no enemy, even when
enemies are within the combat radius: the call only makes each enemy do its
patrol move. -/
theorem C6_invulnerable_frame (deltaTime : ℝ) (w : World)
    (hinv : w.gameState.invulnerable = true) :
    (updateEnemies deltaTime w).gameState.lives = w.gameState.lives ∧
    (updateEnemies deltaTime w).gameState.rings = w.gameState.rings ∧
    (updateEnemies deltaTime w).gameState.isDead = w.gameState.isDead ∧
    (updateEnemies deltaTime w).gameState.score = w.gameState.score ∧
    (updateEnemies deltaTime w).gameState.velocity = w.gameState.velocity ∧
    (updateEnemies deltaTime w).enemies.length = w.enemies.length ∧
    updateEnemies deltaTime w = { w with enemies := w.enemies.map (patrol deltaTime) } := by
  have h := updateEnemies_passive deltaTime w (Or.inl hinv)
  rw [h]
  exact ⟨rfl, rfl, rfl, rfl, rfl, List.length_map _ _, rfl⟩

/-- C6 at a concrete input: invulnerable, with two enemies in range. -/
theorem C6_invulnerable_frame_witness :
    (∃ e ∈ duelWorldInvulnerable.enemies,
      duelWorldInvulnerable.sonic.position.distanceTo (patrol (1 / 60) e).position < 4) ∧
    (updateEnemies (1 / 60) duelWorldInvulnerable).gameState.lives = 3 ∧
    (updateEnemies (1 / 60) duelWorldInvulnerable).gameState.rings = 0 ∧
    (updateEnemies (1 / 60) duelWorldInvulnerable).enemies.length = 2 :=
  have h := C6_invulnerable_frame (1 / 60) duelWorldInvulnerable rfl
  ⟨⟨nearEnemy, List.mem_cons_self _ _, nearEnemy_in_range⟩, h.1, h.2.1, h.2.2.2.2.2.1⟩

/-! ## Claims about the run state -/

/-- C7. When `updateSonic` runs with the player alive and the level not
complete and the resolved player position is within 3-D Euclidean distance 15
of the end goal, whatever the rest of the state (grounded or airborne),
`levelComplete` becomes true and `score` increases by exactly
`1000 + 10 * rings`; after any further events every call of
`handleLevelComplete` or `updateSonic` returns the state as it is, so its
`score` is unchanged and the bonus is added exactly once. -/
theorem C7_goal_bonus_once (inp : Input) (platforms : List Platform) (goal : Vec3)
    (deltaTime : ℝ) (w : World)
    (halive : w.gameState.isDead = false) (hnc : w.gameState.levelComplete = false)
    (hnear : (physicsStep inp platforms deltaTime w).sonic.position.distanceTo goal < 15) :
    (updateSonic inp platforms (some goal) deltaTime w).gameState.levelComplete = true ∧
    (updateSonic inp platforms (some goal) deltaTime w).gameState.score
      = w.gameState.score + (1000 + 10 * w.gameState.rings) ∧
    ∀ evs : List Event,
      handleLevelComplete (run (updateSonic inp platforms (some goal) deltaTime w) evs)
        = run (updateSonic inp platforms (some goal) deltaTime w) evs ∧
      ∀ (inp' : Input) (platforms' : List Platform) (endGoal' : Option Vec3) (deltaTime' : ℝ),
        updateSonic inp' platforms' endGoal' deltaTime'
            (run (updateSonic inp platforms (some goal) deltaTime w) evs)
          = run (updateSonic inp platforms (some goal) deltaTime w) evs := by
  have hgoal : goalCheck (some goal) (deathCheck (physicsStep inp platforms deltaTime w))
      = handleLevelComplete (deathCheck (physicsStep inp platforms deltaTime w)) := by
    unfold goalCheck
    dsimp only
    rw [if_pos (by rw [deathCheck_sonic]; exact hnear)]
  have hlc : (deathCheck (physicsStep inp platforms deltaTime w)).gameState.levelComplete
      = false := by
    rw [deathCheck_gameState_levelComplete, physicsStep_gameState_levelComplete]
    exact hnc
  have h1 : (updateSonic inp platforms (some goal) deltaTime w).gameState.levelComplete
      = true := by
    rw [updateSonic_live _ _ _ _ _ halive hnc, finishStep_gameState_levelComplete, hgoal]
    unfold handleLevelComplete
    rw [if_neg (by rw [hlc]; decide)]
  refine ⟨h1, ?_, ?_⟩
  · rw [updateSonic_live _ _ _ _ _ halive hnc, finishStep_gameState_score, hgoal]
    unfold handleLevelComplete
    rw [if_neg (by rw [hlc]; decide)]
    dsimp only
    rw [deathCheck_gameState_score, deathCheck_gameState_rings, physicsStep_gameState_score,
      physicsStep_gameState_rings]
    ring
  · intro evs
    have hc := run_levelComplete _ evs h1
    exact ⟨handleLevelComplete_complete _ hc,
      fun inp' platforms' endGoal' deltaTime' => updateSonic_skipped _ _ _ _ _ (Or.inr hc)⟩

/-- C7 at a concrete input: the player at the goal marker with 7 rings and 70
points. -/
theorem C7_goal_bonus_once_witness :
    (updateSonic idleInput [] (some levelGoal) (1 / 60) goalWorld).gameState.levelComplete
      = true ∧
    (updateSonic idleInput [] (some levelGoal) (1 / 60) goalWorld).gameState.score
      = 70 + (1000 + 10 * 7) :=
  have h := C7_goal_bonus_once idleInput [] levelGoal (1 / 60) goalWorld rfl rfl
    goalWorld_near_goal
  ⟨h.1, h.2.1⟩

/-- C8. Calling `handleDeath` while `isDead` is already true is a no-op: the
whole state, with `lives`, `rings`, `score`, the flags, the invulnerability
timer, the player position and velocity and the pending timers, is returned
unchanged; hence a second death trigger right after a first one does not
decrement `lives` again. -/
theorem C8_handleDeath_idempotent (w : World) (hdead : w.gameState.isDead = true) :
    handleDeath w = w ∧
    (handleDeath w).gameState = w.gameState ∧
    (handleDeath w).sonic = w.sonic ∧
    (handleDeath w).timers = w.timers ∧
    ∀ w' : World, handleDeath (handleDeath w') = handleDeath w' := by
  have h := handleDeath_dead w hdead
  refine ⟨h, by rw [h], by rw [h], by rw [h], ?_⟩
  intro w'
  exact handleDeath_dead _ (handleDeath_isDead w')

/-- C8 at a concrete input: a dead player waiting for the respawn. -/
theorem C8_handleDeath_idempotent_witness :
    handleDeath deadWorld = deadWorld ∧ (handleDeath deadWorld).gameState.lives = 2 ∧
    (handleDeath deadWorld).timers = [Timer.respawn] :=
  have h := C8_handleDeath_idempotent deadWorld rfl
  ⟨h.1, by rw [h.1]; rfl, by rw [h.1]; rfl⟩

/-- C9. For every sequence of events (`updateSonic`, `updateRings`,
`updateEnemies`, handler calls and respawns) from the initial state, on any
level, the ring count is never negative and never exceeds the number of
rings picked up so far, which is the number of rings that have left the
`rings` array. -/
theorem C9_ring_count_bounds (sonic : Sonic) (rings : List Ring) (enemies : List Enemy)
    (music : Music) (evs : List Event) :
    0 ≤ (run (initialWorld sonic rings enemies music) evs).gameState.rings ∧
    (run (initialWorld sonic rings enemies music) evs).gameState.rings
      ≤ (collected (initialWorld sonic rings enemies music) evs : ℤ) ∧
    collected (initialWorld sonic rings enemies music) evs
        + (run (initialWorld sonic rings enemies music) evs).rings.length
      = rings.length := by
  obtain ⟨h1, h2⟩ := run_rings (initialWorld sonic rings enemies music) evs (le_refl _)
  refine ⟨h1, ?_, collected_eq _ evs⟩
  have : (initialWorld sonic rings enemies music).gameState.rings = 0 := rfl
  rw [this, zero_add] at h2
  exact h2

/-- C10. For every sequence of events (ticks, handler calls and firings of
the respawn timer) from the initial state, where `lives = 3`: `lives` stays
within `[0, 3]`; each event leaves it unchanged or decrements it by 1 while
turning a living player dead, as `handleDeath` does; whenever it is 0 the
player is dead and no respawn is pending; and once it is 0 it stays 0 and
the player stays dead after any further events. -/
theorem C10_lives_bounds (sonic : Sonic) (rings : List Ring) (enemies : List Enemy)
    (music : Music) (evs : List Event) :
    (initialWorld sonic rings enemies music).gameState.lives = 3 ∧
    0 ≤ (run (initialWorld sonic rings enemies music) evs).gameState.lives ∧
    (run (initialWorld sonic rings enemies music) evs).gameState.lives ≤ 3 ∧
    (∀ ev : Event,
      (step (run (initialWorld sonic rings enemies music) evs) ev).gameState.lives
          = (run (initialWorld sonic rings enemies music) evs).gameState.lives ∨
      ((step (run (initialWorld sonic rings enemies music) evs) ev).gameState.lives
          = (run (initialWorld sonic rings enemies music) evs).gameState.lives - 1 ∧
        (run (initialWorld sonic rings enemies music) evs).gameState.isDead = false ∧
        (step (run (initialWorld sonic rings enemies music) evs) ev).gameState.isDead = true)) ∧
    ((run (initialWorld sonic rings enemies music) evs).gameState.lives = 0 →
      (run (initialWorld sonic rings enemies music) evs).gameState.isDead = true ∧
      Timer.respawn ∉ (run (initialWorld sonic rings enemies music) evs).timers ∧
      ∀ evs' : List Event,
        (run (initialWorld sonic rings enemies music) (evs ++ evs')).gameState.lives = 0 ∧
        (run (initialWorld sonic rings enemies music) (evs ++ evs')).gameState.isDead = true) := by
  have hinv : ∀ l : List Event, LifeInv (run (initialWorld sonic rings enemies music) l) :=
    fun l => LifeInv_run _ l (LifeInv_initialWorld sonic rings enemies music)
  have hzero : ∀ l : List Event,
      (run (initialWorld sonic rings enemies music) l).gameState.lives = 0 →
      (run (initialWorld sonic rings enemies music) l).gameState.isDead = true ∧
      Timer.respawn ∉ (run (initialWorld sonic rings enemies music) l).timers := by
    intro l hl
    obtain ⟨_, _, _, b4, b5⟩ := hinv l
    constructor
    · cases hd : (run (initialWorld sonic rings enemies music) l).gameState.isDead with
      | true => rfl
      | false =>
        have := b5 hd
        omega
    · intro hm
      have := (b4 hm).2
      omega
  obtain ⟨b1, b2, _⟩ := hinv evs
  refine ⟨rfl, b1, b2, fun ev => step_lives _ ev, ?_⟩
  intro hl
  refine ⟨(hzero evs hl).1, (hzero evs hl).2, ?_⟩
  intro evs'
  have hle := run_lives_le (run (initialWorld sonic rings enemies music) evs) evs'
  rw [← run_append] at hle
  obtain ⟨c1, _⟩ := hinv (evs ++ evs')
  have h0 : (run (initialWorld sonic rings enemies music) (evs ++ evs')).gameState.lives = 0 := by
    omega
  exact ⟨h0, (hzero _ h0).1⟩

/-- C10 at a concrete run: three deaths with a respawn after each of the
first two use up the three lives, and a further death trigger and respawn
attempt change nothing. -/
theorem C10_lives_bounds_witness :
    (run emptyLevel [Event.death, Event.respawn, Event.death, Event.respawn,
      Event.death]).gameState.lives = 0 ∧
    (run emptyLevel ([Event.death, Event.respawn, Event.death, Event.respawn,
      Event.death] ++ [Event.respawn, Event.death])).gameState.lives = 0 ∧
    (run emptyLevel ([Event.death, Event.respawn, Event.death, Event.respawn,
      Event.death] ++ [Event.respawn, Event.death])).gameState.isDead = true :=
  have h0 : (run emptyLevel [Event.death, Event.respawn, Event.death, Event.respawn,
      Event.death]).gameState.lives = 0 := by
    simp [run, step, handleDeath, fireRespawn, respawnCallback, emptyLevel, initialWorld,
      initialGameState]
  have h := (C10_lives_bounds sonicAtStart [] [] musicOff
    [Event.death, Event.respawn, Event.death, Event.respawn, Event.death]).2.2.2.2 h0
  ⟨h0, h.2.2 [Event.respawn, Event.death]⟩

/-! ## Claims about skipped ticks, respawn and score -/

/-- C16. For every input snapshot and every `deltaTime`, a call of
`updateSonic` made while `isDead` or `levelComplete` is true returns the
state as it is: the player position, velocity, rotation, `isJumping`, the
invulnerability flag and timer, `score`, `rings` and `lives` are all
unchanged. -/
theorem C16_skipped_tick (inp : Input) (platforms : List Platform) (endGoal : Option Vec3)
    (deltaTime : ℝ) (w : World)
    (h : w.gameState.isDead = true ∨ w.gameState.levelComplete = true) :
    updateSonic inp platforms endGoal deltaTime w = w ∧
    (updateSonic inp platforms endGoal deltaTime w).sonic.position = w.sonic.position ∧
    (updateSonic inp platforms endGoal deltaTime w).gameState.velocity = w.gameState.velocity ∧
    (updateSonic inp platforms endGoal deltaTime w).sonic.rotationX = w.sonic.rotationX ∧
    (updateSonic inp platforms endGoal deltaTime w).sonic.rotationY = w.sonic.rotationY ∧
    (updateSonic inp platforms endGoal deltaTime w).gameState.isJumping
      = w.gameState.isJumping ∧
    (updateSonic inp platforms endGoal deltaTime w).gameState.invulnerable
      = w.gameState.invulnerable ∧
    (updateSonic inp platforms endGoal deltaTime w).gameState.invulnerableTime
      = w.gameState.invulnerableTime ∧
    (updateSonic inp platforms endGoal deltaTime w).gameState.score = w.gameState.score ∧
    (updateSonic inp platforms endGoal deltaTime w).gameState.rings = w.gameState.rings ∧
    (updateSonic inp platforms endGoal deltaTime w).gameState.lives = w.gameState.lives := by
  rw [updateSonic_skipped _ _ _ _ _ h]
  exact ⟨rfl, rfl, rfl, rfl, rfl, rfl, rfl, rfl, rfl, rfl, rfl⟩

/-- C16 at a concrete input: a dead player, forward and boost held. -/
theorem C16_skipped_tick_witness :
    updateSonic forwardBoost [startPlatform] (some levelGoal) (1 / 60) deadWorld = deadWorld :=
  (C16_skipped_tick forwardBoost [startPlatform] (some levelGoal) (1 / 60) deadWorld
    (Or.inl rfl)).1

/-- C17. In a state `w` reached from the initial state, with the player
alive and `lives = L`, `handleDeath` makes `lives = L - 1` and `isDead`
true. If `L - 1 > 0` the respawn is scheduled, stays pending through any
later events until it fires, and its firing puts the player at the
checkpoint `(0, 3, 0)` with velocity `(0, 0, 0)`, `isDead = false`,
`rings = 0`, `invulnerable = true` and `invulnerableTime = 3`. If
`L - 1 ≤ 0` then after any later events `isDead` is still true, no respawn
is pending and a firing of the respawn timer does nothing. -/
theorem C17_death_and_respawn (sonic : Sonic) (rings : List Ring) (enemies : List Enemy)
    (music : Music) (evs : List Event) (w : World)
    (hw : w = run (initialWorld sonic rings enemies music) evs)
    (halive : w.gameState.isDead = false) :
    (handleDeath w).gameState.lives = w.gameState.lives - 1 ∧
    (handleDeath w).gameState.isDead = true ∧
    (w.gameState.lives - 1 > 0 →
      Timer.respawn ∈ (handleDeath w).timers ∧
      ∀ evs' : List Event, (∀ ev ∈ evs', ev ≠ Event.respawn) →
        Timer.respawn ∈ (run (handleDeath w) evs').timers ∧
        (fireRespawn (run (handleDeath w) evs')).sonic.position = ⟨0, 3, 0⟩ ∧
        (fireRespawn (run (handleDeath w) evs')).gameState.velocity = ⟨0, 0, 0⟩ ∧
        (fireRespawn (run (handleDeath w) evs')).gameState.isDead = false ∧
        (fireRespawn (run (handleDeath w) evs')).gameState.rings = 0 ∧
        (fireRespawn (run (handleDeath w) evs')).gameState.invulnerable = true ∧
        (fireRespawn (run (handleDeath w) evs')).gameState.invulnerableTime = 3) ∧
    (w.gameState.lives - 1 ≤ 0 →
      ∀ evs' : List Event,
        (run (handleDeath w) evs').gameState.isDead = true ∧
        Timer.respawn ∉ (run (handleDeath w) evs').timers ∧
        fireRespawn (run (handleDeath w) evs') = run (handleDeath w) evs') := by
  have hinv : LifeInv w := by
    rw [hw]
    exact LifeInv_run _ evs (LifeInv_initialWorld sonic rings enemies music)
  have hcp : w.gameState.checkpointPosition = ⟨0, 3, 0⟩ := by
    rw [hw, run_checkpoint]
    rfl
  have hd : ¬ w.gameState.isDead = true := by
    rw [halive]
    decide
  have hlives : (handleDeath w).gameState.lives = w.gameState.lives - 1 := by
    unfold handleDeath
    rw [if_neg hd]
    dsimp only
    split_ifs <;> rfl
  refine ⟨hlives, handleDeath_isDead w, ?_, ?_⟩
  · intro hpos
    have hsched : Timer.respawn ∈ (handleDeath w).timers := by
      unfold handleDeath
      rw [if_neg hd]
      dsimp only
      rw [if_neg (by omega)]
      simp
    refine ⟨hsched, ?_⟩
    intro evs' hne
    have hpend := run_respawn_pending (handleDeath w) evs' hne hsched
    have hcp' : (run (handleDeath w) evs').gameState.checkpointPosition = ⟨0, 3, 0⟩ := by
      rw [run_checkpoint, handleDeath_gameState_checkpointPosition, hcp]
    refine ⟨hpend, ?_⟩
    unfold fireRespawn
    rw [if_pos hpend]
    unfold respawnCallback
    dsimp only
    exact ⟨hcp', rfl, rfl, rfl, rfl, rfl⟩
  · intro hle
    intro evs'
    have hinvD : LifeInv (run (handleDeath w) evs') :=
      LifeInv_run _ evs' (LifeInv_handleDeath w hinv)
    have hle' := run_lives_le (handleDeath w) evs'
    obtain ⟨b1, _, _, b4, b5⟩ := hinvD
    have hdead : (run (handleDeath w) evs').gameState.isDead = true := by
      cases hdd : (run (handleDeath w) evs').gameState.isDead with
      | true => rfl
      | false =>
        have := b5 hdd
        omega
    have hno : Timer.respawn ∉ (run (handleDeath w) evs').timers := by
      intro hm
      have := (b4 hm).2
      omega
    refine ⟨hdead, hno, ?_⟩
    unfold fireRespawn
    rw [if_neg hno]

/-- C17 at a concrete input: the first death of a run, with a frame of
`updateSonic` between the death and the respawn. -/
theorem C17_death_and_respawn_witness :
    (handleDeath emptyLevel).gameState.lives = 3 - 1 ∧
    (handleDeath emptyLevel).gameState.isDead = true ∧
    (fireRespawn (run (handleDeath emptyLevel)
      [Event.sonic idleInput [] none (1 / 60)])).sonic.position = ⟨0, 3, 0⟩ ∧
    (fireRespawn (run (handleDeath emptyLevel)
      [Event.sonic idleInput [] none (1 / 60)])).gameState.invulnerableTime = 3 :=
  have h := C17_death_and_respawn sonicAtStart [] [] musicOff [] emptyLevel rfl rfl
  have h2 := (h.2.2.1 (by decide)).2 [Event.sonic idleInput [] none (1 / 60)]
    (by simp)
  ⟨h.1, h.2.1, h2.2.1, h2.2.2.2.2.2.2⟩

/-- C19. Score is a monotonic non-negative counter: after every sequence of
events (ticks, handler calls and respawns) from the initial state, `score`
is at least 0, no further event decreases it, and it never is below an
earlier value. The steps are those of the code: a ring callback adds 10 or
nothing, an enemy callback adds 100 (a stomp) or nothing, and
`handleLevelComplete` adds `1000 + 10 * rings` or nothing. -/
theorem C19_score_monotone (sonic : Sonic) (rings : List Ring) (enemies : List Enemy)
    (music : Music) (evs : List Event) :
    0 ≤ (run (initialWorld sonic rings enemies music) evs).gameState.score ∧
    (∀ ev : Event,
      (run (initialWorld sonic rings enemies music) evs).gameState.score
        ≤ (step (run (initialWorld sonic rings enemies music) evs) ev).gameState.score) ∧
    (∀ evs' : List Event,
      (run (initialWorld sonic rings enemies music) evs).gameState.score
        ≤ (run (initialWorld sonic rings enemies music) (evs ++ evs')).gameState.score) ∧
    (∀ (deltaTime : ℝ) (now : ℕ → ℝ) (index : ℕ) (w : World),
      (ringCallback deltaTime now index w).gameState.score = w.gameState.score ∨
      (ringCallback deltaTime now index w).gameState.score = w.gameState.score + 10) ∧
    (∀ (deltaTime : ℝ) (index : ℕ) (w : World),
      (enemyCallback deltaTime index w).gameState.score = w.gameState.score ∨
      (enemyCallback deltaTime index w).gameState.score = w.gameState.score + 100) ∧
    (∀ w : World,
      (handleLevelComplete w).gameState.score = w.gameState.score ∨
      (handleLevelComplete w).gameState.score
        = w.gameState.score + (1000 + 10 * w.gameState.rings)) := by
  have hr := (run_rings (initialWorld sonic rings enemies music) evs (le_refl _)).1
  refine ⟨run_score (initialWorld sonic rings enemies music) evs (le_refl _),
    fun ev => step_score _ ev hr, ?_, ?_, enemyCallback_score_cases,
    handleLevelComplete_score_cases⟩
  · intro evs'
    rw [run_append]
    exact run_score _ evs' hr
  · intro deltaTime now index w
    rcases ringCallback_count deltaTime now index w with ⟨_, c, _⟩ | ⟨_, c, _⟩
    · exact Or.inr c
    · exact Or.inl c

/-! ## Claims about jumping -/

theorem integrateVelocity_spaceInput_emptyLevel :
    integrateVelocity spaceInput (1 / 60) emptyLevel.gameState = ⟨0, 39 / 2, 0⟩ := by
  have hacc : accelerate spaceInput emptyLevel.gameState.velocity = ⟨0, 0, 0⟩ := by
    simp [accelerate, moveX, moveZ, spaceInput, idleInput, emptyLevel, initialWorld,
      initialGameState]
  have hcap : speedCap spaceInput = 150 := by
    simp [speedCap, isBoosting, spaceInput, idleInput, MAX_SPEED]
  have hlim : limitSpeed (speedCap spaceInput) ⟨0, 0, 0⟩ = ⟨0, 0, 0⟩ := by
    apply limitSpeed_of_le
    rw [horizontalSpeed_zero, hcap]
    norm_num
  have hj : jumpPressed spaceInput emptyLevel.gameState = true := by
    simp [jumpPressed, spaceInput, idleInput, emptyLevel, initialWorld, initialGameState]
  simp [integrateVelocity, hacc, hlim, hj, applyFriction, JUMP_FORCE, GRAVITY]
  norm_num

theorem spaceInput_no_landing : ¬ lands spaceInput [startPlatform] (1 / 60) emptyLevel := by
  have hv := integrateVelocity_spaceInput_emptyLevel
  have hp : (integratePosition spaceInput (1 / 60) emptyLevel).y = 3 + 39 / 2 * (1 / 60) := by
    unfold integratePosition
    rw [hv]
    rfl
  rintro ⟨_, _, h | h⟩
  · rw [hv, platformScan_rising _ _ (by norm_num)] at h
    exact absurd h (by decide)
  · rw [hp] at h
    norm_num at h

/-- C18. In `updateSonic` the jump impulse is applied only when `isJumping`
is false: it sets the vertical velocity to `JUMP_FORCE = 20` (gravity is
then added) and `isJumping` to true, while without it the vertical velocity
is only changed by gravity. `isJumping` is cleared by no event other than an
`updateSonic` tick that lands on a platform or the implicit ground. Hence
after a tick with a jump impulse that does not land, through any sequence
of events without a landing tick, `isJumping` stays true and no tick
applies a further jump impulse, whatever its input. -/
theorem C18_one_jump_per_landing (inp : Input) (platforms : List Platform)
    (endGoal : Option Vec3) (deltaTime : ℝ) (w : World) :
    JUMP_FORCE = 20 ∧
    (jumpImpulse inp w →
      w.gameState.isJumping = false ∧
      (integrateVelocity inp deltaTime w.gameState).y = JUMP_FORCE + GRAVITY * deltaTime) ∧
    (¬ jumpPressed inp w.gameState = true →
      (integrateVelocity inp deltaTime w.gameState).y
        = w.gameState.velocity.y + GRAVITY * deltaTime) ∧
    (jumpImpulse inp w → ¬ lands inp platforms deltaTime w →
      (updateSonic inp platforms endGoal deltaTime w).gameState.isJumping = true) ∧
    (∀ ev : Event, w.gameState.isJumping = true → (step w ev).gameState.isJumping = false →
      ∃ (inp' : Input) (platforms' : List Platform) (endGoal' : Option Vec3) (deltaTime' : ℝ),
        ev = Event.sonic inp' platforms' endGoal' deltaTime' ∧
        lands inp' platforms' deltaTime' w) ∧
    (∀ (evs : List Event) (inp' : Input),
      jumpImpulse inp w → ¬ lands inp platforms deltaTime w →
      noLanding (updateSonic inp platforms endGoal deltaTime w) evs →
      (run (updateSonic inp platforms endGoal deltaTime w) evs).gameState.isJumping = true ∧
      ¬ jumpImpulse inp' (run (updateSonic inp platforms endGoal deltaTime w) evs)) := by
  have himp : jumpImpulse inp w → ¬ lands inp platforms deltaTime w →
      (updateSonic inp platforms endGoal deltaTime w).gameState.isJumping = true := by
    rintro ⟨halive, hnc, hjp⟩ hl
    rw [updateSonic_isJumping _ _ _ _ _ halive hnc, physicsStep_isJumping]
    rw [if_neg (fun h => hl ⟨halive, hnc, h⟩), if_pos hjp]
  refine ⟨rfl, ?_, ?_, himp, fun ev => step_keeps_jumping w ev, ?_⟩
  · rintro ⟨_, _, hjp⟩
    refine ⟨jumpPressed_not_jumping inp _ hjp, ?_⟩
    rw [integrateVelocity_y, if_pos hjp]
  · intro hjp
    rw [integrateVelocity_y, if_neg hjp]
  · intro evs inp' hi hl hn
    have hj := run_keeps_jumping _ evs (himp hi hl) hn
    refine ⟨hj, ?_⟩
    rintro ⟨_, _, hjp⟩
    have := jumpPressed_not_jumping inp' _ hjp
    rw [hj] at this
    exact absurd this (by decide)

/-- C18 at a concrete input: a jump from the starting platform; with the
key still held after the first tick and a pass of `updateEnemies`, no
second impulse. -/
theorem C18_one_jump_per_landing_witness :
    jumpImpulse spaceInput emptyLevel ∧
    ¬ lands spaceInput [startPlatform] (1 / 60) emptyLevel ∧
    (updateSonic spaceInput [startPlatform] none (1 / 60) emptyLevel).gameState.isJumping
      = true ∧
    ¬ jumpImpulse spaceInput
      (run (updateSonic spaceInput [startPlatform] none (1 / 60) emptyLevel)
        [Event.enemies (1 / 60)]) :=
  have hi : jumpImpulse spaceInput emptyLevel := ⟨rfl, rfl, by
    simp [jumpPressed, spaceInput, idleInput, emptyLevel, initialWorld, initialGameState]⟩
  have h := C18_one_jump_per_landing spaceInput [startPlatform] none (1 / 60) emptyLevel
  ⟨hi, spaceInput_no_landing, h.2.2.2.1 hi spaceInput_no_landing,
    (h.2.2.2.2.2 [Event.enemies (1 / 60)] spaceInput hi spaceInput_no_landing trivial).2⟩

/-! ## The winning platform -/

theorem platformCheck_of_qualifies (pos : Vec3) (vy : ℝ) (acc : Bool × ℝ) (p : Platform)
    (h : qualifies pos vy p) : platformCheck pos vy acc p = (true, max acc.2 p.boxMax.y) := by
  obtain ⟨hgeo, hx, hz, hband, hvy⟩ := h
  unfold platformCheck
  dsimp only
  rw [if_neg (by simp [hgeo]), if_pos ⟨⟨hx.1, hx.2⟩, ⟨hz.1, hz.2⟩⟩,
    if_pos ⟨hband.2, hband.1, hvy⟩]

theorem platformCheck_of_not_qualifies (pos : Vec3) (vy : ℝ) (acc : Bool × ℝ) (p : Platform)
    (h : ¬ qualifies pos vy p) : platformCheck pos vy acc p = acc := by
  unfold platformCheck
  dsimp only
  split_ifs with h1 h2 h3
  · rfl
  · exfalso
    apply h
    refine ⟨?_, ⟨h2.1.1, h2.1.2⟩, ⟨h2.2.1, h2.2.2⟩, ⟨h3.2.1, h3.1⟩, h3.2.2⟩
    cases hg : p.geometry with
    | true => rfl
    | false => exact absurd hg h1
  · rfl
  · rfl

/-- After the platform loop `platformTop` is its initial value or the top of
a qualifying platform, and it is below neither. -/
theorem platformScan_fold (pos : Vec3) (vy : ℝ) (platforms : List Platform) :
    ∀ acc : Bool × ℝ,
      acc.2 ≤ (platforms.foldl (platformCheck pos vy) acc).2 ∧
      (∀ q ∈ platforms, qualifies pos vy q →
        q.boxMax.y ≤ (platforms.foldl (platformCheck pos vy) acc).2) ∧
      ((platforms.foldl (platformCheck pos vy) acc).2 = acc.2 ∨
        ∃ q ∈ platforms, qualifies pos vy q ∧
          (platforms.foldl (platformCheck pos vy) acc).2 = q.boxMax.y) := by
  induction platforms with
  | nil =>
    intro acc
    exact ⟨le_refl _, fun q hq => absurd hq (List.not_mem_nil q), Or.inl rfl⟩
  | cons p ps ih =>
    intro acc
    rw [List.foldl_cons]
    obtain ⟨i1, i2, i3⟩ := ih (platformCheck pos vy acc p)
    by_cases hq : qualifies pos vy p
    · rw [platformCheck_of_qualifies pos vy acc p hq] at i1 i2 i3 ⊢
      dsimp only at i1 i3
      refine ⟨le_trans (le_max_left _ _) i1, ?_, ?_⟩
      · intro q hmem hqq
        rcases List.mem_cons.mp hmem with e | e
        · subst e
          exact le_trans (le_max_right _ _) i1
        · exact i2 q e hqq
      · rcases i3 with e | ⟨q, hmem, hqq, e⟩
        · rcases max_choice acc.2 p.boxMax.y with m | m
          · left
            rw [e, m]
          · right
            exact ⟨p, List.mem_cons_self _ _, hq, by rw [e, m]⟩
        · right
          exact ⟨q, List.mem_cons_of_mem _ hmem, hqq, e⟩
    · rw [platformCheck_of_not_qualifies pos vy acc p hq] at i1 i2 i3 ⊢
      refine ⟨i1, ?_, ?_⟩
      · intro q hmem hqq
        rcases List.mem_cons.mp hmem with e | e
        · subst e
          exact absurd hqq hq
        · exact i2 q e hqq
      · rcases i3 with e | ⟨q, hmem, hqq, e⟩
        · exact Or.inl e
        · exact Or.inr ⟨q, List.mem_cons_of_mem _ hmem, hqq, e⟩

/-- With `p` the highest of the qualifying platforms, `platformTop` ends as
the larger of -100 and the top of `p`. -/
theorem platformScan_highest (pos : Vec3) (vy : ℝ) (platforms : List Platform) (p : Platform)
    (hp : p ∈ platforms) (hq : qualifies pos vy p)
    (hmax : ∀ q ∈ platforms, qualifies pos vy q → q.boxMax.y ≤ p.boxMax.y) :
    (platformScan pos vy platforms).1 = true ∧
    (platformScan pos vy platforms).2 = max (-100) p.boxMax.y := by
  obtain ⟨hgeo, hx, hz, hband, hvy⟩ := hq
  refine ⟨platformScan_true_of_mem pos vy p hgeo hx hz hband hvy platforms hp _, ?_⟩
  obtain ⟨i1, i2, i3⟩ := platformScan_fold pos vy platforms (false, -100)
  have hq : qualifies pos vy p := ⟨hgeo, hx, hz, hband, hvy⟩
  unfold platformScan
  apply le_antisymm
  · rcases i3 with e | ⟨q, hmem, hqq, e⟩
    · rw [e]
      exact le_max_left _ _
    · rw [e]
      exact le_trans (hmax q hmem hqq) (le_max_right _ _)
  · exact max_le i1 (i2 p hp hq)

/-- The height after collision resolution when `p` is the highest of the
qualifying platforms. -/
theorem physicsStep_height_on_platform (inp : Input) (platforms : List Platform)
    (deltaTime : ℝ) (w : World) (p : Platform) (hp : p ∈ platforms)
    (hq : qualifies (integratePosition inp deltaTime w)
      (integrateVelocity inp deltaTime w.gameState).y p)
    (hmax : ∀ q ∈ platforms, qualifies (integratePosition inp deltaTime w)
      (integrateVelocity inp deltaTime w.gameState).y q → q.boxMax.y ≤ p.boxMax.y) :
    (physicsStep inp platforms deltaTime w).sonic.position.y = max (-100) p.boxMax.y + 2 := by
  obtain ⟨h1, h2⟩ := platformScan_highest _ _ platforms p hp hq hmax
  rw [(physicsStep_landed inp platforms deltaTime w h1).2.2, h2]

theorem finishStep_position (inp : Input) (deltaTime : ℝ) (hv : Vec2) (w : World) :
    (finishStep inp deltaTime hv w).sonic.position = w.sonic.position := by
  unfold finishStep
  dsimp only
  split_ifs <;> rfl

theorem updateSonic_position (inp : Input) (platforms : List Platform)
    (endGoal : Option Vec3) (deltaTime : ℝ) (w : World)
    (halive : w.gameState.isDead = false) (hnc : w.gameState.levelComplete = false) :
    (updateSonic inp platforms endGoal deltaTime w).sonic.position =
      (physicsStep inp platforms deltaTime w).sonic.position := by
  rw [updateSonic_live _ _ _ _ _ halive hnc, finishStep_position]
  simp

/-! ## Claims about the platform loop -/

theorem integration_long_frame :
    integrateVelocity idleInput (13 / 5) emptyLevel.gameState = ⟨0, -78, 0⟩ ∧
    integratePosition idleInput (13 / 5) emptyLevel = ⟨0, -(999 / 5), 0⟩ := by
  have hv : integrateVelocity idleInput (13 / 5) emptyLevel.gameState = ⟨0, -78, 0⟩ := by
    rw [integrateVelocity_idle_rest _ _ rfl]
    simp [GRAVITY]
    norm_num
  refine ⟨hv, ?_⟩
  unfold integratePosition
  rw [hv]
  simp [emptyLevel, initialWorld, sonicAtStart]
  norm_num

theorem deepPlatform_qualifies :
    qualifies (integratePosition idleInput (13 / 5) emptyLevel)
      (integrateVelocity idleInput (13 / 5) emptyLevel.gameState).y deepPlatform := by
  rw [integration_long_frame.1, integration_long_frame.2]
  unfold qualifies deepPlatform
  norm_num

theorem startPlatform_qualifies :
    qualifies (integratePosition idleInput (1 / 60) emptyLevel)
      (integrateVelocity idleInput (1 / 60) emptyLevel.gameState).y startPlatform := by
  rw [integratePosition_emptyLevel, integrateVelocity_emptyLevel]
  unfold qualifies startPlatform
  norm_num

/-- The collision resolution of `updateSonic` where the seed -100 of
`platformTop` does not interfere: when `p` is the highest of the qualifying
platforms and its top is at least -100, the player's height is set to 2
above the top of `p`, and for a live player this is the height at the end of
`updateSonic`. -/
theorem updateSonic_height_on_platform (inp : Input) (platforms : List Platform)
    (endGoal : Option Vec3) (deltaTime : ℝ) (w : World) (p : Platform)
    (hp : p ∈ platforms)
    (hq : qualifies (integratePosition inp deltaTime w)
      (integrateVelocity inp deltaTime w.gameState).y p)
    (hmax : ∀ q ∈ platforms, qualifies (integratePosition inp deltaTime w)
      (integrateVelocity inp deltaTime w.gameState).y q → q.boxMax.y ≤ p.boxMax.y)
    (hge : -100 ≤ p.boxMax.y) :
    (physicsStep inp platforms deltaTime w).sonic.position.y = p.boxMax.y + 2 ∧
    (w.gameState.isDead = false → w.gameState.levelComplete = false →
      (updateSonic inp platforms endGoal deltaTime w).sonic.position.y = p.boxMax.y + 2) := by
  have h := physicsStep_height_on_platform inp platforms deltaTime w p hp hq hmax
  have e : (physicsStep inp platforms deltaTime w).sonic.position.y = p.boxMax.y + 2 := by
    rw [h, max_eq_right hge]
  refine ⟨e, ?_⟩
  intro halive hnc
  rw [updateSonic_position _ _ _ _ _ halive hnc, e]

/-- The player on the starting platform, whose top is at height 1, is set to
height 3. -/
theorem updateSonic_height_startPlatform :
    (physicsStep idleInput [startPlatform] (1 / 60) emptyLevel).sonic.position.y
      = startPlatform.boxMax.y + 2 ∧
    (updateSonic idleInput [startPlatform] none (1 / 60) emptyLevel).sonic.position.y
      = startPlatform.boxMax.y + 2 :=
  have h := updateSonic_height_on_platform idleInput [startPlatform] none (1 / 60) emptyLevel
    startPlatform (List.mem_singleton_self _) startPlatform_qualifies
    (fun q hq _ => by rw [List.mem_singleton.mp hq])
    (by simp [startPlatform]; norm_num)
  ⟨h.1, h.2 rfl rfl⟩

/-- C14, as the code behaves. The platform loop of `updateSonic` starts
`platformTop` at -100 (line 858, "Default to very low") and raises it with
`Math.max` (line 883), so a qualifying platform whose top lies below -100
does not win. From the start of a run, after one frame of 2.6 s the player
is at height -199.8 with vertical velocity -78, inside the box of a platform
in x and z and within the landing band of its top at -200; that platform is
the only one, it qualifies, the scan reports a platform found with
`platformTop` still -100, and the player is placed at height -98, not at
-198, which is 2 above the greatest qualifying top. -/
theorem C14_seed_above_platform :
    qualifies (integratePosition idleInput (13 / 5) emptyLevel)
      (integrateVelocity idleInput (13 / 5) emptyLevel.gameState).y deepPlatform ∧
    platformScan (integratePosition idleInput (13 / 5) emptyLevel)
      (integrateVelocity idleInput (13 / 5) emptyLevel.gameState).y [deepPlatform]
      = (true, -100) ∧
    (physicsStep idleInput [deepPlatform] (13 / 5) emptyLevel).sonic.position.y = -98 ∧
    (physicsStep idleInput [deepPlatform] (13 / 5) emptyLevel).sonic.position.y
      ≠ deepPlatform.boxMax.y + 2 ∧
    (updateSonic idleInput [deepPlatform] none (13 / 5) emptyLevel).sonic.position.y = -98 := by
  have h := physicsStep_height_on_platform idleInput [deepPlatform] (13 / 5) emptyLevel
    deepPlatform (List.mem_singleton_self _) deepPlatform_qualifies
    (fun q hq _ => by rw [List.mem_singleton.mp hq])
  have e : (physicsStep idleInput [deepPlatform] (13 / 5) emptyLevel).sonic.position.y
      = -98 := by
    rw [h]
    simp [deepPlatform]
    norm_num
  have hs : platformScan (integratePosition idleInput (13 / 5) emptyLevel)
      (integrateVelocity idleInput (13 / 5) emptyLevel.gameState).y [deepPlatform]
      = (true, -100) := by
    rw [integration_long_frame.1, integration_long_frame.2]
    simp [platformScan, platformCheck, deepPlatform]
    norm_num
  refine ⟨deepPlatform_qualifies, hs, e, ?_, ?_⟩
  · rw [e]
    simp [deepPlatform]
    norm_num
  · rw [updateSonic_position _ _ _ _ _ rfl rfl, e]

/-! ## Claims about ring pickup and stomps -/

theorem ringCallback_collect (deltaTime : ℝ) (now : ℕ → ℝ) (index : ℕ) (w : World)
    (ring : Ring) (hk : w.rings[index]? = some ring)
    (hnear : w.sonic.position.distanceTo ring.position < 3) :
    (ringCallback deltaTime now index w).rings = w.rings.eraseIdx index ∧
    (ringCallback deltaTime now index w).gameState.rings = w.gameState.rings + 1 ∧
    (ringCallback deltaTime now index w).gameState.score = w.gameState.score + 10 ∧
    (ringCallback deltaTime now index w).sonic = w.sonic := by
  unfold ringCallback
  rw [hk]
  dsimp only
  rw [if_pos hnear]
  refine ⟨?_, rfl, rfl, rfl⟩
  dsimp only
  apply List.ext_getElem?
  intro i
  rw [List.getElem?_eraseIdx, List.getElem?_eraseIdx]
  split_ifs with h
  · rw [List.getElem?_set_ne (by omega)]
  · rw [List.getElem?_set_ne (by omega)]

theorem ringCallback_absent (deltaTime : ℝ) (now : ℕ → ℝ) (index : ℕ) (w : World)
    (hk : w.rings[index]? = none) : ringCallback deltaTime now index w = w := by
  unfold ringCallback
  rw [hk]

/-- C12, as the code behaves. With two rings next to each other in the
`rings` array and both within distance 3 of the player, one call of
`updateRings` removes only the first: the second moves into the index just
visited and is passed over. One ring is left in the array, still within
distance 3, `rings` has grown by 1 and `score` by 10. -/
theorem C12_adjacent_ring_skipped :
    (∀ r ∈ twoRingWorld.rings, twoRingWorld.sonic.position.distanceTo r.position < 3) ∧
    twoRingWorld.rings.length = 2 ∧
    (updateRings (1 / 60) (fun _ => 0) twoRingWorld).rings
      = [{ position := ⟨0, 5, 0⟩, rotationX := 0, rotationY := 0 }] ∧
    (updateRings (1 / 60) (fun _ => 0) twoRingWorld).gameState.rings = 1 ∧
    (updateRings (1 / 60) (fun _ => 0) twoRingWorld).gameState.score = 10 := by
  have hA : twoRingWorld.sonic.position.distanceTo (Vec3.mk 0 4 0) < 3 := by
    simp [twoRingWorld, initialWorld, sonicAtStart, Vec3.distanceTo, Vec3.distanceToSquared]
    norm_num
  have hB : twoRingWorld.sonic.position.distanceTo (Vec3.mk 0 5 0) < 3 := by
    simp [twoRingWorld, initialWorld, sonicAtStart, Vec3.distanceTo, Vec3.distanceToSquared]
    rw [Real.sqrt_lt' (by norm_num)]
    norm_num
  obtain ⟨c1, c2, c3, _⟩ := ringCallback_collect (1 / 60) (fun _ => 0) 0 twoRingWorld
    { position := ⟨0, 4, 0⟩, rotationX := 0, rotationY := 0 } rfl hA
  have c1' : (ringCallback (1 / 60) (fun _ => 0) 0 twoRingWorld).rings
      = [{ position := ⟨0, 5, 0⟩, rotationX := 0, rotationY := 0 }] := by
    rw [c1]
    rfl
  have hskip : ringCallback (1 / 60) (fun _ => 0) 1
      (ringCallback (1 / 60) (fun _ => 0) 0 twoRingWorld)
      = ringCallback (1 / 60) (fun _ => 0) 0 twoRingWorld :=
    ringCallback_absent _ _ 1 _ (by rw [c1']; rfl)
  have hrun : updateRings (1 / 60) (fun _ => 0) twoRingWorld
      = ringCallback (1 / 60) (fun _ => 0) 0 twoRingWorld := by
    show forEachIdx _ 2 0 twoRingWorld = _
    simp only [forEachIdx]
    exact hskip
  refine ⟨?_, rfl, ?_, ?_, ?_⟩
  · intro r hr
    simp only [twoRingWorld, initialWorld, List.mem_cons, List.mem_singleton,
      List.not_mem_nil, or_false] at hr
    rcases hr with e | e <;> subst e
    · exact hA
    · exact hB
  · rw [hrun, c1']
  · rw [hrun, c2]
    rfl
  · rw [hrun, c3]
    rfl

theorem highEnemy_patrol : (patrol (1 / 60) highEnemy).position = ⟨1, 10, 0⟩ := by
  simp [patrol, highEnemy]
  norm_num

/-- A live tick without platforms and goal that ends above the ground is a
free fall: the integrated position and velocity are kept. -/
theorem updateSonic_free_fall (inp : Input) (deltaTime : ℝ) (w : World)
    (halive : w.gameState.isDead = false) (hnc : w.gameState.levelComplete = false)
    (hinv : w.gameState.invulnerable = false) (hj : jumpPressed inp w.gameState = false)
    (hy : 3 < (integratePosition inp deltaTime w).y) :
    (updateSonic inp [] none deltaTime w).sonic.position = integratePosition inp deltaTime w ∧
    (updateSonic inp [] none deltaTime w).gameState.velocity
      = integrateVelocity inp deltaTime w.gameState ∧
    (updateSonic inp [] none deltaTime w).gameState.isJumping = w.gameState.isJumping ∧
    (updateSonic inp [] none deltaTime w).gameState.invulnerable = false ∧
    (updateSonic inp [] none deltaTime w).gameState.isDead = false ∧
    (updateSonic inp [] none deltaTime w).gameState.lives = w.gameState.lives ∧
    (updateSonic inp [] none deltaTime w).gameState.rings = w.gameState.rings ∧
    (updateSonic inp [] none deltaTime w).gameState.score = w.gameState.score ∧
    (updateSonic inp [] none deltaTime w).enemies = w.enemies := by
  have hphys : physicsStep inp [] deltaTime w =
      { w with
        sonic := { w.sonic with position := integratePosition inp deltaTime w }
        gameState := { w.gameState with
          velocity := integrateVelocity inp deltaTime w.gameState
          isJumping := w.gameState.isJumping } } := by
    unfold physicsStep platformScan
    simp only [List.foldl_nil, Bool.false_eq_true, if_false, hj]
    rw [if_neg (not_le.mpr hy)]
  have hdc : deathCheck (physicsStep inp [] deltaTime w) = physicsStep inp [] deltaTime w := by
    unfold deathCheck
    rw [if_neg]
    rw [hphys]
    dsimp only
    intro h
    linarith
  rw [updateSonic_live _ _ _ _ _ halive hnc, hdc]
  have hfin : ∀ hv : Vec2, (finishStep inp deltaTime hv (goalCheck none
      (physicsStep inp [] deltaTime w))).gameState.invulnerable = false := by
    intro hv
    unfold finishStep goalCheck
    dsimp only
    rw [if_neg (by rw [physicsStep_gameState_invulnerable, hinv]; decide)]
    dsimp only
    rw [physicsStep_gameState_invulnerable, hinv]
  refine ⟨?_, ?_, ?_, hfin _, ?_, ?_, ?_, ?_, ?_⟩
  · rw [finishStep_position]
    simp [goalCheck, hphys]
  · rw [finishStep_gameState_velocity]
    simp [goalCheck, hphys]
  · rw [finishStep_gameState_isJumping]
    simp [goalCheck, hphys]
  · simp [goalCheck, halive]
  · simp [goalCheck]
  · simp [goalCheck]
  · simp [goalCheck]
  · simp [goalCheck]

theorem ledgeWorld_tick :
    (updateSonic idleInput [] none (1 / 60) ledgeWorld).sonic.position
      = ⟨0, 10 - 1 / 120, 0⟩ ∧
    (updateSonic idleInput [] none (1 / 60) ledgeWorld).gameState.velocity
      = ⟨0, -(1 / 2), 0⟩ ∧
    (updateSonic idleInput [] none (1 / 60) ledgeWorld).gameState.isJumping = false ∧
    (updateSonic idleInput [] none (1 / 60) ledgeWorld).gameState.invulnerable = false ∧
    (updateSonic idleInput [] none (1 / 60) ledgeWorld).gameState.isDead = false ∧
    (updateSonic idleInput [] none (1 / 60) ledgeWorld).gameState.lives = 3 ∧
    (updateSonic idleInput [] none (1 / 60) ledgeWorld).gameState.rings = 0 ∧
    (updateSonic idleInput [] none (1 / 60) ledgeWorld).gameState.score = 0 ∧
    (updateSonic idleInput [] none (1 / 60) ledgeWorld).enemies = [highEnemy] := by
  have hv : integrateVelocity idleInput (1 / 60) ledgeWorld.gameState = ⟨0, -(1 / 2), 0⟩ := by
    rw [integrateVelocity_idle_rest _ _ rfl]
    simp [GRAVITY]
    norm_num
  have hp : integratePosition idleInput (1 / 60) ledgeWorld = ⟨0, 10 - 1 / 120, 0⟩ := by
    unfold integratePosition
    rw [hv]
    simp [ledgeWorld, initialWorld, sonicAtStart]
    norm_num
  have h := updateSonic_free_fall idleInput (1 / 60) ledgeWorld rfl rfl rfl
    (by simp [jumpPressed, idleInput]) (by rw [hp]; norm_num)
  rw [hp, hv] at h
  exact h

theorem ledgeWorld_enemy_near :
    (updateSonic idleInput [] none (1 / 60) ledgeWorld).sonic.position.distanceTo
      (patrol (1 / 60) highEnemy).position < 4 := by
  rw [ledgeWorld_tick.1, highEnemy_patrol]
  simp only [Vec3.distanceTo, Vec3.distanceToSquared]
  rw [Real.sqrt_lt' (by norm_num)]
  norm_num

/-- C13, as stated, fails for a player who fell without jumping. After one
tick of `updateSonic` off a ledge the player is alive, vulnerable, above the
ground with no platform below and descending, with an enemy within distance
4; `updateEnemies` then does not remove the enemy, adds no score, leaves the
vertical velocity negative and takes a life. -/
theorem C13_counterexample :
    (updateSonic idleInput [] none (1 / 60) ledgeWorld).gameState.invulnerable = false ∧
    (updateSonic idleInput [] none (1 / 60) ledgeWorld).gameState.isDead = false ∧
    (updateSonic idleInput [] none (1 / 60) ledgeWorld).gameState.velocity.y < 0 ∧
    3 < (updateSonic idleInput [] none (1 / 60) ledgeWorld).sonic.position.y ∧
    (∃ e ∈ (updateSonic idleInput [] none (1 / 60) ledgeWorld).enemies,
      (updateSonic idleInput [] none (1 / 60) ledgeWorld).sonic.position.distanceTo
        (patrol (1 / 60) e).position < 4) ∧
    (updateEnemies (1 / 60) (updateSonic idleInput [] none (1 / 60) ledgeWorld)).enemies
      = [patrol (1 / 60) highEnemy] ∧
    (updateEnemies (1 / 60)
      (updateSonic idleInput [] none (1 / 60) ledgeWorld)).gameState.score = 0 ∧
    (updateEnemies (1 / 60)
      (updateSonic idleInput [] none (1 / 60) ledgeWorld)).gameState.velocity.y = -(1 / 2) ∧
    (updateEnemies (1 / 60)
      (updateSonic idleInput [] none (1 / 60) ledgeWorld)).gameState.lives = 2 := by
  obtain ⟨t1, t2, t3, t4, t5, t6, t7, t8, t9⟩ := ledgeWorld_tick
  have hex : ∃ e ∈ (updateSonic idleInput [] none (1 / 60) ledgeWorld).enemies,
      (updateSonic idleInput [] none (1 / 60) ledgeWorld).sonic.position.distanceTo
        (patrol (1 / 60) e).position < 4 := by
    rw [t9]
    exact ⟨highEnemy, List.mem_singleton_self _, ledgeWorld_enemy_near⟩
  obtain ⟨e, _, _, hg, _, _, _, _, he⟩ := updateEnemies_first_hit (1 / 60)
    (updateSonic idleInput [] none (1 / 60) ledgeWorld) t4 t5
    (fun h => by rw [t3] at h; exact absurd h.1 (by decide)) hex
  have hd : takeDamage (patrol (1 / 60) e) (updateSonic idleInput [] none (1 / 60) ledgeWorld)
      = handleDeath (updateSonic idleInput [] none (1 / 60) ledgeWorld) := by
    unfold takeDamage
    dsimp only
    rw [if_neg (by rw [t7]; decide)]
  rw [hd] at hg
  have hlives : (handleDeath (updateSonic idleInput [] none (1 / 60)
      ledgeWorld)).gameState.lives = 2 := by
    unfold handleDeath
    rw [if_neg (by rw [t5]; decide)]
    dsimp only
    split_ifs <;> dsimp only <;> rw [t6] <;> norm_num
  refine ⟨t4, t5, by rw [t2]; norm_num, by rw [t1]; norm_num, hex, ?_, ?_, ?_, ?_⟩
  · rw [he, t9]
    rfl
  · rw [hg, handleDeath_gameState_score, t8]
  · rw [hg, handleDeath_gameState_velocity, t2]
  · rw [hg, hlives]

/-- C13, amended. In `updateEnemies`, when the collision check of an enemy
runs while the player is not invulnerable, not dead, has `isJumping` true
and a vertical velocity `< 0`, and that enemy, after its patrol move, is
within distance 4 of the player, then the enemy is removed from the active
set, `score` increases by 100, the vertical velocity becomes the bounce
value 10 and `rings` and `lives` are unchanged. -/
theorem C13_stomp (deltaTime : ℝ) (index : ℕ) (w : World) (enemy : Enemy)
    (hk : w.enemies[index]? = some enemy)
    (hinv : w.gameState.invulnerable = false) (halive : w.gameState.isDead = false)
    (hjump : w.gameState.isJumping = true) (hvy : w.gameState.velocity.y < 0)
    (hnear : w.sonic.position.distanceTo (patrol deltaTime enemy).position < 4) :
    (enemyCallback deltaTime index w).enemies = w.enemies.eraseIdx index ∧
    (enemyCallback deltaTime index w).enemies.length + 1 = w.enemies.length ∧
    (enemyCallback deltaTime index w).gameState.score = w.gameState.score + 100 ∧
    (enemyCallback deltaTime index w).gameState.velocity.y = 10 ∧
    (enemyCallback deltaTime index w).gameState.rings = w.gameState.rings ∧
    (enemyCallback deltaTime index w).gameState.lives = w.gameState.lives := by
  have hlt : index < w.enemies.length := by
    rcases List.getElem?_eq_some.mp hk with ⟨hlt, _⟩
    exact hlt
  have he : (w.enemies.set index (patrol deltaTime enemy)).eraseIdx index
      = w.enemies.eraseIdx index := by
    apply List.ext_getElem?
    intro i
    rw [List.getElem?_eraseIdx, List.getElem?_eraseIdx]
    split_ifs with h
    · rw [List.getElem?_set_ne (by omega)]
    · rw [List.getElem?_set_ne (by omega)]
  have hcb : enemyCallback deltaTime index w =
      { w with
        enemies := (w.enemies.set index (patrol deltaTime enemy)).eraseIdx index
        gameState := { w.gameState with
          score := w.gameState.score + 100
          velocity := { w.gameState.velocity with y := 10 } } } := by
    unfold enemyCallback
    rw [hk]
    dsimp only
    unfold enemyCollision
    dsimp only
    rw [if_pos ⟨hinv, halive⟩, if_pos hnear, if_pos ⟨hjump, hvy⟩]
  rw [hcb]
  dsimp only
  rw [he]
  refine ⟨rfl, ?_, rfl, rfl, rfl, rfl⟩
  rw [List.length_eraseIdx_of_lt hlt]
  omega

/-- C13 (amended) at a concrete input: descending after a jump onto an
enemy. -/
theorem C13_stomp_witness :
    (enemyCallback (1 / 60) 0 stompWorld).enemies = [] ∧
    (enemyCallback (1 / 60) 0 stompWorld).gameState.score = 0 + 100 ∧
    (enemyCallback (1 / 60) 0 stompWorld).gameState.velocity.y = 10 ∧
    (enemyCallback (1 / 60) 0 stompWorld).gameState.lives = 3 :=
  have h := C13_stomp (1 / 60) 0 stompWorld highEnemy rfl rfl rfl rfl
    (by simp [stompWorld])
    (by
      rw [highEnemy_patrol]
      simp [stompWorld, ledgeWorld, initialWorld, Vec3.distanceTo, Vec3.distanceToSquared])
  ⟨h.1, h.2.2.1, h.2.2.2.1, h.2.2.2.2.2⟩

/-! ## Ticks that end on the ground or at the goal -/

theorem finishStep_invulnerable_false (inp : Input) (deltaTime : ℝ) (hv : Vec2) (w : World)
    (h : w.gameState.invulnerable = false) :
    (finishStep inp deltaTime hv w).gameState.invulnerable = false := by
  unfold finishStep
  dsimp only
  rw [if_neg (by rw [h]; decide)]
  exact h

theorem updateSonic_invulnerable_false (inp : Input) (platforms : List Platform)
    (endGoal : Option Vec3) (deltaTime : ℝ) (w : World)
    (h : w.gameState.invulnerable = false) :
    (updateSonic inp platforms endGoal deltaTime w).gameState.invulnerable = false := by
  by_cases hg : w.gameState.isDead = true ∨ w.gameState.levelComplete = true
  · rw [updateSonic_skipped _ _ _ _ _ hg]
    exact h
  · have halive : w.gameState.isDead = false := by
      cases h : w.gameState.isDead <;> simp_all
    have hnc : w.gameState.levelComplete = false := by
      cases h : w.gameState.levelComplete <;> simp_all
    rw [updateSonic_live _ _ _ _ _ halive hnc]
    apply finishStep_invulnerable_false
    simp [h]

theorem updateSonic_enemies (inp : Input) (platforms : List Platform)
    (endGoal : Option Vec3) (deltaTime : ℝ) (w : World) :
    (updateSonic inp platforms endGoal deltaTime w).enemies = w.enemies := by
  by_cases hg : w.gameState.isDead = true ∨ w.gameState.levelComplete = true
  · rw [updateSonic_skipped _ _ _ _ _ hg]
  · have halive : w.gameState.isDead = false := by
      cases h : w.gameState.isDead <;> simp_all
    have hnc : w.gameState.levelComplete = false := by
      cases h : w.gameState.levelComplete <;> simp_all
    rw [updateSonic_live _ _ _ _ _ halive hnc]
    simp

/-- A live tick whose resolved height is not below -15 does not call
`handleDeath`. -/
theorem updateSonic_alive_of_height (inp : Input) (platforms : List Platform)
    (endGoal : Option Vec3) (deltaTime : ℝ) (w : World)
    (halive : w.gameState.isDead = false) (hnc : w.gameState.levelComplete = false)
    (hy : ¬ (physicsStep inp platforms deltaTime w).sonic.position.y < -15) :
    (updateSonic inp platforms endGoal deltaTime w).gameState.isDead = false ∧
    (updateSonic inp platforms endGoal deltaTime w).gameState.lives = w.gameState.lives ∧
    (updateSonic inp platforms endGoal deltaTime w).timers.count Timer.respawn
      = w.timers.count Timer.respawn := by
  have hdc : deathCheck (physicsStep inp platforms deltaTime w)
      = physicsStep inp platforms deltaTime w := by
    unfold deathCheck
    rw [if_neg hy]
  have hl : lifeState (updateSonic inp platforms endGoal deltaTime w) = lifeState w := by
    rw [updateSonic_live _ _ _ _ _ halive hnc, hdc]
    have h1 : ∀ hv w', lifeState (finishStep inp deltaTime hv w') = lifeState w' := by
      intro hv w'
      simp [lifeState]
    have h2 : ∀ w', lifeState (goalCheck endGoal w') = lifeState w' := by
      intro w'
      unfold goalCheck
      cases endGoal with
      | none => rfl
      | some goal =>
        dsimp only
        split_ifs
        · exact lifeState_handleLevelComplete w'
        · rfl
    rw [h1, h2]
    simp [lifeState]
  unfold lifeState at hl
  simp only [Prod.mk.injEq] at hl
  exact ⟨hl.2.1.trans halive, hl.1, hl.2.2⟩

/-- When no platform qualifies the implicit ground keeps the resolved height
at 3 or above, and at exactly 3 when the integrated height is at most 3. -/
theorem physicsStep_unsupported (inp : Input) (platforms : List Platform) (deltaTime : ℝ)
    (w : World)
    (hscan : (platformScan (integratePosition inp deltaTime w)
      (integrateVelocity inp deltaTime w.gameState).y platforms).1 = false) :
    3 ≤ (physicsStep inp platforms deltaTime w).sonic.position.y ∧
    ((integratePosition inp deltaTime w).y ≤ 3 →
      (physicsStep inp platforms deltaTime w).sonic.position.y = 3) ∧
    (physicsStep inp platforms deltaTime w).sonic.position.x
      = (integratePosition inp deltaTime w).x ∧
    (physicsStep inp platforms deltaTime w).sonic.position.z
      = (integratePosition inp deltaTime w).z := by
  unfold physicsStep
  dsimp only
  rw [if_neg (by rw [hscan]; decide)]
  by_cases h : (integratePosition inp deltaTime w).y ≤ 3
  · rw [if_pos h]
    exact ⟨le_refl _, fun _ => rfl, rfl, rfl⟩
  · rw [if_neg h]
    exact ⟨le_of_lt (not_le.mp h), fun h' => absurd h' h, rfl, rfl⟩

theorem platformScan_none_qualifies (pos : Vec3) (vy : ℝ) (platforms : List Platform)
    (h : ∀ q ∈ platforms, ¬ qualifies pos vy q) :
    platformScan pos vy platforms = (false, -100) := by
  unfold platformScan
  generalize ((false, -100) : Bool × ℝ) = acc
  induction platforms generalizing acc with
  | nil => rfl
  | cons p ps ih =>
    rw [List.foldl_cons, platformCheck_of_not_qualifies pos vy acc p
      (h p (List.mem_cons_self _ _))]
    exact ih (fun q hq => h q (List.mem_cons_of_mem _ hq)) acc

/-- A live tick whose resolved position is within distance 15 of the goal
completes the level. -/
theorem updateSonic_reaches_goal (inp : Input) (platforms : List Platform) (goal : Vec3)
    (deltaTime : ℝ) (w : World)
    (halive : w.gameState.isDead = false) (hnc : w.gameState.levelComplete = false)
    (hnear : (physicsStep inp platforms deltaTime w).sonic.position.distanceTo goal < 15) :
    (updateSonic inp platforms (some goal) deltaTime w).gameState.levelComplete = true := by
  rw [updateSonic_live _ _ _ _ _ halive hnc, finishStep_gameState_levelComplete]
  unfold goalCheck
  dsimp only
  rw [if_pos (by rw [deathCheck_sonic]; exact hnear)]
  unfold handleLevelComplete
  dsimp only
  split_ifs with h
  · exact h
  · rfl

/-! ## Claims about the water check, the two end states and the music fallback -/

theorem emptyLevel_long_fall :
    integrateVelocity idleInput 1 emptyLevel.gameState = ⟨0, -30, 0⟩ ∧
    integratePosition idleInput 1 emptyLevel = ⟨0, -27, 0⟩ := by
  have hv : integrateVelocity idleInput 1 emptyLevel.gameState = ⟨0, -30, 0⟩ := by
    rw [integrateVelocity_idle_rest _ _ rfl]
    simp [GRAVITY]
  refine ⟨hv, ?_⟩
  unfold integratePosition
  rw [hv]
  simp [emptyLevel, initialWorld, sonicAtStart]
  norm_num

/-- C15, as the code behaves. From the start of a run, a tick of one second
with no key down integrates the player's height to -27, below the death
depth -15; no platform qualifies there, so the ground branch puts the
player back at height 3 and the water check does not fire: the player is
alive and has all three lives. -/
theorem C15_no_death_below_depth :
    emptyLevel.gameState.isDead = false ∧
    emptyLevel.gameState.levelComplete = false ∧
    (integratePosition idleInput 1 emptyLevel).y = -27 ∧
    (integratePosition idleInput 1 emptyLevel).y < -15 ∧
    (updateSonic idleInput [startPlatform] (some levelGoal) 1 emptyLevel).sonic.position.y
      = 3 ∧
    (updateSonic idleInput [startPlatform] (some levelGoal) 1 emptyLevel).gameState.isDead
      = false ∧
    (updateSonic idleInput [startPlatform] (some levelGoal) 1 emptyLevel).gameState.lives
      = 3 := by
  obtain ⟨hv, hp⟩ := emptyLevel_long_fall
  have hscan : (platformScan (integratePosition idleInput 1 emptyLevel)
      (integrateVelocity idleInput 1 emptyLevel.gameState).y [startPlatform]).1 = false := by
    rw [platformScan_none_qualifies]
    intro q hq
    rw [List.mem_singleton.mp hq, hp]
    unfold qualifies startPlatform
    norm_num
  obtain ⟨_, u2, _, _⟩ := physicsStep_unsupported idleInput [startPlatform] 1 emptyLevel hscan
  have hy : (physicsStep idleInput [startPlatform] 1 emptyLevel).sonic.position.y = 3 :=
    u2 (by rw [hp]; norm_num)
  obtain ⟨a1, a2, _⟩ := updateSonic_alive_of_height idleInput [startPlatform] (some levelGoal)
    1 emptyLevel rfl rfl (by rw [hy]; norm_num)
  refine ⟨rfl, rfl, by rw [hp], by rw [hp]; norm_num, ?_, a1, a2⟩
  rw [updateSonic_position _ _ _ _ _ rfl rfl, hy]

/-- C11, as the code behaves. In the first frame of a run with the goal
within 15 units of the player and an enemy coming within 4 units,
`updateSonic` completes the level and `updateEnemies`, which does not look
at `levelComplete`, then kills the ringless player: after the frame both
`isDead` and `levelComplete` are true. -/
theorem C11_dead_and_complete :
    (frame idleInput [startPlatform] (some nearGoal) (1 / 60) (fun _ => 0)
      duelWorld).gameState.isDead = true ∧
    (frame idleInput [startPlatform] (some nearGoal) (1 / 60) (fun _ => 0)
      duelWorld).gameState.levelComplete = true ∧
    (frame idleInput [startPlatform] (some nearGoal) (1 / 60) (fun _ => 0)
      duelWorld).gameState.lives = 2 := by
  have hq : qualifies (integratePosition idleInput (1 / 60) duelWorld)
      (integrateVelocity idleInput (1 / 60) duelWorld.gameState).y startPlatform :=
    startPlatform_qualifies
  have hphys := physicsStep_landed idleInput [startPlatform] (1 / 60) duelWorld
    (platformScan_highest _ _ [startPlatform] startPlatform (List.mem_singleton_self _) hq
      (fun q hq' _ => by rw [List.mem_singleton.mp hq'])).1
  have hpos : (physicsStep idleInput [startPlatform] (1 / 60) duelWorld).sonic.position
      = ⟨0, 3, 0⟩ := by
    have hy := physicsStep_height_on_platform idleInput [startPlatform] (1 / 60) duelWorld
      startPlatform (List.mem_singleton_self _) hq
      (fun q hq' _ => by rw [List.mem_singleton.mp hq'])
    have hx : (physicsStep idleInput [startPlatform] (1 / 60) duelWorld).sonic.position.x
        = (integratePosition idleInput (1 / 60) emptyLevel).x := by
      unfold physicsStep
      dsimp only
      split_ifs <;> rfl
    have hz : (physicsStep idleInput [startPlatform] (1 / 60) duelWorld).sonic.position.z
        = (integratePosition idleInput (1 / 60) emptyLevel).z := by
      unfold physicsStep
      dsimp only
      split_ifs <;> rfl
    rw [integratePosition_emptyLevel] at hx hz
    have hy' : (physicsStep idleInput [startPlatform] (1 / 60) duelWorld).sonic.position.y
        = 3 := by
      rw [hy]
      simp [startPlatform]
      norm_num
    cases hp : (physicsStep idleInput [startPlatform] (1 / 60) duelWorld).sonic.position with
    | mk x y z =>
      rw [hp] at hx hz hy'
      simp only at hx hz hy'
      rw [hx, hz, hy']
  have hnear : (physicsStep idleInput [startPlatform] (1 / 60)
      duelWorld).sonic.position.distanceTo nearGoal < 15 := by
    rw [hpos]
    simp only [Vec3.distanceTo, Vec3.distanceToSquared, nearGoal]
    rw [Real.sqrt_lt' (by norm_num)]
    norm_num
  have hlc := updateSonic_reaches_goal idleInput [startPlatform] nearGoal (1 / 60) duelWorld
    rfl rfl hnear
  obtain ⟨a1, a2, _⟩ := updateSonic_alive_of_height idleInput [startPlatform] (some nearGoal)
    (1 / 60) duelWorld rfl rfl (by rw [hpos]; norm_num)
  have hinv := updateSonic_invulnerable_false idleInput [startPlatform] (some nearGoal)
    (1 / 60) duelWorld rfl
  have hjump : (updateSonic idleInput [startPlatform] (some nearGoal) (1 / 60)
      duelWorld).gameState.isJumping = false := by
    rw [updateSonic_isJumping _ _ _ _ _ rfl rfl]
    exact hphys.2.1
  have hen := updateSonic_enemies idleInput [startPlatform] (some nearGoal) (1 / 60) duelWorld
  obtain ⟨hrl, hrc⟩ := updateSonic_rings idleInput [startPlatform] (some nearGoal) (1 / 60)
    duelWorld
  have hposU : (updateSonic idleInput [startPlatform] (some nearGoal) (1 / 60)
      duelWorld).sonic.position = ⟨0, 3, 0⟩ := by
    rw [updateSonic_position _ _ _ _ _ rfl rfl, hpos]
  have hrings : updateRings (1 / 60) (fun _ => 0)
      (updateSonic idleInput [startPlatform] (some nearGoal) (1 / 60) duelWorld)
      = updateSonic idleInput [startPlatform] (some nearGoal) (1 / 60) duelWorld := by
    unfold updateRings
    rw [hrl]
    rfl
  have hex : ∃ e ∈ (updateSonic idleInput [startPlatform] (some nearGoal) (1 / 60)
      duelWorld).enemies,
      (updateSonic idleInput [startPlatform] (some nearGoal) (1 / 60)
        duelWorld).sonic.position.distanceTo (patrol (1 / 60) e).position < 4 := by
    rw [hen, hposU]
    exact ⟨nearEnemy, List.mem_cons_self _ _, nearEnemy_in_range⟩
  obtain ⟨e, _, _, hg, _⟩ := updateEnemies_first_hit (1 / 60)
    (updateSonic idleInput [startPlatform] (some nearGoal) (1 / 60) duelWorld) hinv a1
    (fun h => by rw [hjump] at h; exact absurd h.1 (by decide)) hex
  have hd : takeDamage (patrol (1 / 60) e)
      (updateSonic idleInput [startPlatform] (some nearGoal) (1 / 60) duelWorld)
      = handleDeath (updateSonic idleInput [startPlatform] (some nearGoal) (1 / 60)
          duelWorld) := by
    unfold takeDamage
    dsimp only
    rw [if_neg (by rw [hrc]; decide)]
  rw [hd] at hg
  have hlives : (handleDeath (updateSonic idleInput [startPlatform] (some nearGoal) (1 / 60)
      duelWorld)).gameState.lives = 2 := by
    unfold handleDeath
    rw [if_neg (by rw [a1]; decide)]
    dsimp only
    split_ifs <;> dsimp only <;> rw [a2] <;> rfl
  unfold frame
  rw [hrings]
  refine ⟨?_, ?_, ?_⟩
  · rw [hg]
    exact handleDeath_isDead _
  · rw [(updateEnemies_frame (1 / 60) _).1]
    exact hlc
  · rw [hg, hlives]

/-- C20, as the code behaves. With `window.Tone` present, a failed MIDI load
runs `initWebAudioMusic`, whose guard `if (!window.Tone)` skips the creation
of the sequencer: `musicSequencer` stays undefined, and `startMusic` takes
the Tone branch, starting the transport with no MIDI part and no sequencer.
Only without `window.Tone` does `initMusic` create the sequencer that
`startMusic` starts. -/
theorem C20_no_fallback_sequencer :
    (pageLoadMusic true).sequencerPlaying = none ∧
    (initMusic MidiLoad.failed (pageLoadMusic true)).sequencerPlaying = none ∧
    (initMusic MidiLoad.failed (pageLoadMusic true)).midiParts = none ∧
    (startMusic (initMusic MidiLoad.failed (pageLoadMusic true))).sequencerPlaying = none ∧
    (startMusic (initMusic MidiLoad.failed (pageLoadMusic true))).transportStarted = true ∧
    (startMusic (initMusic MidiLoad.failed (pageLoadMusic true))).measureCount = 0 ∧
    (initMusic MidiLoad.failed (pageLoadMusic false)).sequencerPlaying = some false ∧
    (startMusic (initMusic MidiLoad.failed (pageLoadMusic false))).sequencerPlaying
      = some true ∧
    (startMusic (initMusic MidiLoad.failed (pageLoadMusic false))).measureCount = 1 := by
  refine ⟨rfl, ?_, ?_, ?_, ?_, ?_, ?_, ?_, ?_⟩ <;>
    simp [initMusic, initToneMusic, initWebAudioMusic, startMusic, sequencerStart,
      generatePattern, pageLoadMusic]

/-! ## Claims about the camera and the music switches -/

theorem sequencerStart_isMusicPlaying (m : Music) :
    (sequencerStart m).isMusicPlaying = m.isMusicPlaying := by
  unfold sequencerStart generatePattern
  dsimp only
  split_ifs <;> rfl

theorem startMusic_flag (m : Music) (h : m.isMusicPlaying = false) :
    (startMusic m).isMusicPlaying = true := by
  unfold startMusic
  rw [if_neg (by rw [h]; decide)]
  dsimp only
  split_ifs
  · rfl
  · cases m.sequencerPlaying with
    | none => rfl
    | some b =>
      dsimp only
      rw [sequencerStart_isMusicPlaying]

theorem stopMusic_flag (m : Music) (h : m.isMusicPlaying = true) :
    (stopMusic m).isMusicPlaying = false := by
  unfold stopMusic
  rw [if_neg (by rw [h]; decide)]
  dsimp only
  split_ifs
  · rfl
  · cases m.sequencerPlaying <;> rfl

/-- C21. Starting and stopping music are idempotent: `startMusic` called
while `isMusicPlaying` is true, `stopMusic` called while it is false and
`MusicSequencer.start` called while `isPlaying` is true each return the state
unchanged, so no pattern is generated (`measureCount` is the same) and no
timer is set; and `toggleMusic` applied twice restores the playing flag. -/
theorem C21_music_idempotent (m : Music) :
    (m.isMusicPlaying = true → startMusic m = m) ∧
    (m.isMusicPlaying = false → stopMusic m = m) ∧
    (m.sequencerPlaying = some true →
      sequencerStart m = m ∧ (sequencerStart m).measureCount = m.measureCount ∧
      (sequencerStart m).patternTimers = m.patternTimers) ∧
    (toggleMusic (toggleMusic m)).isMusicPlaying = m.isMusicPlaying := by
  refine ⟨?_, ?_, ?_, ?_⟩
  · intro h
    unfold startMusic
    rw [if_pos h]
  · intro h
    unfold stopMusic
    rw [if_pos h]
  · intro h
    have e : sequencerStart m = m := by
      unfold sequencerStart
      rw [if_pos h]
    rw [e]
    exact ⟨rfl, rfl, rfl⟩
  · cases hp : m.isMusicPlaying with
    | true =>
      have h1 : toggleMusic m = stopMusic m := by
        unfold toggleMusic
        rw [if_pos hp]
      have h2 := stopMusic_flag m hp
      rw [h1]
      unfold toggleMusic
      rw [if_neg (by rw [h2]; decide)]
      exact startMusic_flag _ h2
    | false =>
      have h1 : toggleMusic m = startMusic m := by
        unfold toggleMusic
        rw [if_neg (by rw [hp]; decide)]
      have h2 := startMusic_flag m hp
      rw [h1]
      unfold toggleMusic
      rw [if_pos h2]
      exact stopMusic_flag _ h2
theorem cameraOffset_eq (currentX currentY : ℝ) :
    cameraOffset currentX currentY = ⟨10 * currentX, 8 + 5 * currentY, 10⟩ := by
  unfold cameraOffset
  dsimp only
  split_ifs with h
  · rw [Vec3.mk.injEq]
    exact ⟨by ring, by ring, rfl⟩
  · rw [not_or, not_not, not_not] at h
    rw [h.1, h.2, Vec3.mk.injEq]
    exact ⟨by ring, by ring, rfl⟩

theorem updateCamera_offset (currentX currentY : ℝ) (sonic : Sonic) (camera : Camera) :
    (updateCamera currentX currentY sonic camera).position.sub
        (sonic.position.add ⟨10 * currentX, 8 + 5 * currentY, 10⟩)
      = (camera.position.sub
          (sonic.position.add ⟨10 * currentX, 8 + 5 * currentY, 10⟩)).multiplyScalar 0.8 := by
  unfold updateCamera
  rw [cameraOffset_eq]
  simp only [Vec3.lerp, Vec3.add, Vec3.sub, Vec3.multiplyScalar, Vec3.mk.injEq]
  exact ⟨by ring, by ring, by ring⟩

/-- C23. The function `updateCamera` sets the camera position to
`c + 0.2 * (d - c)`, where `c` is the previous camera position and
`d = player position + (10 * dragX, 8 + 5 * dragY, 10)`, `dragX` and `dragY`
being the current touch-drag deltas; without a drag the offset is
`(0, 8, 10)`. With the player and the drag held fixed the camera's offset
from `d` is multiplied by 0.8 in each frame, so after `n` frames it is
`0.8 ^ n` times the first offset. -/
theorem C23_camera_lerp (dragX dragY : ℝ) (sonic : Sonic) (camera : Camera) :
    (updateCamera dragX dragY sonic camera).position
      = camera.position.add
          (((sonic.position.add ⟨10 * dragX, 8 + 5 * dragY, 10⟩).sub
            camera.position).multiplyScalar 0.2) ∧
    cameraOffset 0 0 = ⟨0, 8, 10⟩ ∧
    (updateCamera dragX dragY sonic camera).position.sub
        (sonic.position.add ⟨10 * dragX, 8 + 5 * dragY, 10⟩)
      = (camera.position.sub
          (sonic.position.add ⟨10 * dragX, 8 + 5 * dragY, 10⟩)).multiplyScalar 0.8 ∧
    ∀ n : ℕ,
      (cameraFrames dragX dragY sonic camera n).position.sub
          (sonic.position.add ⟨10 * dragX, 8 + 5 * dragY, 10⟩)
        = (camera.position.sub
            (sonic.position.add ⟨10 * dragX, 8 + 5 * dragY, 10⟩)).multiplyScalar (0.8 ^ n) := by
  refine ⟨?_, ?_, updateCamera_offset dragX dragY sonic camera, ?_⟩
  · unfold updateCamera
    rw [cameraOffset_eq]
    rfl
  · unfold cameraOffset
    simp
  · intro n
    induction n with
    | zero =>
      simp only [cameraFrames, Vec3.multiplyScalar, pow_zero, mul_one]
    | succ n ih =>
      simp only [cameraFrames]
      rw [updateCamera_offset, ih]
      simp only [Vec3.multiplyScalar, Vec3.mk.injEq, pow_succ]
      exact ⟨by ring, by ring, by ring⟩
/-! ## Claims about the water check and the velocity bounds -/

/-- The platform loop sets `onPlatform` only at a platform that qualifies. -/
theorem platformScan_true_qualifies (pos : Vec3) (vy : ℝ) (platforms : List Platform) :
    ∀ acc : Bool × ℝ, (platforms.foldl (platformCheck pos vy) acc).1 = true →
      acc.1 = true ∨ ∃ q ∈ platforms, qualifies pos vy q := by
  induction platforms with
  | nil => intro acc h; exact Or.inl h
  | cons p ps ih =>
    intro acc h
    rw [List.foldl_cons] at h
    by_cases hq : qualifies pos vy p
    · exact Or.inr ⟨p, List.mem_cons_self _ _, hq⟩
    · rw [platformCheck_of_not_qualifies pos vy acc p hq] at h
      rcases ih acc h with e | ⟨q, hmem, hqq⟩
      · exact Or.inl e
      · exact Or.inr ⟨q, List.mem_cons_of_mem _ hmem, hqq⟩

/-- With no platform top below -17 the resolved height is at least -15. -/
theorem physicsStep_height_ge (inp : Input) (platforms : List Platform) (deltaTime : ℝ)
    (w : World) (htop : ∀ p ∈ platforms, p.geometry = true → -17 ≤ p.boxMax.y) :
    -15 ≤ (physicsStep inp platforms deltaTime w).sonic.position.y := by
  cases hscan : (platformScan (integratePosition inp deltaTime w)
      (integrateVelocity inp deltaTime w.gameState).y platforms).1 with
  | false =>
    have := (physicsStep_unsupported inp platforms deltaTime w hscan).1
    linarith
  | true =>
    rw [(physicsStep_landed inp platforms deltaTime w hscan).2.2]
    have hq := platformScan_true_qualifies _ _ platforms (false, -100) hscan
    rcases hq with e | ⟨q, hmem, hqq⟩
    · exact absurd e (by decide)
    · have h2 := (platformScan_fold (integratePosition inp deltaTime w)
        (integrateVelocity inp deltaTime w.gameState).y platforms (false, -100)).2.1 q hmem hqq
      have h3 := htop q hmem hqq.1
      unfold platformScan
      linarith

/-- C29. For every platform set in which no platform top is below -17,
every input, `deltaTime` and starting state: the height that the collision
resolution of an `updateSonic` tick leaves is at least -15, and at least 3
when no platform qualifies, so the water check does not call `handleDeath`;
the tick leaves `isDead`, `lives` and the pending respawns as they were. -/
theorem C29_no_water_death (inp : Input) (platforms : List Platform) (endGoal : Option Vec3)
    (deltaTime : ℝ) (w : World)
    (htop : ∀ p ∈ platforms, p.geometry = true → -17 ≤ p.boxMax.y) :
    -15 ≤ (physicsStep inp platforms deltaTime w).sonic.position.y ∧
    ((∀ q ∈ platforms, ¬ qualifies (integratePosition inp deltaTime w)
        (integrateVelocity inp deltaTime w.gameState).y q) →
      3 ≤ (physicsStep inp platforms deltaTime w).sonic.position.y) ∧
    deathCheck (physicsStep inp platforms deltaTime w) = physicsStep inp platforms deltaTime w ∧
    (w.gameState.isDead = false → w.gameState.levelComplete = false →
      -15 ≤ (updateSonic inp platforms endGoal deltaTime w).sonic.position.y) ∧
    (updateSonic inp platforms endGoal deltaTime w).gameState.isDead = w.gameState.isDead ∧
    (updateSonic inp platforms endGoal deltaTime w).gameState.lives = w.gameState.lives ∧
    (updateSonic inp platforms endGoal deltaTime w).timers.count Timer.respawn
      = w.timers.count Timer.respawn ∧
    (updateSonic inp platforms endGoal deltaTime w).timers.count Timer.gameOver
      = w.timers.count Timer.gameOver := by
  have hge := physicsStep_height_ge inp platforms deltaTime w htop
  have hnot : ¬ (physicsStep inp platforms deltaTime w).sonic.position.y < -15 := not_lt.mpr hge
  have hdc : deathCheck (physicsStep inp platforms deltaTime w)
      = physicsStep inp platforms deltaTime w := by
    unfold deathCheck
    rw [if_neg hnot]
  refine ⟨hge, ?_, hdc, ?_, ?_⟩
  · intro hnone
    have hs := platformScan_none_qualifies _ _ platforms hnone
    exact (physicsStep_unsupported inp platforms deltaTime w (by rw [hs])).1
  · intro halive hnc
    rw [updateSonic_position _ _ _ _ _ halive hnc]
    exact hge
  · by_cases hg : w.gameState.isDead = true ∨ w.gameState.levelComplete = true
    · rw [updateSonic_skipped _ _ _ _ _ hg]
      exact ⟨rfl, rfl, rfl, rfl⟩
    · have halive : w.gameState.isDead = false := by
        cases h : w.gameState.isDead <;> simp_all
      have hnc : w.gameState.levelComplete = false := by
        cases h : w.gameState.levelComplete <;> simp_all
      obtain ⟨a1, a2, a3⟩ := updateSonic_alive_of_height inp platforms endGoal deltaTime w
        halive hnc hnot
      refine ⟨by rw [a1, halive], a2, a3, ?_⟩
      rw [updateSonic_live _ _ _ _ _ halive hnc, hdc, finishStep_timers]
      unfold goalCheck
      cases endGoal with
      | none => simp
      | some goal =>
        dsimp only
        split_ifs
        · unfold handleLevelComplete
          dsimp only
          split_ifs
          · simp
          · simp [List.count_append]
        · simp

/-- C29 at a concrete input: the first tick of a run on the start platform. -/
theorem C29_no_water_death_witness :
    -15 ≤ (physicsStep idleInput [startPlatform] (1 / 60) emptyLevel).sonic.position.y ∧
    (updateSonic idleInput [startPlatform] (some levelGoal) (1 / 60)
      emptyLevel).gameState.lives = emptyLevel.gameState.lives :=
  have h := C29_no_water_death idleInput [startPlatform] (some levelGoal) (1 / 60) emptyLevel
    (by
      intro p hp _
      rw [List.mem_singleton.mp hp]
      simp [startPlatform]
      norm_num)
  ⟨h.1, h.2.2.2.2.2.1⟩
/-! ## The per-axis velocity bound -/

theorem sqrt_two_lt : Real.sqrt 2 < 3 / 2 := by
  rw [Real.sqrt_lt' (by norm_num)]
  norm_num

/-- A velocity with both horizontal components at most `a` in absolute value
has horizontal speed at most `a * sqrt 2`. -/
theorem horizontalSpeed_le_of_axis (v : Vec3) (a : ℝ) (ha : 0 ≤ a) (hx : |v.x| ≤ a)
    (hz : |v.z| ≤ a) : horizontalSpeed v ≤ a * Real.sqrt 2 := by
  have h1 : v.x * v.x ≤ a * a := by
    rw [← abs_mul_abs_self v.x]
    exact mul_self_le_mul_self (abs_nonneg _) hx
  have h2 : v.z * v.z ≤ a * a := by
    rw [← abs_mul_abs_self v.z]
    exact mul_self_le_mul_self (abs_nonneg _) hz
  unfold horizontalSpeed Vec2.length
  have e : a * Real.sqrt 2 = Real.sqrt (a * a * 2) := by
    rw [Real.sqrt_mul (mul_self_nonneg a), Real.sqrt_mul_self ha]
  rw [e]
  apply Real.sqrt_le_sqrt
  show v.x * v.x + v.z * v.z ≤ a * a * 2
  linarith

theorem speedCap_ge (inp : Input) : MAX_SPEED ≤ speedCap inp := by
  unfold speedCap BOOST_SPEED MAX_SPEED
  split_ifs <;> norm_num

theorem accelerate_axis (inp : Input) (v : Vec3) (hv : axisBound v) (hb : boundedInput inp) :
    |(accelerate inp v).x| ≤ 50 ∧ |(accelerate inp v).z| ≤ 50 := by
  obtain ⟨hx, hz⟩ := hv
  obtain ⟨bx, bz⟩ := hb
  rw [abs_le] at hx hz bx bz
  unfold accelerate ACCELERATION
  dsimp only
  rw [abs_le, abs_le]
  refine ⟨⟨?_, ?_⟩, ⟨?_, ?_⟩⟩ <;> linarith [hx.1, hx.2, hz.1, hz.2, bx.1, bx.2, bz.1, bz.2]

/-- Under the per-axis bound and a bounded input the speed-limit branch is
not taken. -/
theorem limit_not_taken (inp : Input) (v : Vec3) (hv : axisBound v) (hb : boundedInput inp) :
    ¬ horizontalSpeed (accelerate inp v) > speedCap inp := by
  obtain ⟨h1, h2⟩ := accelerate_axis inp v hv hb
  have h3 := horizontalSpeed_le_of_axis (accelerate inp v) 50 (by norm_num) h1 h2
  have h4 := speedCap_ge inp
  have h5 := sqrt_two_lt
  unfold MAX_SPEED at h4
  intro h
  have : horizontalSpeed (accelerate inp v) < 150 := by
    calc horizontalSpeed (accelerate inp v) ≤ 50 * Real.sqrt 2 := h3
      _ < 50 * (3 / 2) := by linarith
      _ ≤ 150 := by norm_num
  linarith

/-- The horizontal velocity after a live tick under the per-axis bound. -/
theorem updateSonic_axis_step (inp : Input) (platforms : List Platform)
    (endGoal : Option Vec3) (deltaTime : ℝ) (w : World)
    (halive : w.gameState.isDead = false) (hnc : w.gameState.levelComplete = false)
    (hv : axisBound w.gameState.velocity) (hb : boundedInput inp) :
    (updateSonic inp platforms endGoal deltaTime w).gameState.velocity.x
      = (w.gameState.velocity.x + moveX inp * 2.5) * 0.95 ∧
    (updateSonic inp platforms endGoal deltaTime w).gameState.velocity.z
      = (w.gameState.velocity.z + moveZ inp * 2.5) * 0.95 := by
  have hl : limitSpeed (speedCap inp) (accelerate inp w.gameState.velocity)
      = accelerate inp w.gameState.velocity :=
    limitSpeed_of_le _ _ (not_lt.mp (limit_not_taken inp _ hv hb))
  rw [updateSonic_velocity_x _ _ _ _ _ halive hnc, updateSonic_velocity_z _ _ _ _ _ halive hnc, hl]
  exact ⟨rfl, rfl⟩

theorem updateSonic_axisBound (inp : Input) (platforms : List Platform)
    (endGoal : Option Vec3) (deltaTime : ℝ) (w : World)
    (hv : axisBound w.gameState.velocity) (hb : boundedInput inp) :
    axisBound (updateSonic inp platforms endGoal deltaTime w).gameState.velocity := by
  by_cases hg : w.gameState.isDead = true ∨ w.gameState.levelComplete = true
  · rw [updateSonic_skipped _ _ _ _ _ hg]
    exact hv
  · have halive : w.gameState.isDead = false := by
      cases h : w.gameState.isDead <;> simp_all
    have hnc : w.gameState.levelComplete = false := by
      cases h : w.gameState.levelComplete <;> simp_all
    obtain ⟨e1, e2⟩ := updateSonic_axis_step inp platforms endGoal deltaTime w halive hnc hv hb
    obtain ⟨hx, hz⟩ := hv
    obtain ⟨bx, bz⟩ := hb
    rw [abs_le] at hx hz bx bz
    unfold axisBound
    rw [e1, e2, abs_le, abs_le]
    refine ⟨⟨?_, ?_⟩, ⟨?_, ?_⟩⟩ <;> linarith [hx.1, hx.2, hz.1, hz.2, bx.1, bx.2, bz.1, bz.2]

/-- The components of a normalised vector are at most 1 in absolute value. -/
theorem normalize_axis (v : Vec3) : |v.normalize.x| ≤ 1 ∧ |v.normalize.z| ≤ 1 := by
  have hnn : 0 ≤ v.x * v.x + v.y * v.y + v.z * v.z :=
    add_nonneg (add_nonneg (mul_self_nonneg _) (mul_self_nonneg _)) (mul_self_nonneg _)
  have hx : |v.x| ≤ v.length := by
    unfold Vec3.length
    apply Real.abs_le_sqrt
    nlinarith [mul_self_nonneg v.y, mul_self_nonneg v.z]
  have hz : |v.z| ≤ v.length := by
    unfold Vec3.length
    apply Real.abs_le_sqrt
    nlinarith [mul_self_nonneg v.y, mul_self_nonneg v.x]
  have hl : 0 ≤ v.length := Real.sqrt_nonneg _
  unfold Vec3.normalize Vec3.divideScalar Vec3.multiplyScalar
  dsimp only
  split_ifs with h0
  · rw [h0] at hx hz
    have ex : v.x = 0 := abs_eq_zero.mp (le_antisymm hx (abs_nonneg _))
    have ez : v.z = 0 := abs_eq_zero.mp (le_antisymm hz (abs_nonneg _))
    rw [ex, ez]
    norm_num
  · have hpos : 0 < v.length := lt_of_le_of_ne hl (Ne.symm h0)
    rw [abs_mul, abs_mul, abs_of_pos (one_div_pos.mpr hpos)]
    constructor
    · rw [mul_one_div, div_le_one hpos]
      exact hx
    · rw [mul_one_div, div_le_one hpos]
      exact hz

theorem enemyCallback_axisBound (deltaTime : ℝ) (index : ℕ) (w : World)
    (hv : axisBound w.gameState.velocity) :
    axisBound (enemyCallback deltaTime index w).gameState.velocity := by
  unfold enemyCallback
  cases w.enemies[index]? with
  | none => exact hv
  | some enemy =>
    dsimp only
    unfold enemyCollision
    dsimp only
    split_ifs
    · exact hv
    · unfold takeDamage
      dsimp only
      split_ifs
      · obtain ⟨n1, n2⟩ := normalize_axis (w.sonic.position.sub (patrol deltaTime enemy).position)
        rw [abs_le] at n1 n2
        unfold axisBound
        dsimp only
        rw [abs_le, abs_le]
        refine ⟨⟨?_, ?_⟩, ⟨?_, ?_⟩⟩ <;> linarith [n1.1, n1.2, n2.1, n2.2]
      · rw [handleDeath_gameState_velocity]
        exact hv
    · exact hv
    · exact hv

theorem updateEnemies_axisBound (deltaTime : ℝ) (w : World)
    (hv : axisBound w.gameState.velocity) :
    axisBound (updateEnemies deltaTime w).gameState.velocity := by
  unfold updateEnemies
  exact forEachIdx_preserves (enemyCallback deltaTime)
    (fun w' => axisBound w'.gameState.velocity)
    (fun k w' h => enemyCallback_axisBound deltaTime k w' h) _ _ w hv
theorem updateRings_velocity (deltaTime : ℝ) (now : ℕ → ℝ) (w : World) :
    (updateRings deltaTime now w).gameState.velocity = w.gameState.velocity := by
  unfold updateRings
  apply forEachIdx_preserves (ringCallback deltaTime now)
    (fun w' => w'.gameState.velocity = w.gameState.velocity)
  · intro k w' h
    rw [← h]
    unfold ringCallback
    cases w'.rings[k]? with
    | none => rfl
    | some ring =>
      dsimp only
      split_ifs <;> rfl
  · rfl

theorem step_axisBound (w : World) (ev : Event) (hv : axisBound w.gameState.velocity)
    (hb : boundedInputs [ev]) : axisBound (step w ev).gameState.velocity := by
  cases ev with
  | sonic inp platforms endGoal deltaTime =>
    exact updateSonic_axisBound inp platforms endGoal deltaTime w hv hb.1
  | rings deltaTime now =>
    show axisBound (updateRings deltaTime now w).gameState.velocity
    rw [updateRings_velocity]
    exact hv
  | enemies deltaTime => exact updateEnemies_axisBound deltaTime w hv
  | death =>
    show axisBound (handleDeath w).gameState.velocity
    rw [handleDeath_gameState_velocity]
    exact hv
  | levelComplete =>
    show axisBound (handleLevelComplete w).gameState.velocity
    rw [handleLevelComplete_gameState_velocity]
    exact hv
  | respawn =>
    show axisBound (fireRespawn w).gameState.velocity
    unfold fireRespawn
    split_ifs
    · unfold respawnCallback axisBound
      dsimp only
      norm_num
    · exact hv

theorem boundedInputs_cons (ev : Event) (evs : List Event) (h : boundedInputs (ev :: evs)) :
    boundedInputs [ev] ∧ boundedInputs evs := by
  cases ev <;> first
    | exact ⟨⟨h.1, trivial⟩, h.2⟩
    | exact ⟨trivial, h⟩

theorem run_axisBound (w : World) (evs : List Event) (hv : axisBound w.gameState.velocity)
    (hb : boundedInputs evs) : axisBound (run w evs).gameState.velocity := by
  induction evs generalizing w with
  | nil => exact hv
  | cons ev evs ih =>
    obtain ⟨h1, h2⟩ := boundedInputs_cons ev evs hb
    rw [run_cons]
    exact ih (step w ev) (step_axisBound w ev hv h1) h2

/-- On a level without platforms and goal, from rest, holding a bounded
input for `n` ticks gives each horizontal component the value
`47.5 * input * (1 - 0.95 ^ n)`. -/
theorem holdTicks_free (inp : Input) (hb : boundedInput inp) (deltaTime : ℝ) (w : World)
    (halive : w.gameState.isDead = false) (hnc : w.gameState.levelComplete = false)
    (hx : w.gameState.velocity.x = 0) (hz : w.gameState.velocity.z = 0) (n : ℕ) :
    (holdTicks inp [] none deltaTime w n).gameState.isDead = false ∧
    (holdTicks inp [] none deltaTime w n).gameState.levelComplete = false ∧
    (holdTicks inp [] none deltaTime w n).gameState.velocity.x
      = 47.5 * moveX inp * (1 - 0.95 ^ n) ∧
    (holdTicks inp [] none deltaTime w n).gameState.velocity.z
      = 47.5 * moveZ inp * (1 - 0.95 ^ n) := by
  induction n with
  | zero =>
    simp only [holdTicks, halive, hnc, hx, hz]
    norm_num
  | succ n ih =>
    obtain ⟨h1, h2, h3, h4⟩ := ih
    obtain ⟨bx, bz⟩ := hb
    have hq0 : (0 : ℝ) ≤ 0.95 ^ n := pow_nonneg (by norm_num) n
    have hq1 : (0.95 : ℝ) ^ n ≤ 1 := pow_le_one₀ (by norm_num) (by norm_num)
    have hbound : axisBound (holdTicks inp [] none deltaTime w n).gameState.velocity := by
      unfold axisBound
      rw [h3, h4, abs_mul, abs_mul, abs_mul, abs_mul, abs_of_nonneg (by linarith : (0 : ℝ) ≤ 1 - 0.95 ^ n)]
      constructor
      · have : |(47.5 : ℝ)| * |moveX inp| ≤ 47.5 * 1 := by
          rw [abs_of_pos (by norm_num : (0 : ℝ) < 47.5)]
          exact mul_le_mul_of_nonneg_left bx (by norm_num)
        nlinarith [abs_nonneg (moveX inp)]
      · have : |(47.5 : ℝ)| * |moveZ inp| ≤ 47.5 * 1 := by
          rw [abs_of_pos (by norm_num : (0 : ℝ) < 47.5)]
          exact mul_le_mul_of_nonneg_left bz (by norm_num)
        nlinarith [abs_nonneg (moveZ inp)]
    obtain ⟨e1, e2⟩ := updateSonic_axis_step inp [] none deltaTime _ h1 h2 hbound ⟨bx, bz⟩
    obtain ⟨l1, l2⟩ := updateSonic_free_live inp deltaTime _ h1 h2
    refine ⟨l1, l2, ?_, ?_⟩
    · show (updateSonic inp [] none deltaTime _).gameState.velocity.x = _
      rw [e1, h3, pow_succ]
      ring
    · show (updateSonic inp [] none deltaTime _).gameState.velocity.z = _
      rw [e2, h4, pow_succ]
      ring
theorem boundedInput_diagonalInput : boundedInput diagonalInput ∧
    moveX diagonalInput = 1 ∧ moveZ diagonalInput = -1 := by
  have h1 : moveX diagonalInput = 1 := by simp [moveX, diagonalInput, idleInput]
  have h2 : moveZ diagonalInput = -1 := by simp [moveZ, diagonalInput, idleInput]
  refine ⟨?_, h1, h2⟩
  unfold boundedInput
  rw [h1, h2]
  norm_num

theorem boundedInput_forwardInput : boundedInput forwardInput ∧
    moveX forwardInput = 0 ∧ moveZ forwardInput = -1 := by
  have h1 : moveX forwardInput = 0 := by simp [moveX, forwardInput, idleInput]
  have h2 : moveZ forwardInput = -1 := by simp [moveZ, forwardInput, idleInput]
  refine ⟨?_, h1, h2⟩
  unfold boundedInput
  rw [h1, h2]
  norm_num

theorem axisBound_initialWorld (sonic : Sonic) (rings : List Ring) (enemies : List Enemy)
    (music : Music) : axisBound (initialWorld sonic rings enemies music).gameState.velocity := by
  unfold axisBound initialWorld initialGameState
  norm_num

/-- C28. Per-axis velocity bound. If `|vx| ≤ 47.5` and `|vz| ≤ 47.5` before
a tick and both input components lie in `[-1, 1]`, the same bounds hold after
`updateSonic`, with or without boost, and the speed-limit branch is not
taken in that tick; `updateEnemies`, with its knockback, keeps the bounds.
Hence after every sequence of events from the initial state whose ticks have
such inputs the bounds hold, the horizontal speed is at most
`47.5 * sqrt 2`, which is below `MAX_SPEED`, and the speed-limit branch is
not taken in a further tick. Holding a diagonal input from rest gives, after
every number of ticks, `sqrt 2` times the speed `47.5 * (1 - 0.95 ^ n)` that
holding forward gives. -/
theorem C28_axis_bound :
    (∀ (inp : Input) (platforms : List Platform) (endGoal : Option Vec3) (deltaTime : ℝ)
        (w : World), axisBound w.gameState.velocity → boundedInput inp →
      axisBound (updateSonic inp platforms endGoal deltaTime w).gameState.velocity ∧
      ¬ horizontalSpeed (accelerate inp w.gameState.velocity) > speedCap inp) ∧
    (∀ (deltaTime : ℝ) (w : World), axisBound w.gameState.velocity →
      axisBound (updateEnemies deltaTime w).gameState.velocity) ∧
    (∀ (sonic : Sonic) (rings : List Ring) (enemies : List Enemy) (music : Music)
        (evs : List Event), boundedInputs evs →
      axisBound (run (initialWorld sonic rings enemies music) evs).gameState.velocity ∧
      horizontalSpeed (run (initialWorld sonic rings enemies music) evs).gameState.velocity
        ≤ 47.5 * Real.sqrt 2 ∧
      ∀ inp : Input, boundedInput inp →
        ¬ horizontalSpeed (accelerate inp
            (run (initialWorld sonic rings enemies music) evs).gameState.velocity)
          > speedCap inp) ∧
    47.5 * Real.sqrt 2 < MAX_SPEED ∧
    (∀ (deltaTime : ℝ) (n : ℕ),
      horizontalSpeed (holdTicks diagonalInput [] none deltaTime emptyLevel n).gameState.velocity
        = Real.sqrt 2 *
          horizontalSpeed (holdTicks forwardInput [] none deltaTime emptyLevel n).gameState.velocity ∧
      horizontalSpeed (holdTicks forwardInput [] none deltaTime emptyLevel n).gameState.velocity
        = 47.5 * (1 - 0.95 ^ n)) := by
  refine ⟨?_, ?_, ?_, ?_, ?_⟩
  · intro inp platforms endGoal deltaTime w hv hb
    exact ⟨updateSonic_axisBound inp platforms endGoal deltaTime w hv hb,
      limit_not_taken inp _ hv hb⟩
  · intro deltaTime w hv
    exact updateEnemies_axisBound deltaTime w hv
  · intro sonic rings enemies music evs hb
    have h := run_axisBound _ evs (axisBound_initialWorld sonic rings enemies music) hb
    exact ⟨h, horizontalSpeed_le_of_axis _ 47.5 (by norm_num) h.1 h.2,
      fun inp hi => limit_not_taken inp _ h hi⟩
  · have := sqrt_two_lt
    unfold MAX_SPEED
    linarith
  · intro deltaTime n
    obtain ⟨bd, dx, dz⟩ := boundedInput_diagonalInput
    obtain ⟨bf, fx, fz⟩ := boundedInput_forwardInput
    obtain ⟨_, _, d3, d4⟩ := holdTicks_free diagonalInput bd deltaTime emptyLevel rfl rfl rfl rfl n
    obtain ⟨_, _, f3, f4⟩ := holdTicks_free forwardInput bf deltaTime emptyLevel rfl rfl rfl rfl n
    rw [dx] at d3
    rw [dz] at d4
    rw [fx] at f3
    rw [fz] at f4
    have hq1 : (0.95 : ℝ) ^ n ≤ 1 := pow_le_one₀ (by norm_num) (by norm_num)
    have ha : (0 : ℝ) ≤ 47.5 * (1 - 0.95 ^ n) := by nlinarith
    have hf : horizontalSpeed
        (holdTicks forwardInput [] none deltaTime emptyLevel n).gameState.velocity
        = 47.5 * (1 - 0.95 ^ n) := by
      rw [horizontalSpeed_of_x_zero _ (by rw [f3]; ring), f4]
      have e : (47.5 : ℝ) * -1 * (1 - 0.95 ^ n) = -(47.5 * (1 - 0.95 ^ n)) := by ring
      rw [e, abs_neg, abs_of_nonneg ha]
    refine ⟨?_, hf⟩
    rw [hf]
    unfold horizontalSpeed Vec2.length
    dsimp only
    rw [d3, d4]
    have e : (47.5 : ℝ) * 1 * (1 - 0.95 ^ n) * (47.5 * 1 * (1 - 0.95 ^ n)) +
        47.5 * -1 * (1 - 0.95 ^ n) * (47.5 * -1 * (1 - 0.95 ^ n))
        = 2 * ((47.5 * (1 - 0.95 ^ n)) * (47.5 * (1 - 0.95 ^ n))) := by ring
    rw [e, Real.sqrt_mul (by norm_num), Real.sqrt_mul_self ha]
/-! ## Claims about the enemy loop and the completed level -/

/-- The stomp branch of the enemy callback. -/
theorem enemyCallback_stomp (deltaTime : ℝ) (index : ℕ) (w : World) (enemy : Enemy)
    (hk : w.enemies[index]? = some enemy)
    (hinv : w.gameState.invulnerable = false) (halive : w.gameState.isDead = false)
    (hjump : w.gameState.isJumping = true) (hvy : w.gameState.velocity.y < 0)
    (hnear : w.sonic.position.distanceTo (patrol deltaTime enemy).position < 4) :
    enemyCallback deltaTime index w =
      { w with
        enemies := (w.enemies.set index (patrol deltaTime enemy)).eraseIdx index
        gameState := { w.gameState with
          score := w.gameState.score + 100
          velocity := { w.gameState.velocity with y := 10 } } } := by
  unfold enemyCallback
  rw [hk]
  dsimp only
  unfold enemyCollision
  dsimp only
  rw [if_pos ⟨hinv, halive⟩, if_pos hnear, if_pos ⟨hjump, hvy⟩]

theorem enemyCallback_absent (deltaTime : ℝ) (index : ℕ) (w : World)
    (hk : w.enemies[index]? = none) : enemyCallback deltaTime index w = w := by
  unfold enemyCallback
  rw [hk]

/-- While the player is not stomping, the callback moves the enemy at
`index`, removes none, and the player is not stomping afterwards. -/
theorem enemyCallback_no_stomp (deltaTime : ℝ) (index : ℕ) (w : World)
    (hstomp : ¬ (w.gameState.isJumping = true ∧ w.gameState.velocity.y < 0)) :
    (enemyCallback deltaTime index w).enemies =
      (match w.enemies[index]? with
        | none => w.enemies
        | some enemy => w.enemies.set index (patrol deltaTime enemy)) ∧
    ¬ ((enemyCallback deltaTime index w).gameState.isJumping = true ∧
      (enemyCallback deltaTime index w).gameState.velocity.y < 0) := by
  unfold enemyCallback
  cases w.enemies[index]? with
  | none => exact ⟨rfl, hstomp⟩
  | some enemy =>
    dsimp only
    unfold enemyCollision
    dsimp only
    rw [if_neg hstomp]
    split_ifs
    · refine ⟨takeDamage_enemies _ _, ?_⟩
      unfold takeDamage
      dsimp only
      split_ifs
      · dsimp only
        intro h
        norm_num at h
      · rw [handleDeath_gameState_isJumping, handleDeath_gameState_velocity]
        exact hstomp
    · exact ⟨rfl, hstomp⟩
    · exact ⟨rfl, hstomp⟩

/-- Entered while the player is not stomping, `updateEnemies` moves every
enemy of the array and removes none. -/
theorem updateEnemies_no_stomp (deltaTime : ℝ) (w : World)
    (hstomp : ¬ (w.gameState.isJumping = true ∧ w.gameState.velocity.y < 0)) :
    (updateEnemies deltaTime w).enemies = w.enemies.map (patrol deltaTime) := by
  have key := forEachIdx_invariant (enemyCallback deltaTime)
    (fun k w' => ¬ (w'.gameState.isJumping = true ∧ w'.gameState.velocity.y < 0) ∧
      ∀ i, w'.enemies[i]? =
        if i < k then (w.enemies[i]?).map (patrol deltaTime) else w.enemies[i]?)
    (by
      intro k w' ⟨hs, he⟩
      obtain ⟨c1, c2⟩ := enemyCallback_no_stomp deltaTime k w' hs
      refine ⟨c2, ?_⟩
      rw [c1]
      exact patrolled_step (patrol deltaTime) w.enemies w'.enemies k he)
    w.enemies.length 0 w ⟨hstomp, fun i => by simp⟩
  rw [Nat.zero_add] at key
  exact patrolled_all (patrol deltaTime) w.enemies _ key.2

/-- What the patrol move does to an enemy with an anchor. -/
theorem patrol_anchored (deltaTime : ℝ) (e : Enemy) (p : Vec3) (h : e.initialPos = some p) :
    (patrol deltaTime e).direction = e.direction + deltaTime * 0.5 ∧
    (patrol deltaTime e).position.x
      = p.x + Real.cos (e.direction + deltaTime * 0.5) * e.patrolRadius ∧
    (patrol deltaTime e).position.z
      = p.z + Real.sin (e.direction + deltaTime * 0.5) * e.patrolRadius ∧
    (patrol deltaTime e).position.y = e.position.y := by
  unfold patrol
  rw [h]
  exact ⟨rfl, rfl, rfl, rfl⟩

theorem stompPairWorld_update :
    updateEnemies (1 / 60) stompPairWorld = enemyCallback (1 / 60) 0 stompPairWorld ∧
    (enemyCallback (1 / 60) 0 stompPairWorld).enemies = [nearEnemy] := by
  have hcb := enemyCallback_stomp (1 / 60) 0 stompPairWorld highEnemy rfl rfl rfl rfl
    (by simp [stompPairWorld, stompWorld])
    (by
      rw [highEnemy_patrol]
      simp [stompPairWorld, stompWorld, ledgeWorld, initialWorld, Vec3.distanceTo,
        Vec3.distanceToSquared])
  have he : (enemyCallback (1 / 60) 0 stompPairWorld).enemies = [nearEnemy] := by
    rw [hcb]
    rfl
  refine ⟨?_, he⟩
  show forEachIdx _ 2 0 stompPairWorld = _
  simp only [forEachIdx]
  exact enemyCallback_absent _ 1 _ (by rw [he]; rfl)

/-- C22, as the code behaves. The patrol move itself is as described: for an
enemy with an anchor the angle grows by `0.5 * deltaTime`, `x` and `z` are
recomputed on the circle around the anchor, `y` is kept and the horizontal
distance from the anchor is the absolute value of `patrolRadius`; and a call
of `updateEnemies` entered while the player is not stomping makes this move
for every enemy. But a stomp removes its enemy from the array inside the
loop, so the enemy behind it is passed over: with the player stomping the
first of two enemies, one call of `updateEnemies` leaves the second in the
active set with its angle not advanced and its position still at the anchor,
not on the patrol circle. -/
theorem C22_enemy_skipped_after_stomp :
    (∀ (deltaTime : ℝ) (e : Enemy) (p : Vec3), e.initialPos = some p →
      (patrol deltaTime e).direction = e.direction + deltaTime * 0.5 ∧
      (patrol deltaTime e).position.x
        = p.x + Real.cos (e.direction + deltaTime * 0.5) * e.patrolRadius ∧
      (patrol deltaTime e).position.z
        = p.z + Real.sin (e.direction + deltaTime * 0.5) * e.patrolRadius ∧
      (patrol deltaTime e).position.y = e.position.y ∧
      (Vec2.mk ((patrol deltaTime e).position.x - p.x)
        ((patrol deltaTime e).position.z - p.z)).length = |e.patrolRadius|) ∧
    (∀ (deltaTime : ℝ) (w : World),
      ¬ (w.gameState.isJumping = true ∧ w.gameState.velocity.y < 0) →
      (updateEnemies deltaTime w).enemies = w.enemies.map (patrol deltaTime)) ∧
    stompPairWorld.enemies = [highEnemy, nearEnemy] ∧
    (updateEnemies (1 / 60) stompPairWorld).enemies = [nearEnemy] ∧
    nearEnemy.initialPos = some ⟨-9, 3, 0⟩ ∧
    nearEnemy.patrolRadius = 10 ∧
    nearEnemy.direction ≠ nearEnemy.direction + (1 / 60) * 0.5 ∧
    (Vec2.mk (nearEnemy.position.x - (-9)) (nearEnemy.position.z - 0)).length = 0 := by
  refine ⟨?_, updateEnemies_no_stomp, rfl, ?_, rfl, rfl, ?_, ?_⟩
  · intro deltaTime e p h
    obtain ⟨h1, h2, h3, h4⟩ := patrol_anchored deltaTime e p h
    refine ⟨h1, h2, h3, h4, ?_⟩
    rw [h2, h3]
    unfold Vec2.length
    dsimp only
    have e1 : (p.x + Real.cos (e.direction + deltaTime * 0.5) * e.patrolRadius - p.x) *
        (p.x + Real.cos (e.direction + deltaTime * 0.5) * e.patrolRadius - p.x) +
        (p.z + Real.sin (e.direction + deltaTime * 0.5) * e.patrolRadius - p.z) *
        (p.z + Real.sin (e.direction + deltaTime * 0.5) * e.patrolRadius - p.z)
        = e.patrolRadius * e.patrolRadius := by
      have := Real.sin_sq_add_cos_sq (e.direction + deltaTime * 0.5)
      linear_combination (e.patrolRadius * e.patrolRadius) * this
    rw [e1]
    exact Real.sqrt_mul_self_eq_abs _
  · rw [stompPairWorld_update.1, stompPairWorld_update.2]
  · norm_num
  · simp [nearEnemy, Vec2.length]
/-- C24, as the code behaves. The functions `updateRings` and
`updateEnemies` do not look at `levelComplete`. In a completed level with
two enemies about to come within 4 units of the ringless player the next
frame takes a life and sets `isDead`; in a completed level with rings within
3 units of the player the next frame adds 1 to `rings` and 10 to `score`. -/
theorem C24_interaction_after_complete :
    (handleLevelComplete duelWorld).gameState.levelComplete = true ∧
    (handleLevelComplete duelWorld).gameState.isDead = false ∧
    (handleLevelComplete duelWorld).gameState.lives = 3 ∧
    (frame idleInput [startPlatform] (some levelGoal) (1 / 60) (fun _ => 0)
      (handleLevelComplete duelWorld)).gameState.isDead = true ∧
    (frame idleInput [startPlatform] (some levelGoal) (1 / 60) (fun _ => 0)
      (handleLevelComplete duelWorld)).gameState.lives = 2 ∧
    (handleLevelComplete twoRingWorld).gameState.levelComplete = true ∧
    (handleLevelComplete twoRingWorld).gameState.rings = 0 ∧
    (handleLevelComplete twoRingWorld).gameState.score = 1000 ∧
    (frame idleInput [startPlatform] (some levelGoal) (1 / 60) (fun _ => 0)
      (handleLevelComplete twoRingWorld)).gameState.rings = 1 ∧
    (frame idleInput [startPlatform] (some levelGoal) (1 / 60) (fun _ => 0)
      (handleLevelComplete twoRingWorld)).gameState.score = 1010 := by
  have hA : frame idleInput [startPlatform] (some levelGoal) (1 / 60) (fun _ => 0)
      (handleLevelComplete duelWorld) = updateEnemies (1 / 60) (handleLevelComplete duelWorld) := by
    unfold frame
    rw [updateSonic_skipped _ _ _ _ _ (Or.inr rfl)]
    rfl
  obtain ⟨e, _, _, hg, _⟩ := updateEnemies_first_hit (1 / 60) (handleLevelComplete duelWorld)
    rfl rfl (fun h => Bool.noConfusion h.1)
    ⟨nearEnemy, List.mem_cons_self _ _, nearEnemy_in_range⟩
  have hd : takeDamage (patrol (1 / 60) e) (handleLevelComplete duelWorld)
      = handleDeath (handleLevelComplete duelWorld) := by
    unfold takeDamage
    dsimp only
    rw [if_neg (by
      show ¬ (handleLevelComplete duelWorld).gameState.rings > 0
      rw [handleLevelComplete_gameState_rings]
      exact lt_irrefl _)]
  rw [hd] at hg
  have hB1 : updateSonic idleInput [startPlatform] (some levelGoal) (1 / 60)
      (handleLevelComplete twoRingWorld) = handleLevelComplete twoRingWorld :=
    updateSonic_skipped _ _ _ _ _ (Or.inr rfl)
  have hnear : (handleLevelComplete twoRingWorld).sonic.position.distanceTo (Vec3.mk 0 4 0)
      < 3 := by
    rw [handleLevelComplete_sonic]
    simp [twoRingWorld, initialWorld, sonicAtStart, Vec3.distanceTo, Vec3.distanceToSquared]
    norm_num
  obtain ⟨c1, c2, c3, _⟩ := ringCallback_collect (1 / 60) (fun _ => 0) 0
    (handleLevelComplete twoRingWorld)
    { position := ⟨0, 4, 0⟩, rotationX := 0, rotationY := 0 } rfl hnear
  have c1' : (ringCallback (1 / 60) (fun _ => 0) 0 (handleLevelComplete twoRingWorld)).rings
      = [{ position := ⟨0, 5, 0⟩, rotationX := 0, rotationY := 0 }] := by
    rw [c1]
    rfl
  have hB2 : updateRings (1 / 60) (fun _ => 0) (handleLevelComplete twoRingWorld)
      = ringCallback (1 / 60) (fun _ => 0) 0 (handleLevelComplete twoRingWorld) := by
    show forEachIdx _ 2 0 (handleLevelComplete twoRingWorld) = _
    simp only [forEachIdx]
    exact ringCallback_absent _ _ 1 _ (by rw [c1']; rfl)
  have hB3 : (ringCallback (1 / 60) (fun _ => 0) 0 (handleLevelComplete twoRingWorld)).enemies
      = [] := by
    rw [(ringCallback_frame _ _ _ _).2.2.2.2.1]
    rfl
  have hB : frame idleInput [startPlatform] (some levelGoal) (1 / 60) (fun _ => 0)
      (handleLevelComplete twoRingWorld)
      = ringCallback (1 / 60) (fun _ => 0) 0 (handleLevelComplete twoRingWorld) := by
    unfold frame
    rw [hB1, hB2]
    unfold updateEnemies
    rw [hB3]
    rfl
  refine ⟨rfl, rfl, rfl, ?_, ?_, rfl, rfl, rfl, ?_, ?_⟩
  · rw [hA, hg]
    exact handleDeath_isDead _
  · rw [hA, hg]
    rfl
  · rw [hB, c2]
    rfl
  · rw [hB, c3]
    rfl
/-! ## The events of a pattern -/

theorem beatLength_val : beatLength = 5 / 11 := by
  unfold beatLength tempo
  norm_num

/-- An offset from the start of a bar that is not negative and shorter than
four beats stays in the window of the bar. -/
theorem inBar_of_offset (currentTime : ℝ) (bar : ℕ) (o : ℝ) (h0 : 0 ≤ o)
    (h1 : o < 4 * beatLength) :
    inBar currentTime bar (currentTime + (bar * 4 * beatLength) + o) := by
  unfold inBar
  constructor <;> linarith

theorem playNote_defined (frequency : Option ℝ) (startTime duration : ℝ) (wave : String)
    (volume : ℝ) (h : frequency.isSome = true) :
    (playNote frequency startTime duration wave volume).defined := h

theorem playNote_map_defined (frequency : Option ℝ) (f : ℝ → ℝ) (startTime duration : ℝ)
    (wave : String) (volume : ℝ) (h : frequency.isSome = true) :
    (playNote (frequency.map f) startTime duration wave volume).defined := by
  show (frequency.map f).isSome = true
  rw [Option.isSome_map']
  exact h

theorem drumBeat_ok (currentTime : ℝ) (d : Draws) (bar beat : ℕ) (hb : beat < 8) :
    ∀ e ∈ drumBeat currentTime d bar beat, inBar currentTime bar e.startTime ∧ e.defined := by
  intro e he
  have hb1 : (beat : ℝ) ≤ 7 := by exact_mod_cast Nat.le_of_lt_succ hb
  have hb0 : (0 : ℝ) ≤ beat := Nat.cast_nonneg _
  have hbl := beatLength_val
  have h1 : inBar currentTime bar
      (currentTime + (bar * 4 * beatLength) + (beat * beatLength / 2)) :=
    inBar_of_offset _ _ _ (by rw [hbl]; positivity) (by rw [hbl]; linarith)
  have h2 : inBar currentTime bar
      (currentTime + (bar * 4 * beatLength) + (beat * beatLength / 2) + beatLength * 0.125) := by
    have := inBar_of_offset currentTime bar (beat * beatLength / 2 + beatLength * 0.125)
      (by rw [hbl]; positivity) (by rw [hbl]; linarith)
    rwa [← add_assoc] at this
  unfold drumBeat at he
  dsimp only at he
  rw [List.mem_append, List.mem_append] at he
  rcases he with (h | h) | h
  · split_ifs at h
    · rw [List.mem_singleton] at h
      subst h
      exact ⟨h1, trivial⟩
    · exact absurd h (List.not_mem_nil _)
  · split_ifs at h
    · rw [List.mem_singleton] at h
      subst h
      exact ⟨h1, trivial⟩
    · rw [List.mem_singleton] at h
      subst h
      exact ⟨h2, trivial⟩
    · exact absurd h (List.not_mem_nil _)
  · split_ifs at h
    · rw [List.mem_singleton] at h
      subst h
      exact ⟨h1, trivial⟩
    · exact absurd h (List.not_mem_nil _)

theorem drumBar_ok (currentTime : ℝ) (d : Draws) (bar : ℕ) :
    ∀ e ∈ drumBar currentTime d bar, inBar currentTime bar e.startTime ∧ e.defined := by
  intro e he
  unfold drumBar at he
  dsimp only at he
  rw [List.mem_flatMap] at he
  obtain ⟨beat, hbeat, he⟩ := he
  rw [List.mem_range] at hbeat
  have hb : beat < 8 := by
    split_ifs at hbeat <;> omega
  exact drumBeat_ok currentTime d bar beat hb e he

theorem bass_index_defined : ∀ k < 8, (frequencyOf bassNotes[k]?).isSome = true := by
  decide

theorem bassBar_ok (currentTime : ℝ) (bar : ℕ) :
    ∀ e ∈ bassBar currentTime bar, inBar currentTime bar e.startTime ∧ e.defined := by
  intro e he
  unfold bassBar at he
  rw [List.mem_flatMap] at he
  obtain ⟨p, hp, he⟩ := he
  have hbl := beatLength_val
  have hoff : 0 ≤ p.2 ∧ p.2 ≤ 3.75 := by
    simp only [bassPattern, List.enum, List.enumFrom, List.mem_cons, List.mem_singleton,
      List.not_mem_nil, or_false] at hp
    rcases hp with h | h | h | h | h | h | h <;> rw [h] <;> norm_num
  have hin : inBar currentTime bar
      (currentTime + (bar * 4 * beatLength) + (p.2 * beatLength)) :=
    inBar_of_offset _ _ _ (by rw [hbl]; nlinarith [hoff.1]) (by rw [hbl]; nlinarith [hoff.2])
  have hdef : (frequencyOf bassNotes[(bar * 3 + p.1 * 5) % bassNotes.length]?).isSome = true :=
    bass_index_defined _ (Nat.mod_lt _ (by decide))
  unfold bassNote at he
  dsimp only at he
  rw [List.mem_cons, List.mem_singleton] at he
  rcases he with h | h
  · subst h
    exact ⟨hin, playNote_defined _ _ _ _ _ hdef⟩
  · subst h
    exact ⟨hin, playNote_map_defined _ _ _ _ _ _ hdef⟩
theorem chord_names_defined :
    ∀ chord ∈ chordProgressions, ∀ n ∈ chord, (frequencyOf (some n)).isSome = true := by
  decide

theorem chord_lengths : ∀ chord ∈ chordProgressions, chord.length = 5 := by
  decide

theorem melody_names_defined : ∀ n ∈ melodyNotes, (frequencyOf (some n)).isSome = true := by
  decide

theorem bass_names_defined : ∀ n ∈ bassNotes, (frequencyOf (some n)).isSome = true := by
  decide

theorem chordBar_ok (currentTime : ℝ) (d : Draws) (bar : ℕ) :
    ∀ e ∈ chordBar currentTime d bar, inBar currentTime bar e.startTime ∧ e.defined := by
  intro e he
  unfold chordBar at he
  cases hc : chordProgressions[bar % chordProgressions.length]? with
  | none =>
    rw [hc] at he
    exact absurd he (List.not_mem_nil _)
  | some chord =>
    rw [hc] at he
    dsimp only at he
    have hmem : chord ∈ chordProgressions := List.getElem?_mem hc
    rw [List.mem_flatMap] at he
    obtain ⟨p, hp, he⟩ := he
    obtain ⟨hlt, hpe⟩ := List.mem_enum hp
    rw [chord_lengths chord hmem] at hlt
    have hn : p.2 ∈ chord := by
      rw [hpe]
      exact List.getElem_mem _
    have hdef := chord_names_defined chord hmem p.2 hn
    have hbl := beatLength_val
    have hi1 : (p.1 : ℝ) ≤ 4 := by exact_mod_cast Nat.le_of_lt_succ hlt
    have hi0 : (0 : ℝ) ≤ p.1 := Nat.cast_nonneg _
    have hin : inBar currentTime bar (currentTime + bar * 4 * beatLength + (p.1 * 0.02)) :=
      inBar_of_offset _ _ _ (by positivity) (by rw [hbl]; linarith)
    unfold chordNote at he
    dsimp only at he
    rw [List.mem_cons, List.mem_singleton] at he
    rcases he with h | h
    · subst h
      exact ⟨hin, playNote_defined _ _ _ _ _ hdef⟩
    · subst h
      exact ⟨hin, playNote_map_defined _ _ _ _ _ _ hdef⟩

/-- After the modulo and the reset of a negative index the lead index is a
valid index of `melodyNotes`, whatever it was before. -/
theorem leadStep_range (d : Draws) (bar note : ℕ) (currentIndex direction : ℤ) :
    0 ≤ (leadStep d bar note currentIndex direction).1 ∧
    (leadStep d bar note currentIndex direction).1 ≤ 18 := by
  have hlen : (melodyNotes.length : ℤ) = 19 := rfl
  unfold leadStep
  dsimp only
  rw [hlen]
  split_ifs with h1 h2 h2
  · exact ⟨by norm_num, by norm_num⟩
  · dsimp only at h2 ⊢
    have := Int.tmod_lt_of_pos
      (currentIndex + direction * (7 + ⌊d.leapSize bar note * 5⌋)) (by norm_num : (0 : ℤ) < 19)
    constructor <;> omega
  · exact ⟨by norm_num, by norm_num⟩
  · dsimp only at h2 ⊢
    have := Int.tmod_lt_of_pos (currentIndex + direction) (by norm_num : (0 : ℤ) < 19)
    constructor <;> omega

theorem melody_index_defined (i : ℤ) (h0 : 0 ≤ i) (h1 : i ≤ 18) :
    (frequencyOf (elementAt melodyNotes i)).isSome = true := by
  lift i to ℕ using h0
  have hk : i ≤ 18 := by exact_mod_cast h1
  have e : elementAt melodyNotes (i : ℤ) = melodyNotes[i]? := by
    unfold elementAt
    rw [if_pos (Int.natCast_nonneg i), Int.toNat_natCast]
  rw [e]
  interval_cases i <;> rfl

theorem leadRun_ok (currentTime : ℝ) (d : Draws) (bar : ℕ) :
    ∀ (n note : ℕ) (currentIndex direction : ℤ), note + n ≤ 31 →
      ∀ e ∈ leadRun currentTime d bar n note currentIndex direction,
        inBar currentTime bar e.startTime ∧ e.defined := by
  intro n
  induction n with
  | zero =>
    intro note currentIndex direction _ e he
    exact absurd he (List.not_mem_nil _)
  | succ n ih =>
    intro note currentIndex direction hn e he
    have hbl := beatLength_val
    have hk1 : (note : ℝ) ≤ 30 := by exact_mod_cast (by omega : note ≤ 30)
    have hk0 : (0 : ℝ) ≤ note := Nat.cast_nonneg _
    have hin : inBar currentTime bar
        (currentTime + (bar * 4 * beatLength) + (note * beatLength / 8)) :=
      inBar_of_offset _ _ _ (by rw [hbl]; positivity) (by rw [hbl]; linarith)
    obtain ⟨r0, r1⟩ := leadStep_range d bar note currentIndex direction
    have hdef := melody_index_defined _ r0 r1
    unfold leadRun at he
    dsimp only at he
    rw [List.mem_cons, List.mem_cons] at he
    rcases he with h | h | h
    · subst h
      exact ⟨hin, playNote_defined _ _ _ _ _ hdef⟩
    · subst h
      exact ⟨hin, playNote_map_defined _ _ _ _ _ _ hdef⟩
    · exact ih (note + 1) _ _ (by omega) e h
theorem leadBar_ok (currentTime : ℝ) (d : Draws) (hd : d.valid) (bar : ℕ) :
    ∀ e ∈ leadBar currentTime d bar, inBar currentTime bar e.startTime ∧ e.defined := by
  intro e he
  obtain ⟨_, _, _, hrun, _, _, _, _, hsus⟩ := hd
  unfold leadBar at he
  by_cases hrapid : bar % 3 ≠ 2
  · rw [if_pos hrapid] at he
    dsimp only at he
    have hfl : ⌊d.runLength bar * 16⌋ < 16 := by
      rw [Int.floor_lt]
      have := (hrun bar).2
      push_cast
      linarith
    have hf0 : 0 ≤ ⌊d.runLength bar * 16⌋ := by
      rw [Int.floor_nonneg]
      have := (hrun bar).1
      linarith
    exact leadRun_ok currentTime d bar _ 0 _ _ (by omega) e he
  · rw [if_neg hrapid] at he
    dsimp only at he
    rw [List.mem_map] at he
    obtain ⟨i, hi, he⟩ := he
    rw [List.mem_range] at hi
    have hbl := beatLength_val
    have hi1 : (i : ℝ) ≤ 7 := by exact_mod_cast Nat.le_of_lt_succ hi
    have hi0 : (0 : ℝ) ≤ i := Nat.cast_nonneg _
    have hlen : ((melodyNotes.length : ℕ) : ℝ) = 19 := by
      simp [melodyNotes]
    have hfl : ⌊d.sustained bar * melodyNotes.length⌋ ≤ 18 := by
      have h : ⌊d.sustained bar * melodyNotes.length⌋ < 19 := by
        rw [Int.floor_lt, hlen]
        have := (hsus bar).2
        push_cast
        linarith
      omega
    have hf0 : 0 ≤ ⌊d.sustained bar * melodyNotes.length⌋ := by
      rw [Int.floor_nonneg, hlen]
      have := (hsus bar).1
      linarith
    have hdef := melody_index_defined _ hf0 hfl
    have hin : inBar currentTime bar
        (currentTime + (bar * 4 * beatLength) + (i * beatLength * 0.5)) :=
      inBar_of_offset _ _ _ (by rw [hbl]; positivity) (by rw [hbl]; linarith)
    subst he
    exact ⟨hin, playNote_map_defined _ _ _ _ _ _ hdef⟩

theorem barEvents_ok (currentTime : ℝ) (d : Draws) (hd : d.valid) (bar : ℕ) :
    ∀ e ∈ barEvents currentTime d bar, inBar currentTime bar e.startTime ∧ e.defined := by
  intro e he
  unfold barEvents at he
  rw [List.mem_append, List.mem_append, List.mem_append] at he
  rcases he with ((h | h) | h) | h
  · exact drumBar_ok currentTime d bar e h
  · exact bassBar_ok currentTime bar e h
  · exact chordBar_ok currentTime d bar e h
  · exact leadBar_ok currentTime d hd bar e h

/-- The events of a pattern are those of its eight bars. -/
theorem patternEvents_mem (currentTime : ℝ) (d : Draws) (e : AudioEvent) :
    e ∈ patternEvents currentTime d ↔ ∃ bar < patternLength, e ∈ barEvents currentTime d bar := by
  unfold patternEvents barEvents
  simp only [List.mem_append, List.mem_flatMap, List.mem_range]
  constructor
  · rintro (((⟨b, hb, h⟩ | ⟨b, hb, h⟩) | ⟨b, hb, h⟩) | ⟨b, hb, h⟩)
    · exact ⟨b, hb, Or.inl (Or.inl (Or.inl h))⟩
    · exact ⟨b, hb, Or.inl (Or.inl (Or.inr h))⟩
    · exact ⟨b, hb, Or.inl (Or.inr h)⟩
    · exact ⟨b, hb, Or.inr h⟩
  · rintro ⟨b, hb, ((h | h) | h) | h⟩
    · exact Or.inl (Or.inl (Or.inl ⟨b, hb, h⟩))
    · exact Or.inl (Or.inl (Or.inr ⟨b, hb, h⟩))
    · exact Or.inl (Or.inr ⟨b, hb, h⟩)
    · exact Or.inr ⟨b, hb, h⟩

theorem inBar_pattern (currentTime : ℝ) (bar : ℕ) (hb : bar < patternLength) (t : ℝ)
    (h : inBar currentTime bar t) : currentTime ≤ t ∧ t < currentTime + patternDelay := by
  have hbl := beatLength_val
  have hb1 : (bar : ℝ) ≤ 7 := by
    have : bar ≤ 7 := by
      unfold patternLength at hb
      omega
    exact_mod_cast this
  have hb0 : (0 : ℝ) ≤ bar := Nat.cast_nonneg _
  unfold inBar at h
  unfold patternDelay patternLength
  rw [hbl] at h ⊢
  push_cast
  constructor <;> linarith [h.1, h.2]

/-- Every call of `generatePattern` schedules the kick of the first beat at
the audio clock of the call. -/
theorem kick_scheduled (currentTime : ℝ) (d : Draws) :
    playDrum DrumKind.kick currentTime ∈ patternEvents currentTime d := by
  rw [patternEvents_mem]
  refine ⟨0, by decide, ?_⟩
  unfold barEvents
  rw [List.mem_append, List.mem_append, List.mem_append]
  left
  left
  left
  unfold drumBar
  rw [List.mem_flatMap]
  refine ⟨0, by simp, ?_⟩
  unfold drumBeat
  simp

theorem noDraws_valid : noDraws.valid := by
  unfold Draws.valid noDraws
  simp
/-! ## Claims about the procedural sequencer -/

/-- With the sequencer stopped, a call other than `start` leaves it stopped,
sets no timer, and generates a pattern only by using up a pending timer. -/
theorem sequencerStep_stopped (m : Music) (c : SequencerCall)
    (hstop : m.sequencerPlaying = some false) (hc : c ≠ SequencerCall.start) :
    (sequencerStep m c).sequencerPlaying = some false ∧
    (sequencerStep m c).patternTimers + (sequencerStep m c).measureCount
      = m.patternTimers + m.measureCount ∧
    (sequencerStep m c).patternTimers ≤ m.patternTimers := by
  cases c with
  | start => exact absurd rfl hc
  | stop => exact ⟨rfl, rfl, le_refl _⟩
  | timer =>
    show (patternTimerFires m).sequencerPlaying = some false ∧
      (patternTimerFires m).patternTimers + (patternTimerFires m).measureCount
        = m.patternTimers + m.measureCount ∧
      (patternTimerFires m).patternTimers ≤ m.patternTimers
    unfold patternTimerFires
    split_ifs with h0
    · exact ⟨hstop, rfl, le_refl _⟩
    · unfold generatePattern
      dsimp only
      rw [if_neg (by rw [hstop]; decide)]
      dsimp only
      refine ⟨hstop, ?_, ?_⟩ <;> omega

theorem sequencerRun_stopped (m : Music) (calls : List SequencerCall)
    (hstop : m.sequencerPlaying = some false) (hc : ∀ c ∈ calls, c ≠ SequencerCall.start) :
    (sequencerRun m calls).sequencerPlaying = some false ∧
    (sequencerRun m calls).patternTimers + (sequencerRun m calls).measureCount
      = m.patternTimers + m.measureCount ∧
    (sequencerRun m calls).patternTimers ≤ m.patternTimers := by
  induction calls generalizing m with
  | nil => exact ⟨hstop, rfl, le_refl _⟩
  | cons c cs ih =>
    obtain ⟨s1, s2, s3⟩ := sequencerStep_stopped m c hstop (hc c (List.mem_cons_self _ _))
    obtain ⟨i1, i2, i3⟩ := ih (sequencerStep m c) s1
      (fun c' h => hc c' (List.mem_cons_of_mem _ h))
    have e : sequencerRun m (c :: cs) = sequencerRun (sequencerStep m c) cs := rfl
    rw [e]
    exact ⟨i1, by omega, by omega⟩

/-- C25, as stated, fails. After `start()` and `stop()` the flag is false and
one next-pattern timer is pending; when it fires, `generatePattern` runs:
`measureCount` goes from 1 to 2 and the events of a new pattern, the kick of
its first beat among them, are scheduled. -/
theorem C25_counterexample :
    (sequencerRun musicOff [SequencerCall.start, SequencerCall.stop]).sequencerPlaying
      = some false ∧
    (sequencerRun musicOff [SequencerCall.start, SequencerCall.stop]).patternTimers = 1 ∧
    (sequencerRun musicOff [SequencerCall.start, SequencerCall.stop]).measureCount = 1 ∧
    (patternTimerFires
      (sequencerRun musicOff [SequencerCall.start, SequencerCall.stop])).measureCount = 2 ∧
    playDrum DrumKind.kick 0 ∈
      firedEvents 0 noDraws (sequencerRun musicOff [SequencerCall.start, SequencerCall.stop]) := by
  refine ⟨rfl, rfl, rfl, rfl, ?_⟩
  unfold firedEvents
  rw [if_neg (by decide)]
  exact kick_scheduled 0 noDraws

/-- C25, amended. After `MusicSequencer.stop()` with no later `start()`, a
next-pattern timer that was pending at the stop still runs `generatePattern`
when it fires: `measureCount` is incremented and the note and drum events of
one more pattern are scheduled, because the is-playing flag is consulted only
after the events are scheduled, before the next timer is set. The firing sets
no further timer, so through any later `stop()` calls and timer firings the
sequencer stays stopped, the number of pending timers does not grow, and each
further pattern uses up one of the timers pending at the stop. -/
theorem C25_stop_ends_generation (currentTime : ℝ) (d : Draws) (m : Music)
    (hstop : m.sequencerPlaying = some false) :
    (patternTimerFires m).sequencerPlaying = some false ∧
    (patternTimerFires m).patternTimers = m.patternTimers - 1 ∧
    (0 < m.patternTimers →
      firedEvents currentTime d m = patternEvents currentTime d ∧
      playDrum DrumKind.kick currentTime ∈ firedEvents currentTime d m ∧
      (patternTimerFires m).measureCount = m.measureCount + 1) ∧
    (m.patternTimers = 0 → firedEvents currentTime d m = [] ∧ patternTimerFires m = m) ∧
    (∀ calls : List SequencerCall, (∀ c ∈ calls, c ≠ SequencerCall.start) →
      (sequencerRun m calls).sequencerPlaying = some false ∧
      (sequencerRun m calls).patternTimers ≤ m.patternTimers ∧
      (sequencerRun m calls).measureCount + (sequencerRun m calls).patternTimers
        = m.measureCount + m.patternTimers) := by
  have hfire : ∀ h : ¬ m.patternTimers = 0, patternTimerFires m =
      { m with patternTimers := m.patternTimers - 1, measureCount := m.measureCount + 1 } := by
    intro h
    unfold patternTimerFires
    rw [if_neg h]
    unfold generatePattern
    dsimp only
    rw [if_neg (by rw [hstop]; decide)]
  have hzero : m.patternTimers = 0 → patternTimerFires m = m := by
    intro h
    unfold patternTimerFires
    rw [if_pos h]
  refine ⟨?_, ?_, ?_, ?_, ?_⟩
  · by_cases h : m.patternTimers = 0
    · rw [hzero h]
      exact hstop
    · rw [hfire h]
      exact hstop
  · by_cases h : m.patternTimers = 0
    · rw [hzero h, h]
    · rw [hfire h]
  · intro hpos
    have h : ¬ m.patternTimers = 0 := by omega
    have e : firedEvents currentTime d m = patternEvents currentTime d := by
      unfold firedEvents
      rw [if_neg h]
    refine ⟨e, ?_, ?_⟩
    · rw [e]
      exact kick_scheduled currentTime d
    · rw [hfire h]
  · intro h
    refine ⟨?_, hzero h⟩
    unfold firedEvents
    rw [if_pos h]
  · intro calls hc
    obtain ⟨r1, r2, r3⟩ := sequencerRun_stopped m calls hstop hc
    exact ⟨r1, r3, by omega⟩

/-- C25 (amended) at a concrete input: the timer left by `start()` fires
after `stop()`. -/
theorem C25_stop_ends_generation_witness :
    (patternTimerFires
      (sequencerRun musicOff [SequencerCall.start, SequencerCall.stop])).sequencerPlaying
      = some false ∧
    (patternTimerFires
      (sequencerRun musicOff [SequencerCall.start, SequencerCall.stop])).patternTimers
      = 1 - 1 ∧
    (patternTimerFires
      (sequencerRun musicOff [SequencerCall.start, SequencerCall.stop])).measureCount
      = 1 + 1 :=
  have h := C25_stop_ends_generation 0 noDraws
    (sequencerRun musicOff [SequencerCall.start, SequencerCall.stop]) rfl
  ⟨h.1, h.2.1, (h.2.2.1 (by decide)).2.2⟩

/-- Without a call of `stop`, a sequencer that has no timer pending while
stopped keeps at most one timer pending. -/
theorem sequencerRun_no_stop (m : Music) (calls : List SequencerCall)
    (hc : ∀ c ∈ calls, c ≠ SequencerCall.stop)
    (h1 : m.patternTimers ≤ 1) (h0 : m.sequencerPlaying ≠ some true → m.patternTimers = 0) :
    (sequencerRun m calls).patternTimers ≤ 1 := by
  induction calls generalizing m with
  | nil => exact h1
  | cons c cs ih =>
    have e : sequencerRun m (c :: cs) = sequencerRun (sequencerStep m c) cs := rfl
    rw [e]
    have hcs : ∀ c' ∈ cs, c' ≠ SequencerCall.stop :=
      fun c' h => hc c' (List.mem_cons_of_mem _ h)
    cases c with
    | stop => exact absurd rfl (hc _ (List.mem_cons_self _ _))
    | start =>
      by_cases hp : m.sequencerPlaying = some true
      · have e1 : sequencerStep m SequencerCall.start = m := by
          show sequencerStart m = m
          unfold sequencerStart
          rw [if_pos hp]
        rw [e1]
        exact ih m hcs h1 h0
      · have e1 : sequencerStep m SequencerCall.start =
            { m with sequencerPlaying := some true, measureCount := m.measureCount + 1
                     patternTimers := m.patternTimers + 1 } := by
          show sequencerStart m = _
          unfold sequencerStart
          rw [if_neg hp]
          rfl
        rw [e1]
        have hz := h0 hp
        exact ih _ hcs (by dsimp only; omega) (fun h => absurd rfl h)
    | timer =>
      by_cases hz : m.patternTimers = 0
      · have e1 : sequencerStep m SequencerCall.timer = m := by
          show patternTimerFires m = m
          unfold patternTimerFires
          rw [if_pos hz]
        rw [e1]
        exact ih m hcs h1 h0
      · have hp : m.sequencerPlaying = some true := by
          by_contra hn
          exact hz (h0 hn)
        have e1 : sequencerStep m SequencerCall.timer =
            { m with measureCount := m.measureCount + 1
                     patternTimers := m.patternTimers - 1 + 1 } := by
          show patternTimerFires m = _
          unfold patternTimerFires
          rw [if_neg hz]
          unfold generatePattern
          dsimp only
          rw [if_pos hp]
        rw [e1]
        exact ih _ hcs (by dsimp only; omega) (fun h => absurd hp h)

/-- C26, as the code behaves. The method `stop` does not cancel the pending
timer, and `start` after it sets another: after `start()`, `stop()`,
`start()` two next-pattern timers are pending while the sequencer plays, and
when both have fired two patterns have been generated in one pattern duration
and two timers are pending again. Pressing the music key three times does
the same. Without a call of `stop` at most one timer is pending. -/
theorem C26_two_streams :
    (∀ calls : List SequencerCall, (∀ c ∈ calls, c ≠ SequencerCall.stop) →
      (sequencerRun musicOff calls).patternTimers ≤ 1) ∧
    (sequencerRun musicOff [SequencerCall.start]).patternTimers = 1 ∧
    (sequencerRun musicOff
      [SequencerCall.start, SequencerCall.stop, SequencerCall.start]).patternTimers = 2 ∧
    (sequencerRun musicOff
      [SequencerCall.start, SequencerCall.stop, SequencerCall.start]).sequencerPlaying
      = some true ∧
    (sequencerRun musicOff
      [SequencerCall.start, SequencerCall.stop, SequencerCall.start]).measureCount = 2 ∧
    (sequencerRun musicOff
      [SequencerCall.start, SequencerCall.stop, SequencerCall.start, SequencerCall.timer,
        SequencerCall.timer]).measureCount = 4 ∧
    (sequencerRun musicOff
      [SequencerCall.start, SequencerCall.stop, SequencerCall.start, SequencerCall.timer,
        SequencerCall.timer]).patternTimers = 2 ∧
    (toggleMusic (toggleMusic (toggleMusic musicOff))).patternTimers = 2 :=
  ⟨fun calls hc => sequencerRun_no_stop musicOff calls hc (Nat.zero_le 1) (fun _ => rfl),
    rfl, rfl, rfl, rfl, rfl, rfl, rfl⟩
/-- C27. For every outcome of the random draws, each in `[0, 1)`, every
note and drum event that one `generatePattern` call schedules for bar `b` has
a start time `t` with `T + 4 * b * beatLength ≤ t < T + 4 * (b + 1) *
beatLength`, where `T` is the audio clock at generation and
`beatLength = 60 / 132`. The events of the pattern are those of the bars 0 to
7, so all start times are at or after `T` and before `T + 32 * beatLength`,
which is the delay of the next-pattern timer. -/
theorem C27_event_window (currentTime : ℝ) (d : Draws) (hd : d.valid) :
    (∀ bar : ℕ, ∀ e ∈ barEvents currentTime d bar,
      currentTime + 4 * bar * beatLength ≤ e.startTime ∧
      e.startTime < currentTime + 4 * (bar + 1) * beatLength) ∧
    (∀ e : AudioEvent,
      e ∈ patternEvents currentTime d ↔ ∃ bar < 8, e ∈ barEvents currentTime d bar) ∧
    (∀ e ∈ patternEvents currentTime d,
      currentTime ≤ e.startTime ∧ e.startTime < currentTime + 32 * beatLength) ∧
    beatLength = 60 / 132 ∧
    patternDelay = 32 * beatLength := by
  have hdelay : patternDelay = 32 * beatLength := by
    unfold patternDelay patternLength
    push_cast
    ring
  refine ⟨?_, ?_, ?_, ?_, hdelay⟩
  · intro bar e he
    exact (barEvents_ok currentTime d hd bar e he).1
  · intro e
    exact patternEvents_mem currentTime d e
  · intro e he
    obtain ⟨bar, hb, hbar⟩ := (patternEvents_mem currentTime d e).mp he
    have h := inBar_pattern currentTime bar hb e.startTime
      (barEvents_ok currentTime d hd bar e hbar).1
    rw [hdelay] at h
    exact h
  · unfold beatLength tempo
    rfl

/-- C27 at a concrete input: the kick of the first beat of a pattern
generated at time 0 with every draw 0. -/
theorem C27_event_window_witness :
    noDraws.valid ∧ playDrum DrumKind.kick 0 ∈ patternEvents 0 noDraws ∧
    (0 : ℝ) ≤ (playDrum DrumKind.kick 0).startTime ∧
    (playDrum DrumKind.kick 0).startTime < 0 + 32 * beatLength :=
  ⟨noDraws_valid, kick_scheduled 0 noDraws,
    (C27_event_window 0 noDraws noDraws_valid).2.2.1 _ (kick_scheduled 0 noDraws)⟩

/-- C30. Every table lookup in `generatePattern` is defined: every note
name in `chordProgressions`, `melodyNotes` and `bassNotes` is a key of
`noteFrequencies`; the bass index `(bar * 3 + index * 5) % 8` and the chord
index `bar % 8` are in range; for every outcome of the random draws the first
lead index and the index of the sustained note lie in `[0, 18]`, and so does
the lead index after the modulo and the reset of a negative index, whatever
it was before; so every event of a pattern has a defined frequency. -/
theorem C30_lookups_defined (currentTime : ℝ) (d : Draws) (hd : d.valid) :
    (∀ chord ∈ chordProgressions, ∀ n ∈ chord, (frequencyOf (some n)).isSome = true) ∧
    (∀ n ∈ melodyNotes, (frequencyOf (some n)).isSome = true) ∧
    (∀ n ∈ bassNotes, (frequencyOf (some n)).isSome = true) ∧
    (bassNotes.length = 8 ∧ chordProgressions.length = 8 ∧ melodyNotes.length = 19) ∧
    (∀ bar index : ℕ, (bar * 3 + index * 5) % bassNotes.length < bassNotes.length) ∧
    (∀ bar : ℕ, bar % chordProgressions.length < chordProgressions.length) ∧
    (∀ bar : ℕ, 0 ≤ ⌊d.startIndex bar * melodyNotes.length⌋ ∧
      ⌊d.startIndex bar * melodyNotes.length⌋ ≤ 18) ∧
    (∀ bar : ℕ, 0 ≤ ⌊d.sustained bar * melodyNotes.length⌋ ∧
      ⌊d.sustained bar * melodyNotes.length⌋ ≤ 18) ∧
    (∀ (bar note : ℕ) (currentIndex direction : ℤ),
      0 ≤ (leadStep d bar note currentIndex direction).1 ∧
      (leadStep d bar note currentIndex direction).1 ≤ 18) ∧
    (∀ e ∈ patternEvents currentTime d, e.defined) := by
  have hlen : ((melodyNotes.length : ℕ) : ℝ) = 19 := by
    simp [melodyNotes]
  have hfloor : ∀ r : ℝ, 0 ≤ r → r < 1 →
      0 ≤ ⌊r * melodyNotes.length⌋ ∧ ⌊r * melodyNotes.length⌋ ≤ 18 := by
    intro r h0 h1
    have h : ⌊r * melodyNotes.length⌋ < 19 := by
      rw [Int.floor_lt, hlen]
      push_cast
      linarith
    refine ⟨?_, by omega⟩
    rw [Int.floor_nonneg, hlen]
    linarith
  obtain ⟨_, _, _, _, _, hstart, _, _, hsus⟩ := hd
  refine ⟨chord_names_defined, melody_names_defined, bass_names_defined, ⟨rfl, rfl, rfl⟩,
    fun bar index => Nat.mod_lt _ (by decide), fun bar => Nat.mod_lt _ (by decide),
    fun bar => hfloor _ (hstart bar).1 (hstart bar).2,
    fun bar => hfloor _ (hsus bar).1 (hsus bar).2,
    fun bar note currentIndex direction => leadStep_range d bar note currentIndex direction, ?_⟩
  intro e he
  obtain ⟨bar, _, hbar⟩ := (patternEvents_mem currentTime d e).mp he
  exact (barEvents_ok currentTime d
    ⟨by assumption, by assumption, by assumption, by assumption, by assumption, hstart,
      by assumption, by assumption, hsus⟩ bar e hbar).2

/-- C30 at a concrete input: the first note of the first chord, and the
lead index after a step down from index 0 with every draw 0. -/
theorem C30_lookups_defined_witness :
    noDraws.valid ∧ (frequencyOf (some "C3")).isSome = true ∧
    0 ≤ (leadStep noDraws 0 0 0 (-1)).1 ∧ (leadStep noDraws 0 0 0 (-1)).1 ≤ 18 :=
  have h := C30_lookups_defined 0 noDraws noDraws_valid
  ⟨noDraws_valid, h.1 ["C3", "E3", "G3", "B3", "D4"] (by decide) "C3" (by decide),
    h.2.2.2.2.2.2.2.2.1 0 0 0 (-1)⟩

end

end Sonic3D
